import Mathlib

/-!
Verification development for the Dapr workflow visualizer's core
extraction pipeline (`src/parsers/pythonParser.ts`, `csharpParser.ts`,
`baseParser.ts`, and the JavaScript parser).  Source code strings are
modelled as `List Char`; the TypeScript string/regex primitives are
embedded below, and each parser function is a direct transliteration of
the corresponding TypeScript function.
-/

namespace DaprViz

/-- Source text, modelled as a list of characters. -/
abbrev Str := List Char

/-- The double-quote character. -/
def dquote : Char := '\x22'

/-- The single-quote character. -/
def squote : Char := '\x27'

/-- The opening-brace character. -/
def obrace : Char := '\x7b'

/-- The closing-brace character. -/
def cbrace : Char := '\x7d'

/-- JavaScript regex `\w` (word character): `[A-Za-z0-9_]`. -/
def isWordCh (c : Char) : Bool :=
  ('a' ≤ c && c ≤ 'z') || ('A' ≤ c && c ≤ 'Z') || ('0' ≤ c && c ≤ '9') || c = '_'

/-- JavaScript regex `\s` (whitespace), restricted to the code points that
occur in workflow source files (ASCII whitespace plus NBSP, BOM and the
Unicode line separators). -/
def isSpaceCh (c : Char) : Bool :=
  c = ' ' || c = '\t' || c = '\n' || c = '\r' || c = '\x0b' || c = '\x0c' ||
  c = '\u00A0' || c = '\u2028' || c = '\u2029' || c = '\uFEFF'

/-- JavaScript regex `.` (any character except line terminators). -/
def isDotCh (c : Char) : Bool :=
  !(c = '\n' || c = '\r' || c = '\u2028' || c = '\u2029')

/-- Number of newline characters in a string. -/
def countNl (s : Str) : Nat := (s.filter (fun c => c = '\n')).length

/-- JavaScript `s.substring(0, index).split('\n').length`: the 1-based line
number of position `index` (as `getLineNumber` in both parsers). -/
def getLineNumber (s : Str) (index : Nat) : Nat := countNl (s.take index) + 1

/-- Auxiliary scan for `jsIndexOfFrom`. -/
def indexOfAux (sub : Str) : Str → Nat → Option Nat
  | [], i => if sub = [] then some i else none
  | s@(_ :: t), i => if sub.isPrefixOf s then some i else indexOfAux sub t (i + 1)

/-- JavaScript `s.indexOf(sub, start)`; `none` models the `-1` result. -/
def jsIndexOfFrom (s sub : Str) (start : Nat) : Option Nat :=
  indexOfAux sub (s.drop start) (min start s.length)

/-- JavaScript `s.indexOf(sub)`. -/
def jsIndexOf (s sub : Str) : Option Nat := jsIndexOfFrom s sub 0

/-- JavaScript `s.includes(sub)`. -/
def jsIncludes (s sub : Str) : Bool := (jsIndexOf s sub).isSome

/-- JavaScript `s.substring(a, b)` (arguments clamped to the string length
and swapped when out of order). -/
def jsSubstring (s : Str) (a b : Nat) : Str :=
  let a2 := min a s.length
  let b2 := min b s.length
  let lo := min a2 b2
  let hi := max a2 b2
  (s.drop lo).take (hi - lo)

/-- JavaScript `s.substring(a)` (to the end of the string). -/
def jsSubstringFrom (s : Str) (a : Nat) : Str := s.drop a

/-- JavaScript `s.slice(a, b)` for non-negative indices, and `s.slice(a)`
via `b = s.length`. -/
def jsSliceNat (s : Str) (a b : Nat) : Str :=
  let lo := min a s.length
  let hi := min b s.length
  (s.drop lo).take (hi - lo)

/-- JavaScript `s.trim()`. -/
def trimS (s : Str) : Str :=
  ((s.dropWhile isSpaceCh).reverse.dropWhile isSpaceCh).reverse

/-- JavaScript `s.split(c)` for a single-character separator. -/
def splitOnCh (c : Char) : Str → List Str
  | [] => [[]]
  | x :: xs =>
    match splitOnCh c xs with
    | [] => if x = c then [[], []] else [[x]]
    | h :: t => if x = c then [] :: h :: t else (x :: h) :: t

/-- JavaScript `s.startsWith(p)`. -/
def startsWithS (s p : Str) : Bool := p.isPrefixOf s

/-- JavaScript `s.endsWith(p)`. -/
def endsWithS (s p : Str) : Bool := p.isSuffixOf s

/-- JavaScript `s.replace(pat, rep)` with a plain-string pattern
(replaces the first occurrence only). -/
def replaceFirst (s pat rep : Str) : Str :=
  match jsIndexOf s pat with
  | none => s
  | some i => s.take i ++ rep ++ s.drop (i + pat.length)

/-- JavaScript `s.replace(/["']/g, '')`: remove every quote character. -/
def stripQuotes (s : Str) : Str :=
  s.filter (fun c => !(c = dquote || c = squote))

/-- Decimal digit character. -/
def digitCh (d : Nat) : Char := Char.ofNat (48 + d % 10)

/-- Auxiliary fuel-based decimal rendering. -/
def natToStrAux : Nat → Nat → Str
  | 0, _ => []
  | fuel + 1, n => if n < 10 then [digitCh n] else natToStrAux fuel (n / 10) ++ [digitCh (n % 10)]

/-- Decimal rendering of a natural number (for `${index}` interpolations). -/
def natToStr (n : Nat) : Str := natToStrAux (n + 1) n

/-- Truthiness of an optional string in JavaScript (`undefined` and the
empty string are falsy). -/
def jsTruthy (o : Option Str) : Bool :=
  match o with
  | none => false
  | some s => !(s = [])

/-- JavaScript `Map.prototype.set`: update in place if the key exists,
otherwise append (insertion order is preserved). -/
def jsMapSet : List (Str × Str) → Str → Str → List (Str × Str)
  | [], k, v => [(k, v)]
  | (k0, v0) :: t, k, v =>
    if k0 = k then (k0, v) :: t else (k0, v0) :: jsMapSet t k v

/-- JavaScript `Map.prototype.get` (entries searched in insertion order). -/
def jsMapGet (m : List (Str × Str)) (k : Str) : Option Str :=
  (m.find? (fun p => p.1 = k)).map (fun p => p.2)

/-!
A small backtracking regular-expression engine implementing the JavaScript
`RegExp` semantics needed by the parsers: leftmost match, greedy and lazy
quantifiers with backtracking, capture groups, `^`/`$` (with and without
the `m` flag), `\b`, and lookahead.  Each TypeScript regex literal is
transcribed into an `Rx` value below.  The matcher is written in
continuation-passing style; a fuel argument makes it structurally
recursive (the fuel bound passed by `rxMatchHere` exceeds the maximal
possible backtracking depth, so it is never exhausted on a match).
-/

/-- Regular-expression abstract syntax. -/
inductive Rx where
  | eps
  | ch (p : Char → Bool)
  | seq (a b : Rx)
  | alt (a b : Rx)
  | star (a : Rx)
  | starL (a : Rx)
  | opt (a : Rx)
  | grp (i : Nat) (a : Rx)
  | bol (m : Bool)
  | eol (m : Bool)
  | wb
  | look (a : Rx)
  | lookN (a : Rx)

/-- Capture-group assignments: group index to captured text. -/
abbrev Caps := List (Nat × Str)

/-- Record a capture (later assignments to the same group overwrite). -/
def capSet (caps : Caps) (i : Nat) (v : Str) : Caps :=
  (i, v) :: caps.filter (fun p => p.1 ≠ i)

/-- Captured text of group `i` (`none` models a non-participating group,
JavaScript `undefined`). -/
def capGet (caps : Caps) (i : Nat) : Option Str :=
  (caps.find? (fun p => p.1 = i)).map (fun p => p.2)

/-- Structural size of a regex, used for the fuel bound. -/
def Rx.size : Rx → Nat
  | .eps | .ch _ | .bol _ | .eol _ | .wb => 1
  | .seq a b | .alt a b => a.size + b.size + 1
  | .star a | .starL a | .opt a | .grp _ a | .look a | .lookN a => a.size + 1

/-- Result of a match attempt: previous character, remaining input, its
length, and captures at the continuation point. -/
abbrev MRes := Option (Option Char × Str × Nat × Caps)

/-- The backtracking matcher.  `prev` is the character immediately before
the current position (`none` at the very start of the input), used for
`^`, `$` and `\b`; `n` is the length of `s`, threaded as a counter so
that the quantifier progress test and the consumed-length computation
are constant-time.  Quantifiers follow the JavaScript semantics: greedy
variants try the longer match first, lazy variants the shorter, and a
quantified body must consume input for the loop to continue. -/
def rxM : Nat → Rx → Option Char → Str → Nat → Caps →
    (Option Char → Str → Nat → Caps → MRes) → MRes
  | 0, _, _, _, _, _, _ => none
  | Nat.succ fuel, rx, prev, s, n, caps, k =>
    match rx with
    | .eps => k prev s n caps
    | .ch p =>
      match s with
      | [] => none
      | c :: s2 => if p c then k (some c) s2 (n - 1) caps else none
    | .seq a b => rxM fuel a prev s n caps fun p2 s2 n2 c2 => rxM fuel b p2 s2 n2 c2 k
    | .alt a b =>
      match rxM fuel a prev s n caps k with
      | some r => some r
      | none => rxM fuel b prev s n caps k
    | .star a =>
      match rxM fuel a prev s n caps (fun p2 s2 n2 c2 =>
          if n2 < n then rxM fuel (.star a) p2 s2 n2 c2 k else none) with
      | some r => some r
      | none => k prev s n caps
    | .starL a =>
      match k prev s n caps with
      | some r => some r
      | none =>
        rxM fuel a prev s n caps fun p2 s2 n2 c2 =>
          if n2 < n then rxM fuel (.starL a) p2 s2 n2 c2 k else none
    | .opt a =>
      match rxM fuel a prev s n caps k with
      | some r => some r
      | none => k prev s n caps
    | .grp i a =>
      rxM fuel a prev s n caps fun p2 s2 n2 c2 =>
        k p2 s2 n2 (capSet c2 i (s.take (n - n2)))
    | .bol m =>
      match prev with
      | none => k prev s n caps
      | some c => if m && c = '\n' then k prev s n caps else none
    | .eol m =>
      match s with
      | [] => k prev s n caps
      | c :: _ => if m && c = '\n' then k prev s n caps else none
    | .wb =>
      let a := match prev with | none => false | some c => isWordCh c
      let b := match s with | [] => false | c :: _ => isWordCh c
      if a != b then k prev s n caps else none
    | .look a =>
      match rxM fuel a prev s n caps (fun p2 s2 n2 c2 => some (p2, s2, n2, c2)) with
      | some (_, _, _, c2) => k prev s n c2
      | none => none
    | .lookN a =>
      match rxM fuel a prev s n caps (fun p2 s2 n2 c2 => some (p2, s2, n2, c2)) with
      | some _ => none
      | none => k prev s n caps

/-- Fuel bound: generous upper bound on the backtracking depth for one
match attempt against a text of length `n`. -/
def fuelFor (size n : Nat) : Nat := (n + 2) * (size + 2) + 16

/-- Attempt a match anchored at the current position (`n = s.length`);
returns the number of consumed characters and the captures. -/
def rxMatchHere (rx : Rx) (size : Nat) (prev : Option Char) (s : Str) (n : Nat) :
    Option (Nat × Caps) :=
  match rxM (fuelFor size n) rx prev s n [] (fun p2 s2 n2 c2 => some (p2, s2, n2, c2)) with
  | some (_, _, n2, caps) => some (n - n2, caps)
  | none => none

/-- Scan forward for the leftmost match (JavaScript `RegExp.exec` without
the `g` flag): returns the match index, the matched text and captures. -/
def rxFindAux (rx : Rx) (size : Nat) : Option Char → Str → Nat → Nat → Option (Nat × Str × Caps)
  | prev, s, n, pos =>
    match rxMatchHere rx size prev s n with
    | some (len, caps) => some (pos, s.take len, caps)
    | none =>
      match s with
      | [] => none
      | c :: s2 => rxFindAux rx size (some c) s2 (n - 1) (pos + 1)

/-- Leftmost match of `rx` in `s`. -/
def rxFind (rx : Rx) (s : Str) : Option (Nat × Str × Caps) :=
  rxFindAux rx rx.size none s s.length 0

/-- Advance `n` characters through the input, keeping the previous
character for the anchors. -/
def rxAdvance : Option Char → Str → Nat → Option Char × Str
  | p, s, 0 => (p, s)
  | p, [], _ + 1 => (p, [])
  | _, c :: s2, n + 1 => rxAdvance (some c) s2 n

/-- Iterated global matching (JavaScript `exec` loop with the `g` flag). -/
def rxAllAux (rx : Rx) (size : Nat) : Nat → Option Char → Str → Nat → Nat → List (Nat × Str × Caps)
  | 0, _, _, _, _ => []
  | fuel + 1, prev, s, n, pos =>
    match rxFindAux rx size prev s n pos with
    | none => []
    | some (i, m, caps) =>
      let step := max m.length 1
      let adv := i - pos + step
      let (prev2, s2) := rxAdvance prev s adv
      (i, m, caps) :: rxAllAux rx size fuel prev2 s2 (n - adv) (i + step)

/-- All matches of a global regex in `s`, in order. -/
def rxAll (rx : Rx) (s : Str) : List (Nat × Str × Caps) :=
  rxAllAux rx rx.size (s.length + 2) none s s.length 0

/-- Literal string regex. -/
def rlit (l : Str) : Rx := (l.map (fun c => Rx.ch (fun x => x = c))).foldr .seq .eps

/-- Case-insensitive literal (for the one `/i` regex in the Python parser). -/
def rlitCI (l : Str) : Rx :=
  (l.map (fun c => Rx.ch (fun x => x.toLower = c.toLower))).foldr .seq .eps

/-- Character class from an explicit character list. -/
def rcls (l : Str) : Rx := .ch (fun c => l.contains c)

/-- Negated character class. -/
def rncls (l : Str) : Rx := .ch (fun c => !(l.contains c))

/-- `\w`. -/
def rw : Rx := .ch isWordCh

/-- `\s`. -/
def rs : Rx := .ch isSpaceCh

/-- `[^\n]`. -/
def rnnl : Rx := .ch (fun c => c ≠ '\n')

/-- `[\s\S]` (any character). -/
def rany : Rx := .ch (fun _ => true)

/-- `.` (any character except line terminators). -/
def rdot : Rx := .ch isDotCh

/-- One-or-more (`+`), as `a · a*`. -/
def rplus (a : Rx) : Rx := .seq a (.star a)

/-- Sequence of regexes. -/
def rseq (l : List Rx) : Rx := l.foldr .seq .eps

/-- `["']`: either quote character. -/
def rquote : Rx := .ch (fun c => c = dquote || c = squote)

/-- Literal regex from a string literal. -/
def rl (s : String) : Rx := rlit s.toList

/-- Case-insensitive literal from a string literal. -/
def rlCI (s : String) : Rx := rlitCI s.toList

/-- `(?:yield|await)`. -/
def rYieldAwait : Rx := .alt (rl "yield") (rl "await")

/-!
Transcriptions of the regex literals in `pythonParser.ts`.  Group numbers
match the JavaScript numbering.
-/

/-- `findAllWorkflows` workflow pattern:
`@(?:dapr_)?workflow[^\n]*\n\s*(?:async\s+)?def\s+(\w+)` (g). -/
def pyWorkflowPattern : Rx :=
  rseq [rl "@", .opt (rl "dapr_"), rl "workflow", .star rnnl, rl "\n", .star rs,
        .opt (rseq [rl "async", rplus rs]), rl "def", rplus rs, .grp 1 (rplus rw)]

/-- `findAllWorkflows` activity delimiter: `\n@activity\b`. -/
def pyActivityAfterPattern : Rx := rseq [rl "\n@activity", .wb]

/-- `extractWorkflowInputInfo` signature pattern:
`@(?:dapr_)?workflow[^\n]*\n\s*(?:async\s+)?def\s+\w+\s*\([^,]+,\s*(\w+)\s*:`. -/
def pyFuncMatchPattern : Rx :=
  rseq [rl "@", .opt (rl "dapr_"), rl "workflow", .star rnnl, rl "\n", .star rs,
        .opt (rseq [rl "async", rplus rs]), rl "def", rplus rs, rplus rw, .star rs,
        rl "(", rplus (rncls [',']), rl ",", .star rs, .grp 1 (rplus rw), .star rs, rl ":"]

/-- `extractWorkflowInputInfo` dataclass pattern (dynamic input type `t`):
`@dataclass[\s\S]*?class\s+T[^:]*:[\s\S]*?(?=\n(?:@|class|def)|$)` (g). -/
def pyDataclassPattern1 (t : Str) : Rx :=
  rseq [rl "@dataclass", .starL rany, rl "class", rplus rs, rlit t,
        .star (rncls [':']), rl ":", .starL rany,
        .look (.alt (rseq [rl "\n", .alt (rl "@") (.alt (rl "class") (rl "def"))]) (.eol false))]

/-- `extractWorkflowInputInfo` property pattern: `^\s+(\w+)\s*:` (gm). -/
def pyPropPattern1 : Rx :=
  rseq [.bol true, rplus rs, .grp 1 (rplus rw), .star rs, rl ":"]

/-- `extractMetadata` docstring pattern:
`(?:@(?:dapr_)?workflow[^\n]*\n\s*(?:async\s+)?def\s+\w+[^:]+:\s*\n\s*)("""..."""|'''...''')`. -/
def pyDocstringPattern : Rx :=
  rseq [rl "@", .opt (rl "dapr_"), rl "workflow", .star rnnl, rl "\n", .star rs,
        .opt (rseq [rl "async", rplus rs]), rl "def", rplus rs, rplus rw,
        rplus (rncls [':']), rl ":", .star rs, rl "\n", .star rs,
        .grp 1 (.alt
          (rseq [rlit [dquote, dquote, dquote], .starL rany, rlit [dquote, dquote, dquote]])
          (rseq [rlit [squote, squote, squote], .starL rany, rlit [squote, squote, squote]]))]

/-- `extractMetadata` type-hint pattern:
`def\s+\w+\s*\([^,]+,\s*\w+\s*:\s*(\w+)[^)]*\)\s*->\s*(\w+)`. -/
def pyTypeHintPattern : Rx :=
  rseq [rl "def", rplus rs, rplus rw, .star rs, rl "(", rplus (rncls [',']), rl ",",
        .star rs, rplus rw, .star rs, rl ":", .star rs, .grp 1 (rplus rw),
        .star (rncls [')']), rl ")", .star rs, rl "->", .star rs, .grp 2 (rplus rw)]

/-- `extractMetadata` dataclass pattern (dynamic input type `t`):
`@dataclass[\s\S]*?class\s+T[^:]*:[\s\S]*?(?=\n(?:@|class\s|def\s)|$)` (m). -/
def pyDataclassPattern2 (t : Str) : Rx :=
  rseq [rl "@dataclass", .starL rany, rl "class", rplus rs, rlit t,
        .star (rncls [':']), rl ":", .starL rany,
        .look (.alt (rseq [rl "\n",
          .alt (rl "@") (.alt (rseq [rl "class", rs]) (rseq [rl "def", rs]))]) (.eol false))]

/-- `extractMetadata` property pattern: `^\s{4}(\w+)\s*:` (gm). -/
def pyPropPattern2 : Rx :=
  rseq [.bol true, rs, rs, rs, rs, .grp 1 (rplus rw), .star rs, rl ":"]

/-- `extractReturnInfo` pattern: `^    return\s+(.+)$` (gm). -/
def pyReturnPattern : Rx :=
  rseq [.bol true, rl "    return", rplus rs, .grp 1 (rplus rdot), .eol true]

/-- `parseReturnExpression` dict-key pattern: `["'](\w+)["']\s*:` (g). -/
def pyKeyPattern : Rx :=
  rseq [rquote, .grp 1 (rplus rw), rquote, .star rs, rl ":"]

/-- `parseReturnExpression` constructor test: `^\w+\s*\(`. -/
def pyCtorPattern : Rx := rseq [.bol false, rplus rw, .star rs, rl "("]

/-- `parseReturnExpression` argument pattern: `(\w+)\s*=` (g). -/
def pyArgPattern : Rx := rseq [.grp 1 (rplus rw), .star rs, rl "="]

/-- `extractInputExpression` marker: `,\s*input\s*=\s*`. -/
def pyInputMarkerPattern : Rx :=
  rseq [rl ",", .star rs, rl "input", .star rs, rl "=", .star rs]

/-- Optional output-variable assignment `(?:(\w+)(?:\s*:\s*\w+)?\s*=\s*)?`
shared by several step patterns (group 1). -/
def pyAsgnOpt : Rx :=
  .opt (rseq [.grp 1 (rplus rw), .opt (rseq [.star rs, rl ":", .star rs, rplus rw]),
              .star rs, rl "=", .star rs])

/-- `parseActivities` awaited pattern:
`(?:(\w+)(?:\s*:\s*\w+)?\s*=\s*)?(?:yield|await)\s+ctx\.call_activity\s*\(\s*(\w+)` (g). -/
def pyAwaitedPattern : Rx :=
  rseq [pyAsgnOpt, rYieldAwait, rplus rs, rl "ctx.call_activity", .star rs, rl "(",
        .star rs, .grp 2 (rplus rw)]

/-- `parseActivities` parallel-task pattern:
`(\w+_task|\w+Task)\s*=\s*ctx\.call_activity\s*\(\s*(\w+)` (g). -/
def pyTaskPattern : Rx :=
  rseq [.grp 1 (.alt (rseq [rplus rw, rl "_task"]) (rseq [rplus rw, rl "Task"])),
        .star rs, rl "=", .star rs, rl "ctx.call_activity", .star rs, rl "(",
        .star rs, .grp 2 (rplus rw)]

/-- `parseActivities` string-name pattern:
`(?:(\w+)(?:\s*:\s*\w+)?\s*=\s*)?(?:yield|await)\s+ctx\.call_activity\s*\(\s*["']([^"']+)["']` (g). -/
def pyStringActivityPattern : Rx :=
  rseq [pyAsgnOpt, rYieldAwait, rplus rs, rl "ctx.call_activity", .star rs, rl "(",
        .star rs, rquote, .grp 2 (rplus (rncls [dquote, squote])), rquote]

/-- `parseParallelBlocks` pattern:
`(?:(\w+(?:\s*,\s*\w+)*)\s*=\s*)?(?:yield|await)\s+when_all\s*\(\s*\[([^\]]+)\]\s*\)` (g). -/
def pyWhenAllPattern : Rx :=
  rseq [.opt (rseq [.grp 1 (rseq [rplus rw, .star (rseq [.star rs, rl ",", .star rs, rplus rw])]),
                    .star rs, rl "=", .star rs]),
        rYieldAwait, rplus rs, rl "when_all", .star rs, rl "(", .star rs, rl "[",
        .grp 2 (rplus (rncls [']'])), rl "]", .star rs, rl ")"]

/-- `parseParallelBlocks` task-variable pattern: `\w+_task|\w+Task` (g). -/
def pyTaskVarPattern : Rx :=
  .alt (rseq [rplus rw, rl "_task"]) (rseq [rplus rw, rl "Task"])

/-- `parseChildWorkflows` pattern:
`(?:(\w+)(?:\s*:\s*\w+)?\s*=\s*)?(?:yield|await)\s+ctx\.call_child_workflow\s*\(\s*(\w+|["'][^"']+["'])(?:\s*,\s*input\s*=\s*([^)\n]+))?\s*\)` (g). -/
def pyChildPattern : Rx :=
  rseq [pyAsgnOpt, rYieldAwait, rplus rs, rl "ctx.call_child_workflow", .star rs, rl "(",
        .star rs,
        .grp 2 (.alt (rplus rw) (rseq [rquote, rplus (rncls [dquote, squote]), rquote])),
        .opt (rseq [.star rs, rl ",", .star rs, rl "input", .star rs, rl "=", .star rs,
                    .grp 3 (rplus (rncls [')', '\n']))]),
        .star rs, rl ")"]

/-- `parseTimers` pattern:
`(?:(\w+)\s*=\s*)?(?:yield|await)\s+ctx\.create_timer\s*\(([^)]+)\)` (g). -/
def pyTimerPattern : Rx :=
  rseq [.opt (rseq [.grp 1 (rplus rw), .star rs, rl "=", .star rs]),
        rYieldAwait, rplus rs, rl "ctx.create_timer", .star rs, rl "(",
        .grp 2 (rplus (rncls [')'])), rl ")"]

/-- `parseExternalEvents` pattern:
`(?:(\w+)\s*=\s*)?(?:yield|await)\s+ctx\.wait_for_external_event\s*\(\s*["']([^"']+)["']` (g). -/
def pyEventPattern : Rx :=
  rseq [.opt (rseq [.grp 1 (rplus rw), .star rs, rl "=", .star rs]),
        rYieldAwait, rplus rs, rl "ctx.wait_for_external_event", .star rs, rl "(",
        .star rs, rquote, .grp 2 (rplus (rncls [dquote, squote])), rquote]

/-- `parseDecisions` pattern:
`if\s+([^:]+):\s*\n[^#\n]*(?:yield|await)\s+ctx\.` (g). -/
def pyIfPattern : Rx :=
  rseq [rl "if", rplus rs, .grp 1 (rplus (rncls [':'])), rl ":", .star rs, rl "\n",
        .star (rncls ['#', '\n']), rYieldAwait, rplus rs, rl "ctx."]

/-- Character class `[\w"'\[\].]` used by the condition-source patterns. -/
def rCondTail : Rx :=
  .ch (fun c => isWordCh c || c = dquote || c = squote || c = '[' || c = ']' || c = '.')

/-- `analyzeConditionSources` input pattern (dynamic parameter `p`):
`P(?:\.|\[)[\w"'\[\].]+` (g). -/
def pyInputRefPattern (p : Str) : Rx :=
  rseq [rlit p, .ch (fun c => c = '.' || c = '['), rplus rCondTail]

/-- `analyzeConditionSources` variable pattern (dynamic variable `v`):
`V(?:\.|\[)[\w"'\[\].]+|V(?![\w])` (g). -/
def pyVarRefPattern (v : Str) : Rx :=
  .alt (rseq [rlit v, .ch (fun c => c = '.' || c = '['), rplus rCondTail])
       (rseq [rlit v, .lookN rw])

/-- `parseRetryPolicies` pattern: `RetryPolicy\s*\([^)]+\)` (g). -/
def pyRetryPattern : Rx :=
  rseq [rl "RetryPolicy", .star rs, rl "(", rplus (rncls [')']), rl ")"]

/-- `classifyExpression` variable-reference test:
`^\w+(\.\w+|\[['"]?\w+['"]?\])*$`. -/
def pyVarExprPattern : Rx :=
  rseq [.bol false, rplus rw,
        .star (.alt (rseq [rl ".", rplus rw])
                    (rseq [rl "[", .opt rquote, rplus rw, .opt rquote, rl "]"])),
        .eol false]

/-- `getShortPath` bracket pattern: `\[['"]?(\w+)['"]?\]$`. -/
def pyBracketTailPattern : Rx :=
  rseq [rl "[", .opt rquote, .grp 1 (rplus rw), .opt rquote, rl "]", .eol false]

/-- `extractWorkflowName` decorator pattern:
`@(?:dapr_)?workflow(?:\([^)]*\))?\s*\n\s*(?:async\s+)?def\s+(\w+)`. -/
def pyDecorPattern : Rx :=
  rseq [rl "@", .opt (rl "dapr_"), rl "workflow",
        .opt (rseq [rl "(", .star (rncls [')']), rl ")"]), .star rs, rl "\n", .star rs,
        .opt (rseq [rl "async", rplus rs]), rl "def", rplus rs, .grp 1 (rplus rw)]

/-- `extractWorkflowName` fallback pattern:
`(?:async\s+)?def\s+(\w*workflow\w*)\s*\(` (i). -/
def pyFuncWorkflowNamePattern : Rx :=
  rseq [.opt (rseq [rlCI "async", rplus rs]), rlCI "def", rplus rs,
        .grp 1 (rseq [.star rw, rlCI "workflow", .star rw]), .star rs, rl "("]

/-- `csharpParser.extractReturnInfo` pattern:
`return\s+new\s+\w+\s*{([^}]+)}` (g). -/
def csReturnPattern : Rx :=
  rseq [rl "return", rplus rs, rl "new", rplus rs, rplus rw, .star rs,
        .ch (fun c => c = obrace), .grp 1 (rplus (.ch (fun c => c ≠ cbrace))),
        .ch (fun c => c = cbrace)]

/-- `csharpParser.parseReturnExpression` pattern: `(\w+)\s*=` (g). -/
def csPropAssignPattern : Rx := rseq [.grp 1 (rplus rw), .star rs, rl "="]

/-!
The data model of `src/types/workflow.ts` as used by the parsers.  Node
`metadata` is a free-form record in TypeScript; the keys the parsers
actually read and write (`lineNumber`, `isParallelTask`, `taskVariable`,
`fullCondition`, `dataSources`, `tasks`, `outputs`, `taskNodeIds`,
`returnType`) are modelled as optional fields of `WorkflowNode`.
-/

/-- `WorkflowNode['type']`. -/
inductive NodeType where
  | start | stop | activity | subOrchestration | timer | event | decision | retry | parallel
deriving DecidableEq, Repr

/-- `DataSourceType`. -/
inductive DataSrcType where
  | workflow_input | activity_output | event_data | literal | constructed
deriving DecidableEq, Repr

/-- `DataSource`. -/
structure DataSource where
  sourceType : DataSrcType
  sourcePath : Str
  sourceActivityId : Option Str := none
  targetProperty : Option Str := none
deriving DecidableEq, Repr

/-- `WorkflowEdge['type']`. -/
inductive EdgeType where
  | dflt | parallel | data_workflow_input | data_activity_output | data_event
deriving DecidableEq, Repr

/-- `WorkflowEdge`. -/
structure WorkflowEdge where
  id : Str
  source : Str
  target : Str
  label : Option Str := none
  type : EdgeType
  dataFlow : Option Str := none
  dataSourceType : Option DataSrcType := none
deriving DecidableEq, Repr

/-- `WorkflowNode`, with the metadata keys used by the parsers inlined. -/
structure WorkflowNode where
  id : Str
  type : NodeType
  name : Str
  label : Str
  lineNumber : Option Nat := none
  isParallelTask : Bool := false
  taskVariable : Option Str := none
  fullCondition : Option Str := none
  metaDataSources : List DataSource := []
  tasks : List Str := []
  outputs : List Str := []
  taskNodeIds : List Str := []
  returnType : Option Str := none
  output : Option Str := none
  input : Option Str := none
  dataSources : List DataSource := []
deriving DecidableEq, Repr

/-- Workflow-level metadata, including the `_debug` entries the Python
parser attaches before returning. -/
structure WorkflowMeta where
  description : Option Str := none
  inputType : Option Str := none
  outputType : Option Str := none
  inputProperties : Option (List Str) := none
  outputFields : Option (List Str) := none
  returnExpression : Option Str := none
  debugTaskMap : List (Str × Str) := []
  debugGroupMap : List (Str × Str) := []
  debugNodeCount : Nat := 0
  debugEdgeCount : Nat := 0
deriving DecidableEq, Repr

/-- `ActivityDataFlow` (the `output.type` field is always `undefined` in
the Python parser and is modelled by `outputType`). -/
structure ActivityDataFlow where
  nodeId : Str
  name : Str
  type : NodeType
  inputs : List DataSource
  outputVar : Option Str
  outputType : Option Str := none
  lineNumber : Option Nat
deriving DecidableEq, Repr

/-- `DataFlowMetadata`. -/
structure DataFlowMetadata where
  workflow : Str
  inputType : Option Str
  inputProperties : List Str
  parameterName : Str
  activities : List ActivityDataFlow
  outputVariableMap : List (Str × Str)
deriving DecidableEq, Repr

/-- `WorkflowDefinition` (the `(workflow as any)._lineOffset` assignment is
modelled by the `lineOffset` field). -/
structure WorkflowDefinition where
  id : Str
  name : Str
  language : Str
  filePath : Str
  nodes : List WorkflowNode
  edges : List WorkflowEdge
  metadata : Option WorkflowMeta := none
  dataFlow : Option DataFlowMetadata := none
  lineOffset : Nat := 0
deriving DecidableEq, Repr

/-- One entry of `ParseResult.errors`. -/
structure ParseError where
  message : Str
deriving DecidableEq, Repr

/-- `ParseResult`. -/
structure ParseResult where
  success : Bool
  workflow : Option WorkflowDefinition := none
  errors : List ParseError := []
deriving DecidableEq, Repr

/-- The mutable instance fields of `PythonWorkflowParser` (declared in
`pythonParser.ts` lines 31-37); `parse` resets only the three maps. -/
structure PyState where
  outputVariableMap : List (Str × Str) := []
  workflowInputParam : Str := "input".toList
  inputProperties : List Str := []
  parallelTaskMap : List (Str × Str) := []
  parallelGroupMap : List (Str × Str) := []
deriving DecidableEq, Repr

/-- `BaseWorkflowParser.createNode` (the `label || name` fallback applies
when the label argument is the empty string or absent). -/
def createNode (id : Str) (type : NodeType) (name : Str) (label : Option Str) : WorkflowNode :=
  { id, type, name, label := match label with | some l => if l = [] then name else l | none => name }

/-- `BaseWorkflowParser.addStartEndNodes`: unshift a start node and push
an end node. -/
def addStartEndNodes (nodes : List WorkflowNode) : List WorkflowNode :=
  [createNode "start".toList .start "Start".toList (some "Start".toList)] ++ nodes ++
  [createNode "end".toList .stop "End".toList (some "End".toList)]

/-!
`pythonParser.findMatchingBracket` and its caller
`extractInputExpression`.
-/

/-- The string-literal state of the `findMatchingBracket` loop
(`inString` in the source: `null`, a single quote character, or a
three-character triple quote). -/
inductive QuoteSt where
  | noQ
  | single (c : Char)
  | triple (c : Char)
deriving DecidableEq, Repr

/-- The `while` loop of `findMatchingBracket`: `prev` is
`sourceCode[i-1]`, `rest` the input from position `i` on.  On each
character the loop first handles quotes (entering or leaving a
string-literal region, with triple quotes consumed as a unit and quotes
preceded by a backslash ignored), then adjusts the depth when outside a
string, and finally returns `i - 1` when the input is exhausted or the
depth reaches zero. -/
def fmbGo (openChar closeChar : Char) : Char → Str → Nat → Nat → QuoteSt → Nat
  | _, [], i, _, _ => i - 1
  | prev, c :: rest, i, depth, q =>
    if depth = 0 then i - 1
    else if (c = dquote || c = squote) && prev ≠ '\\' then
      match q with
      | .noQ =>
        match rest with
        | c2 :: c3 :: rest3 =>
          if c2 = c && c3 = c then fmbGo openChar closeChar c3 rest3 (i + 3) depth (.triple c)
          else fmbGo openChar closeChar c (c2 :: c3 :: rest3) (i + 1) depth (.single c)
        | [c2] => fmbGo openChar closeChar c [c2] (i + 1) depth (.single c)
        | [] => fmbGo openChar closeChar c [] (i + 1) depth (.single c)
      | .single qc =>
        if qc = c then fmbGo openChar closeChar c rest (i + 1) depth .noQ
        else fmbGo openChar closeChar c rest (i + 1) depth (.single qc)
      | .triple qc =>
        if qc = c then
          match rest with
          | c2 :: c3 :: rest3 =>
            if c2 = qc && c3 = qc then fmbGo openChar closeChar c3 rest3 (i + 3) depth .noQ
            else fmbGo openChar closeChar c (c2 :: c3 :: rest3) (i + 1) depth (.triple qc)
          | [c2] => fmbGo openChar closeChar c [c2] (i + 1) depth (.triple qc)
          | [] => fmbGo openChar closeChar c [] (i + 1) depth (.triple qc)
        else fmbGo openChar closeChar c rest (i + 1) depth (.triple qc)
    else
      match q with
      | .noQ =>
        if c = openChar then fmbGo openChar closeChar c rest (i + 1) (depth + 1) .noQ
        else if c = closeChar then fmbGo openChar closeChar c rest (i + 1) (depth - 1) .noQ
        else fmbGo openChar closeChar c rest (i + 1) depth .noQ
      | .single qc => fmbGo openChar closeChar c rest (i + 1) depth (.single qc)
      | .triple qc => fmbGo openChar closeChar c rest (i + 1) depth (.triple qc)

/-- `pythonParser.findMatchingBracket`. -/
def findMatchingBracket (sourceCode : Str) (openIndex : Nat) : Nat :=
  let openChar := sourceCode.getD openIndex (Char.ofNat 0)
  let closeChar := if openChar = obrace then cbrace else if openChar = '[' then ']' else ')'
  fmbGo openChar closeChar openChar (sourceCode.drop (openIndex + 1)) (openIndex + 1) 1 .noQ

/-- `pythonParser.extractInputExpression`. -/
def extractInputExpression (sourceCode : Str) (matchIndex : Nat) : Option Str :=
  match jsIndexOfFrom sourceCode "call_activity".toList matchIndex with
  | none => none
  | some callStart =>
    match jsIndexOfFrom sourceCode "(".toList callStart with
    | none => none
    | some parenStart =>
      match rxFind pyInputMarkerPattern (jsSubstringFrom sourceCode parenStart) with
      | none => none
      | some (mIdx, mStr, _) =>
        let inputStart := parenStart + mIdx + mStr.length
        let ch := sourceCode.getD inputStart (Char.ofNat 0)
        if ch = obrace || ch = '[' || ch = '(' then
          let endIndex := findMatchingBracket sourceCode inputStart
          some (trimS (jsSubstring sourceCode inputStart (endIndex + 1)))
        else
          match jsIndexOfFrom sourceCode ")".toList inputStart with
          | none => none
          | some endIndex => some (trimS (jsSubstring sourceCode inputStart endIndex))

/-!
The data-source classifier (`classifyExpression`, `parseDictEntries`,
`parseKeyValue`, `analyzeDataSource`, `analyzeConditionSources`).
-/

/-- `pythonParser.parseKeyValue`. -/
def parseKeyValue (str : Str) : Option (Str × Str) :=
  match jsIndexOf str ":".toList with
  | none => none
  | some colonIdx =>
    some (stripQuotes (trimS (jsSliceNat str 0 colonIdx)),
          trimS (jsSliceNat str (colonIdx + 1) str.length))

/-- The character loop of `pythonParser.parseDictEntries` (split on
top-level commas, tracking bracket depth). -/
def parseDictEntriesGo : Str → Int → Str → List (Str × Str) → List (Str × Str)
  | [], _, current, acc =>
    if trimS current ≠ [] then
      acc ++ (match parseKeyValue (trimS current) with | some e => [e] | none => [])
    else acc
  | c :: rest, depth, current, acc =>
    let depth1 := if c = obrace || c = '[' || c = '(' then depth + 1 else depth
    let depth2 := if c = cbrace || c = ']' || c = ')' then depth1 - 1 else depth1
    if c = ',' && depth2 = 0 then
      parseDictEntriesGo rest depth2 []
        (acc ++ (match parseKeyValue (trimS current) with | some e => [e] | none => []))
    else parseDictEntriesGo rest depth2 (current ++ [c]) acc

/-- `pythonParser.parseDictEntries`. -/
def parseDictEntries (dictContent : Str) : List (Str × Str) :=
  parseDictEntriesGo dictContent 0 [] []

/-- The producer-map loop of `classifyExpression` (entries scanned in
insertion order; the first variable that roots the expression wins). -/
def classifyLoop (entries : List (Str × Str)) (expr : Str) (tp : Option Str) :
    Option DataSource :=
  match entries with
  | [] => none
  | (varName, activityId) :: rest =>
    if expr = varName || startsWithS expr (varName ++ ".".toList) ||
       startsWithS expr (varName ++ "[".toList) then
      some { sourceType := .activity_output, sourcePath := expr,
             sourceActivityId := some activityId, targetProperty := tp }
    else classifyLoop rest expr tp

/-- `pythonParser.classifyExpression`. -/
def classifyExpression (st : PyState) (expr : Str) (targetProperty : Option Str) :
    DataSource :=
  let inputParam := st.workflowInputParam
  if expr = inputParam || startsWithS expr (inputParam ++ ".".toList) ||
     startsWithS expr (inputParam ++ "[".toList) then
    { sourceType := .workflow_input, sourcePath := expr, targetProperty }
  else
    match classifyLoop st.outputVariableMap expr targetProperty with
    | some ds => ds
    | none =>
      if (startsWithS expr [dquote] && endsWithS expr [dquote]) ||
         (startsWithS expr [squote] && endsWithS expr [squote]) then
        { sourceType := .literal, sourcePath := expr, targetProperty }
      else if (rxFind pyVarExprPattern expr).isSome then
        { sourceType := .workflow_input, sourcePath := expr, targetProperty }
      else
        { sourceType := .literal, sourcePath := expr, targetProperty }

/-- `pythonParser.analyzeDataSource`. -/
def analyzeDataSource (st : PyState) (inputExpr : Option Str) : List DataSource :=
  match inputExpr with
  | none => []
  | some expr =>
    if startsWithS expr [obrace] && endsWithS expr [cbrace] then
      let dictContent := (expr.drop 1).dropLast
      let entries := parseDictEntries dictContent
      let sources := entries.map (fun e => classifyExpression st e.2 (some e.1))
      let hasWI := sources.any (fun s => s.sourceType = .workflow_input)
      let hasAO := sources.any (fun s => s.sourceType = .activity_output)
      if hasWI && hasAO then
        sources.map (fun s =>
          { s with sourceType := if 1 < sources.length then s.sourceType else .constructed })
      else sources
    else [classifyExpression st expr none]

/-- `pythonParser.analyzeConditionSources`. -/
def analyzeConditionSources (st : PyState) (condition : Str) : List DataSource :=
  let inputSources := (rxAll (pyInputRefPattern st.workflowInputParam) condition).map
    (fun r => { sourceType := .workflow_input, sourcePath := r.2.1 : DataSource })
  let varSources := (st.outputVariableMap.map (fun p =>
    (rxAll (pyVarRefPattern p.1) condition).map (fun r =>
      { sourceType := .activity_output, sourcePath := r.2.1,
        sourceActivityId := jsMapGet st.outputVariableMap p.1 : DataSource }))).flatten
  inputSources ++ varSources

/-!
Metadata extraction (`extractMetadata`, `extractWorkflowName`,
`extractWorkflowInputInfo`, `extractReturnInfo`,
`parseReturnExpression`).
-/

/-- JavaScript `s.replace(/"""|'''/g, '')`: remove every triple-quote
occurrence, scanning left to right. -/
def stripTriples : Str → Str
  | [] => []
  | c :: rest =>
    if c = dquote || c = squote then
      match rest with
      | c2 :: c3 :: rest3 =>
        if c2 = c && c3 = c then stripTriples rest3
        else c :: stripTriples (c2 :: c3 :: rest3)
      | [c2] => c :: stripTriples [c2]
      | [] => c :: stripTriples []
    else c :: stripTriples rest

/-- `pythonParser.extractMetadata`. -/
def extractMetadata (sourceCode : Str) : WorkflowMeta :=
  let md0 : WorkflowMeta := { inputProperties := some [] }
  let md1 := match rxFind pyDocstringPattern sourceCode with
    | some (_, _, caps) =>
      match capGet caps 1 with
      | some d => { md0 with description := some (trimS (stripTriples d)) }
      | none => md0
    | none => md0
  let md2 := match rxFind pyTypeHintPattern sourceCode with
    | some (_, _, caps) => { md1 with inputType := capGet caps 1, outputType := capGet caps 2 }
    | none => md1
  match md2.inputType with
  | some t =>
    match rxFind (pyDataclassPattern2 t) sourceCode with
    | some (_, m, _) =>
      let props := (rxAll pyPropPattern2 m).filterMap (fun r => capGet r.2.2 1)
      let keep := props.filter (fun p => !(startsWithS p "_".toList))
      { md2 with inputProperties := some ((md2.inputProperties.getD []) ++ keep) }
    | none => md2
  | none => md2

/-- `pythonParser.extractWorkflowName`. -/
def extractWorkflowName (sourceCode filePath : Str) : Str :=
  match rxFind pyDecorPattern sourceCode with
  | some (_, _, caps) => (capGet caps 1).getD []
  | none =>
    match rxFind pyFuncWorkflowNamePattern sourceCode with
    | some (_, _, caps) => (capGet caps 1).getD []
    | none =>
      let a := (splitOnCh '/' filePath).getLastD []
      let fileName := if a ≠ [] then a else
        let b := (splitOnCh '\\' filePath).getLastD []
        if b ≠ [] then b else "Unknown".toList
      replaceFirst fileName ".py".toList []

/-- `pythonParser.extractWorkflowInputInfo` (a state transformer on the
instance fields: sets `workflowInputParam` only when the signature regex
matches, and appends to `inputProperties` without ever resetting it). -/
def extractWorkflowInputInfo (st : PyState) (sourceCode : Str) : PyState :=
  let st1 := match rxFind pyFuncMatchPattern sourceCode with
    | some (_, _, caps) =>
      match capGet caps 1 with
      | some p => { st with workflowInputParam := p }
      | none => st
    | none => st
  let metadata := extractMetadata sourceCode
  match metadata.inputType with
  | some t =>
    match rxAll (pyDataclassPattern1 t) sourceCode with
    | [] => st1
    | (_, m, _) :: _ =>
      let props := (rxAll pyPropPattern1 m).filterMap (fun r => capGet r.2.2 1)
      let keep := props.filter (fun p => !(startsWithS p "_".toList))
      { st1 with inputProperties := st1.inputProperties ++ keep }
  | none => st1

/-- `pythonParser.parseReturnExpression`. -/
def parseReturnExpression (expression : Str) : List Str :=
  if startsWithS expression [obrace] then
    (rxAll pyKeyPattern expression).filterMap (fun r => capGet r.2.2 1)
  else if (rxFind pyCtorPattern expression).isSome then
    (rxAll pyArgPattern expression).filterMap (fun r => capGet r.2.2 1)
  else []

/-- JavaScript `if (!allFields.includes(f)) allFields.push(f)`. -/
def pushUnique (acc : List Str) (f : Str) : List Str :=
  if acc.contains f then acc else acc ++ [f]

/-- The recognized return expressions of the Python extractor
(`extractReturnInfo` lines 429-435: the trimmed capture of each
`^    return\s+(.+)$` match). -/
def pyReturns (sourceCode : Str) : List Str :=
  (rxAll pyReturnPattern sourceCode).filterMap (fun r => (capGet r.2.2 1).map trimS)

/-- `pythonParser.extractReturnInfo` (sets both `outputFields` and
`returnExpression` when at least one return statement is recognized). -/
def extractReturnInfo (sourceCode : Str) (wf : WorkflowDefinition) : WorkflowDefinition :=
  let returns := pyReturns sourceCode
  if returns = [] then wf
  else
    let allFields := returns.foldl
      (fun acc expr => (parseReturnExpression expr).foldl pushUnique acc) []
    let md := wf.metadata.getD {}
    let md2 := { md with
                 outputFields := some allFields,
                 returnExpression := some (returns.getLastD []) }
    { wf with metadata := some md2 }

/-!
Workflow discovery and scoping (`findAllWorkflows` and the scoping block
at the top of `parse`).
-/

/-- One entry of the `findAllWorkflows` result. -/
structure WfRange where
  name : Str
  startLine : Nat
  endLine : Nat
  startIndex : Nat
  endIndex : Nat
deriving DecidableEq, Repr

/-- The range-building loop of `findAllWorkflows`.  `next.startIndex - 1`
is the JavaScript subtraction; successive match indices are strictly
increasing, so the argument is positive whenever a next match exists. -/
def fawBuild (sourceCode : Str) (lineCount : Nat) :
    List (Str × Nat × Nat) → List WfRange
  | [] => []
  | (name, startIndex, line) :: rest =>
    let (endIndex, endLine) :=
      match rest with
      | (_, nextStart, nextLine) :: _ => (nextStart - 1, nextLine - 1)
      | [] =>
        match rxFind pyActivityAfterPattern (jsSubstringFrom sourceCode startIndex) with
        | some (ai, _, _) =>
          (startIndex + ai, getLineNumber sourceCode (startIndex + ai) - 1)
        | none => (sourceCode.length, lineCount)
    { name := name, startLine := line, endLine := endLine,
      startIndex := startIndex, endIndex := endIndex } ::
      fawBuild sourceCode lineCount rest

/-- `pythonParser.findAllWorkflows`. -/
def findAllWorkflows (sourceCode : Str) : List WfRange :=
  let allMatches := (rxAll pyWorkflowPattern sourceCode).map (fun r =>
    ((capGet r.2.2 1).getD [], r.1, getLineNumber sourceCode r.1))
  fawBuild sourceCode (countNl sourceCode + 1) allMatches

/-- The scoping block of `parse` (lines 110-136 of `pythonParser.ts`):
returns the scoped source, the line offset and the workflow name. -/
def pyScope (sourceCode filePath : Str) (target : Option Str) : Str × Nat × Str :=
  let allWorkflows := findAllWorkflows sourceCode
  if jsTruthy target && decide (0 < allWorkflows.length) then
    match allWorkflows.find? (fun w => some w.name = target) with
    | some tw => (jsSliceNat sourceCode tw.startIndex tw.endIndex, tw.startLine - 1, tw.name)
    | none => (sourceCode, 0, extractWorkflowName sourceCode filePath)
  else
    match allWorkflows with
    | fw :: _ => (jsSliceNat sourceCode fw.startIndex fw.endIndex, fw.startLine - 1, fw.name)
    | [] => (sourceCode, 0, extractWorkflowName sourceCode filePath)

/-!
The step extractors of `pythonParser.ts` (`parseActivities`,
`parseParallelBlocks`, `parseChildWorkflows`, `parseTimers`,
`parseExternalEvents`, `parseDecisions`, `parseRetryPolicies`).  Each is
a loop over the global matches of the relevant pattern, threading the
emitted node list, the shared `index` counter and the parser state.
-/

/-- The non-awaited (parallel-task) loop of `parseActivities`. -/
def pyActTaskLoop (sourceCode : Str) (lineOffset : Nat) :
    List (Nat × Str × Caps) → List WorkflowNode → Nat → PyState →
    List WorkflowNode × Nat × PyState
  | [], nodes, index, st => (nodes, index, st)
  | (mIdx, _, caps) :: rest, nodes, index, st =>
    let taskVar := (capGet caps 1).getD []
    let activityName := (capGet caps 2).getD []
    let inputExpr := extractInputExpression sourceCode mIdx
    let nodeId := "activity-".toList ++ natToStr index
    let st1 := { st with parallelTaskMap := jsMapSet st.parallelTaskMap taskVar nodeId }
    let dataSources := analyzeDataSource st1 inputExpr
    let node := { createNode nodeId .activity activityName (some activityName) with
                  lineNumber := some (getLineNumber sourceCode mIdx + lineOffset),
                  metaDataSources := dataSources,
                  isParallelTask := true,
                  taskVariable := some taskVar,
                  output := some taskVar,
                  input := inputExpr,
                  dataSources := dataSources }
    pyActTaskLoop sourceCode lineOffset rest (nodes ++ [node]) (index + 1) st1

/-- The awaited (sequential) loop of `parseActivities`, with the
same-name/same-line duplicate check against the nodes emitted so far. -/
def pyActAwaitedLoop (sourceCode : Str) (lineOffset : Nat) :
    List (Nat × Str × Caps) → List WorkflowNode → Nat → PyState →
    List WorkflowNode × Nat × PyState
  | [], nodes, index, st => (nodes, index, st)
  | (mIdx, _, caps) :: rest, nodes, index, st =>
    let outputVar := capGet caps 1
    let activityName := (capGet caps 2).getD []
    let inputExpr := extractInputExpression sourceCode mIdx
    let lineNum := getLineNumber sourceCode mIdx + lineOffset
    if (nodes.find? (fun n => n.name = activityName && n.lineNumber = some lineNum)).isSome then
      pyActAwaitedLoop sourceCode lineOffset rest nodes index st
    else
      let nodeId := "activity-".toList ++ natToStr index
      let st1 := match outputVar with
        | some ov => { st with outputVariableMap := jsMapSet st.outputVariableMap ov nodeId }
        | none => st
      let dataSources := analyzeDataSource st1 inputExpr
      let node := { createNode nodeId .activity activityName (some activityName) with
                    lineNumber := some lineNum,
                    metaDataSources := dataSources,
                    isParallelTask := false,
                    output := outputVar,
                    input := inputExpr,
                    dataSources := dataSources }
      pyActAwaitedLoop sourceCode lineOffset rest (nodes ++ [node]) (index + 1) st1

/-- The string-name loop of `parseActivities` (no duplicate check). -/
def pyActStringLoop (sourceCode : Str) (lineOffset : Nat) :
    List (Nat × Str × Caps) → List WorkflowNode → Nat → PyState →
    List WorkflowNode × Nat × PyState
  | [], nodes, index, st => (nodes, index, st)
  | (mIdx, _, caps) :: rest, nodes, index, st =>
    let outputVar := capGet caps 1
    let activityName := (capGet caps 2).getD []
    let inputExpr := extractInputExpression sourceCode mIdx
    let nodeId := "activity-".toList ++ natToStr index
    let st1 := match outputVar with
      | some ov => { st with outputVariableMap := jsMapSet st.outputVariableMap ov nodeId }
      | none => st
    let dataSources := analyzeDataSource st1 inputExpr
    let node := { createNode nodeId .activity activityName (some activityName) with
                  lineNumber := some (getLineNumber sourceCode mIdx + lineOffset),
                  metaDataSources := dataSources,
                  isParallelTask := false,
                  output := outputVar,
                  input := inputExpr,
                  dataSources := dataSources }
    pyActStringLoop sourceCode lineOffset rest (nodes ++ [node]) (index + 1) st1

/-- `pythonParser.parseActivities`. -/
def parseActivities (st : PyState) (sourceCode : Str) (lineOffset : Nat) :
    List WorkflowNode × PyState :=
  let (n1, i1, s1) :=
    pyActTaskLoop sourceCode lineOffset (rxAll pyTaskPattern sourceCode) [] 0 st
  let (n2, i2, s2) :=
    pyActAwaitedLoop sourceCode lineOffset (rxAll pyAwaitedPattern sourceCode) n1 i1 s1
  let (n3, _, s3) :=
    pyActStringLoop sourceCode lineOffset (rxAll pyStringActivityPattern sourceCode) n2 i2 s2
  (n3, s3)

/-- The loop of `parseParallelBlocks`. -/
def pyParallelLoop (sourceCode : Str) (lineOffset : Nat) :
    List (Nat × Str × Caps) → List WorkflowNode → Nat → PyState →
    List WorkflowNode × PyState
  | [], nodes, _, st => (nodes, st)
  | (mIdx, _, caps) :: rest, nodes, index, st =>
    let outputs := match capGet caps 1 with
      | some c => (splitOnCh ',' c).map trimS
      | none => []
    let tasksContent := (capGet caps 2).getD []
    let taskVars := (rxAll pyTaskVarPattern tasksContent).map (fun r => r.2.1)
    let nodeId := "parallel-join-".toList ++ natToStr index
    let st1 := outputs.foldl (fun acc ov =>
      if ov ≠ [] then
        { acc with outputVariableMap := jsMapSet acc.outputVariableMap ov nodeId }
      else acc) st
    let st2 := taskVars.foldl (fun acc tv =>
      match jsMapGet acc.parallelTaskMap tv with
      | some aid => { acc with parallelGroupMap := jsMapSet acc.parallelGroupMap aid nodeId }
      | none => acc) st1
    let node := { createNode nodeId .parallel "Join".toList
                    (some ("⫴ Join (".toList ++ natToStr taskVars.length ++ " tasks)".toList)) with
                  lineNumber := some (getLineNumber sourceCode mIdx + lineOffset),
                  tasks := taskVars,
                  outputs := outputs,
                  taskNodeIds := taskVars.filterMap (fun t => jsMapGet st2.parallelTaskMap t) }
    pyParallelLoop sourceCode lineOffset rest (nodes ++ [node]) (index + 1) st2

/-- `pythonParser.parseParallelBlocks`. -/
def parseParallelBlocks (st : PyState) (sourceCode : Str) (lineOffset : Nat) :
    List WorkflowNode × PyState :=
  pyParallelLoop sourceCode lineOffset (rxAll pyWhenAllPattern sourceCode) [] 0 st

/-- The loop of `parseChildWorkflows`. -/
def pyChildLoop (sourceCode : Str) (lineOffset : Nat) :
    List (Nat × Str × Caps) → List WorkflowNode → Nat → PyState →
    List WorkflowNode × PyState
  | [], nodes, _, st => (nodes, st)
  | (mIdx, _, caps) :: rest, nodes, index, st =>
    let outputVar := capGet caps 1
    let workflowName := stripQuotes ((capGet caps 2).getD [])
    let inputExpr := (capGet caps 3).map trimS
    let nodeId := "child-".toList ++ natToStr index
    let st1 := match outputVar with
      | some ov => { st with outputVariableMap := jsMapSet st.outputVariableMap ov nodeId }
      | none => st
    let dataSources := analyzeDataSource st1 inputExpr
    let node := { createNode nodeId .subOrchestration workflowName
                    (some ("Child: ".toList ++ workflowName)) with
                  lineNumber := some (getLineNumber sourceCode mIdx + lineOffset),
                  metaDataSources := dataSources,
                  output := outputVar,
                  input := inputExpr,
                  dataSources := dataSources }
    pyChildLoop sourceCode lineOffset rest (nodes ++ [node]) (index + 1) st1

/-- `pythonParser.parseChildWorkflows`. -/
def parseChildWorkflows (st : PyState) (sourceCode : Str) (lineOffset : Nat) :
    List WorkflowNode × PyState :=
  pyChildLoop sourceCode lineOffset (rxAll pyChildPattern sourceCode) [] 0 st

/-- The loop of `parseTimers`. -/
def pyTimerLoop (sourceCode : Str) (lineOffset : Nat) :
    List (Nat × Str × Caps) → List WorkflowNode → Nat → PyState →
    List WorkflowNode × PyState
  | [], nodes, _, st => (nodes, st)
  | (mIdx, _, caps) :: rest, nodes, index, st =>
    let outputVar := capGet caps 1
    let duration := (capGet caps 2).map trimS
    let nodeId := "timer-".toList ++ natToStr index
    let st1 := match outputVar with
      | some ov => { st with outputVariableMap := jsMapSet st.outputVariableMap ov nodeId }
      | none => st
    let node := { createNode nodeId .timer "Timer".toList
                    (some (if jsTruthy duration then
                             "Wait: ".toList ++ (duration.getD []).take 20
                           else "Wait Timer".toList)) with
                  lineNumber := some (getLineNumber sourceCode mIdx + lineOffset),
                  output := outputVar }
    pyTimerLoop sourceCode lineOffset rest (nodes ++ [node]) (index + 1) st1

/-- `pythonParser.parseTimers`. -/
def parseTimers (st : PyState) (sourceCode : Str) (lineOffset : Nat) :
    List WorkflowNode × PyState :=
  pyTimerLoop sourceCode lineOffset (rxAll pyTimerPattern sourceCode) [] 0 st

/-- The loop of `parseExternalEvents`. -/
def pyEventLoop (sourceCode : Str) (lineOffset : Nat) :
    List (Nat × Str × Caps) → List WorkflowNode → Nat → PyState →
    List WorkflowNode × PyState
  | [], nodes, _, st => (nodes, st)
  | (mIdx, _, caps) :: rest, nodes, index, st =>
    let outputVar := capGet caps 1
    let eventName := (capGet caps 2).getD []
    let nodeId := "event-".toList ++ natToStr index
    let st1 := match outputVar with
      | some ov => { st with outputVariableMap := jsMapSet st.outputVariableMap ov nodeId }
      | none => st
    let node := { createNode nodeId .event eventName
                    (some ("Event: ".toList ++ eventName)) with
                  lineNumber := some (getLineNumber sourceCode mIdx + lineOffset),
                  output := outputVar,
                  dataSources := [{ sourceType := .event_data, sourcePath := eventName }] }
    pyEventLoop sourceCode lineOffset rest (nodes ++ [node]) (index + 1) st1

/-- `pythonParser.parseExternalEvents`. -/
def parseExternalEvents (st : PyState) (sourceCode : Str) (lineOffset : Nat) :
    List WorkflowNode × PyState :=
  pyEventLoop sourceCode lineOffset (rxAll pyEventPattern sourceCode) [] 0 st

/-- `pythonParser.parseDecisions` (reads the producer map, writes nothing;
the node id uses the pre-increment index and the node name the
post-increment one, as in `decision-${index++}` and `Decision ${index}`). -/
def parseDecisions (st : PyState) (sourceCode : Str) (lineOffset : Nat) :
    List WorkflowNode × PyState :=
  ((rxAll pyIfPattern sourceCode).enum.map (fun p =>
    let index := p.1
    let mIdx := p.2.1
    let caps := p.2.2.2
    let condition := trimS ((capGet caps 1).getD [])
    let dataSources := analyzeConditionSources st condition
    { createNode ("decision-".toList ++ natToStr index) .decision
        ("Decision ".toList ++ natToStr (index + 1))
        (some (if 30 < condition.length then condition.take 30 ++ "...".toList
               else condition)) with
      lineNumber := some (getLineNumber sourceCode mIdx + lineOffset),
      fullCondition := some condition,
      metaDataSources := dataSources,
      dataSources := dataSources }), st)

/-- `pythonParser.parseRetryPolicies`. -/
def parseRetryPolicies (st : PyState) (sourceCode : Str) (lineOffset : Nat) :
    List WorkflowNode × PyState :=
  ((rxAll pyRetryPattern sourceCode).enum.map (fun p =>
    { createNode ("retry-".toList ++ natToStr p.1) .retry "Retry Policy".toList
        (some "Retry".toList) with
      lineNumber := some (getLineNumber sourceCode p.2.1 + lineOffset) }), st)

/-!
The graph assembler (`buildDataFlowMetadata`, `buildControlFlowEdges`,
`buildEdgesWithDataFlow`, `getShortPath`) shared, line for line, by the
Python and C# parsers.
-/

/-- `pythonParser.buildDataFlowMetadata`. -/
def buildDataFlowMetadata (st : PyState) (wf : WorkflowDefinition) : DataFlowMetadata :=
  let activities := (wf.nodes.filter (fun n =>
      n.type = .activity || n.type = .subOrchestration || n.type = .event)).map (fun n =>
    { nodeId := n.id, name := n.name, type := n.type, inputs := n.dataSources,
      outputVar := if jsTruthy n.output then n.output else none,
      outputType := none, lineNumber := n.lineNumber : ActivityDataFlow })
  { workflow := wf.name,
    inputType := wf.metadata.bind (fun m => m.inputType),
    inputProperties :=
      match wf.metadata with
      | some md =>
        match md.inputProperties with
        | some l => l
        | none => st.inputProperties
      | none => st.inputProperties,
    parameterName := st.workflowInputParam,
    activities := activities,
    outputVariableMap := st.outputVariableMap }

/-- `pythonParser.getShortPath`. -/
def getShortPath (path : Str) : Str :=
  let parts := splitOnCh '.' path
  if 1 < parts.length then parts.getLastD []
  else
    match rxFind pyBracketTailPattern path with
    | some (_, _, caps) => (capGet caps 1).getD []
    | none => if 15 < path.length then path.take 12 ++ "...".toList else path

/-- The sort key of `buildControlFlowEdges`:
`(a.metadata?.lineNumber as number) || 0`. -/
def lineOf (n : WorkflowNode) : Nat := n.lineNumber.getD 0

/-- Insert a node after every already-placed node with a key less than or
equal to its own (one step of a stable insertion sort). -/
def insertByLine (x : WorkflowNode) : List WorkflowNode → List WorkflowNode
  | [] => [x]
  | y :: ys => if lineOf y ≤ lineOf x then y :: insertByLine x ys else x :: y :: ys

/-- The stable sort `[...workflow.nodes].sort((a, b) => lineA - lineB)`
(JavaScript `Array.prototype.sort` is stable). -/
def sortByLine (l : List WorkflowNode) : List WorkflowNode :=
  l.foldl (fun acc x => insertByLine x acc) []

/-- A control edge object as pushed by `buildControlFlowEdges`
(`id` is `${source}-${target}`). -/
def mkCtl (s t : Str) (ty : EdgeType) : WorkflowEdge :=
  { id := s ++ "-".toList ++ t, source := s, target := t, type := ty }

/-- The loop state of `buildControlFlowEdges`. -/
structure CFState where
  edges : List WorkflowEdge := []
  lastSeq : Option WorkflowNode := none
  processed : List Str := []
deriving DecidableEq, Repr

/-- One iteration of the node walk in `buildControlFlowEdges`. -/
def cfStep (sorted : List WorkflowNode) (gm : List (Str × Str)) (ptIds joinIds : List Str)
    (st : CFState) (node : WorkflowNode) : CFState :=
  if node.type = .start then { st with lastSeq := some node }
  else if node.type = .stop then st
  else if ptIds.contains node.id then
    match jsMapGet gm node.id with
    | none =>
      let es := match st.lastSeq with
        | some ls => if ls.id ≠ node.id then [mkCtl ls.id node.id .dflt] else []
        | none => []
      { st with edges := st.edges ++ es, lastSeq := some node }
    | some joinNodeId =>
      if st.processed.contains joinNodeId then st
      else
        let processed := st.processed ++ [joinNodeId]
        let group := sorted.filter (fun p => jsMapGet gm p.id = some joinNodeId)
        let fanOut := match st.lastSeq with
          | some ls => group.map (fun p => mkCtl ls.id p.id .parallel)
          | none => []
        match sorted.find? (fun n => n.id = joinNodeId) with
        | some joinNode =>
          { edges := st.edges ++ fanOut ++ group.map (fun p => mkCtl p.id joinNode.id .parallel),
            lastSeq := some joinNode, processed := processed }
        | none => { st with edges := st.edges ++ fanOut, processed := processed }
  else if joinIds.contains node.id then
    match st.lastSeq with
    | some ls => if ls.id ≠ node.id then { st with lastSeq := some node } else st
    | none => { st with lastSeq := some node }
  else
    let es := match st.lastSeq with
      | some ls => if ls.id ≠ node.id then [mkCtl ls.id node.id .dflt] else []
      | none => []
    { st with edges := st.edges ++ es, lastSeq := some node }

/-- `buildControlFlowEdges` (identical in `pythonParser.ts` lines
1016-1154 and `csharpParser.ts` lines 862-980): stable-sort the nodes by
line, walk them with a last-sequential cursor emitting fan-out/fan-in
parallel edges per group and default edges otherwise, then connect the
final cursor to the end node. -/
def buildControlFlowEdges (nodes : List WorkflowNode) (gm : List (Str × Str)) :
    List WorkflowEdge :=
  let sorted := sortByLine nodes
  let ptIds := (sorted.filter (fun n => n.isParallelTask)).map (fun n => n.id)
  let joinIds := (sorted.filter (fun n =>
    n.type = .parallel && startsWithS n.id "parallel-join".toList)).map (fun n => n.id)
  let st := sorted.foldl (cfStep sorted gm ptIds joinIds) {}
  let endEdge := match sorted.find? (fun n => n.type = .stop), st.lastSeq with
    | some en, some ls => if ls.id ≠ en.id then [mkCtl ls.id en.id .dflt] else []
    | _, _ => []
  st.edges ++ endEdge

/-- The data edges one node contributes in `buildEdgesWithDataFlow`. -/
def dataEdgesOf (node : WorkflowNode) : List WorkflowEdge :=
  node.dataSources.filterMap (fun source =>
    match source.sourceType with
    | .workflow_input => some
        { id := "df-start-".toList ++ node.id ++ "-".toList ++ source.sourcePath,
          source := "start".toList, target := node.id, type := .data_workflow_input,
          dataFlow := some source.sourcePath, dataSourceType := some .workflow_input,
          label := some (if jsTruthy source.targetProperty then source.targetProperty.getD []
                         else getShortPath source.sourcePath) }
    | .activity_output =>
      match source.sourceActivityId with
      | some aid => some
          { id := "df-".toList ++ aid ++ "-".toList ++ node.id ++ "-".toList ++ source.sourcePath,
            source := aid, target := node.id, type := .data_activity_output,
            dataFlow := some source.sourcePath, dataSourceType := some .activity_output,
            label := some (if jsTruthy source.targetProperty then source.targetProperty.getD []
                           else getShortPath source.sourcePath) }
      | none => none
    | .event_data => some
        { id := "df-event-".toList ++ node.id, source := node.id, target := node.id,
          type := .data_event, dataFlow := some source.sourcePath,
          dataSourceType := some .event_data }
    | _ => none)

/-- `buildEdgesWithDataFlow`: control edges first, then one data edge per
classified data source. -/
def buildEdgesWithDataFlow (wf : WorkflowDefinition) (gm : List (Str × Str)) :
    WorkflowDefinition :=
  let ctl := buildControlFlowEdges wf.nodes gm
  let dataFlowEdges := (wf.nodes.map dataEdgesOf).flatten
  { wf with edges := wf.edges ++ ctl ++ dataFlowEdges }

/-!
`PythonWorkflowParser.parse` itself.
-/

/-- Steps 5 of the extraction: all step extractors in call order, with the
parser state threaded through (`parse` lines 153-168). -/
def pyStepNodes (st : PyState) (scopedSrc : Str) (lineOffset : Nat) :
    List WorkflowNode × PyState :=
  let (activities, st1) := parseActivities st scopedSrc lineOffset
  let (children, st2) := parseChildWorkflows st1 scopedSrc lineOffset
  let (timers, st3) := parseTimers st2 scopedSrc lineOffset
  let (events, st4) := parseExternalEvents st3 scopedSrc lineOffset
  let (decisions, st5) := parseDecisions st4 scopedSrc lineOffset
  let (retries, st6) := parseRetryPolicies st5 scopedSrc lineOffset
  let (parallels, st7) := parseParallelBlocks st6 scopedSrc lineOffset
  (activities ++ children ++ timers ++ events ++ decisions ++ retries ++ parallels, st7)

/-- The body of `PythonWorkflowParser.parse` (everything inside the
`try`).  `idSuffix` stands for the `${Date.now()}-${random}` portion of
`generateId`, made an explicit input.  Returns the final instance state
and the workflow object. -/
def pyParseBody (st : PyState) (sourceCode filePath : Str) (target : Option Str)
    (idSuffix : Str) : PyState × WorkflowDefinition :=
  let st0 := { st with outputVariableMap := [], parallelTaskMap := [], parallelGroupMap := [] }
  let (scopedSrc, lineOffset, workflowName) := pyScope sourceCode filePath target
  let wf0 : WorkflowDefinition :=
    { id := workflowName ++ "-".toList ++ idSuffix, name := workflowName,
      language := "python".toList, filePath := filePath, nodes := [], edges := [],
      lineOffset := lineOffset }
  let wf1 := { wf0 with metadata := some (extractMetadata sourceCode) }
  let st1 := extractWorkflowInputInfo st0 scopedSrc
  let wf2 := extractReturnInfo scopedSrc wf1
  let (stepNodes, st2) := pyStepNodes st1 scopedSrc lineOffset
  let wf3 := { wf2 with nodes := addStartEndNodes (wf2.nodes ++ stepNodes) }
  let wf4 := { wf3 with dataFlow := some (buildDataFlowMetadata st2 wf3) }
  let wf5 := buildEdgesWithDataFlow wf4 st2.parallelGroupMap
  let md := wf5.metadata.getD {}
  let md2 := { md with
               debugTaskMap := st2.parallelTaskMap,
               debugGroupMap := st2.parallelGroupMap,
               debugNodeCount := wf5.nodes.length,
               debugEdgeCount := wf5.edges.length }
  (st2, { wf5 with metadata := some md2 })

/-- The `catch` boundary of `parse`: an `ok` body result becomes
`{ success: true, workflow }`, a thrown error becomes
`{ success: false, errors: [message] }` with no workflow. -/
def pyParseOutcome : Except Str WorkflowDefinition → ParseResult
  | .ok w => { success := true, workflow := some w, errors := [] }
  | .error m => { success := false, workflow := none, errors := [{ message := m }] }

/-- `PythonWorkflowParser.parse`.  No operation in the embedded body can
raise, so the body always produces an `ok` outcome. -/
def pyParse (st : PyState) (sourceCode filePath : Str) (target : Option Str)
    (idSuffix : Str) : PyState × ParseResult :=
  let (st2, wf) := pyParseBody st sourceCode filePath target idSuffix
  (st2, pyParseOutcome (Except.ok wf))

/-!
The C# extractor's return-info functions (`csharpParser.ts` lines
373-414) and the parser registry (`parsers/index.ts`,
`WorkflowParserFactory`).
-/

/-- `csharpParser.parseReturnExpression`. -/
def csParseReturnExpression (expression : Str) : List Str :=
  (rxAll csPropAssignPattern expression).filterMap (fun r => capGet r.2.2 1)

/-- The recognized return-initializer contents of the C# extractor
(`extractReturnInfo` lines 375-381: the trimmed capture of each
`return\s+new\s+\w+\s*{([^}]+)}` match). -/
def csReturns (sourceCode : Str) : List Str :=
  (rxAll csReturnPattern sourceCode).filterMap (fun r => (capGet r.2.2 1).map trimS)

/-- `csharpParser.extractReturnInfo`: sets `outputFields` only — unlike
the Python and JavaScript versions it never writes `returnExpression`. -/
def csExtractReturnInfo (sourceCode : Str) (wf : WorkflowDefinition) : WorkflowDefinition :=
  let returns := csReturns sourceCode
  if returns = [] then wf
  else
    let allFields := returns.foldl
      (fun acc expr => (csParseReturnExpression expr).foldl pushUnique acc) []
    let md := wf.metadata.getD {}
    { wf with metadata := some { md with outputFields := some allFields } }

/-- One registry entry: the language tag passed to the constructor and
the `canParse` predicate. -/
structure RegisteredParser where
  language : Str
  canParse : Str → Bool

/-- `CSharpWorkflowParser.canParse`. -/
def csCanParse (filePath : Str) : Bool := endsWithS filePath ".cs".toList

/-- `PythonWorkflowParser.canParse`. -/
def pyCanParse (filePath : Str) : Bool := endsWithS filePath ".py".toList

/-- `JavaScriptWorkflowParser.canParse` (shared by both the
`javascript`-tagged and the `typescript`-tagged registration). -/
def jsCanParse (filePath : Str) : Bool :=
  endsWithS filePath ".js".toList || endsWithS filePath ".ts".toList ||
  endsWithS filePath ".mjs".toList || endsWithS filePath ".mts".toList

/-- `WorkflowParserFactory.parsers`: the fixed, ordered registry list. -/
def factoryParsers : List RegisteredParser :=
  [⟨"csharp".toList, csCanParse⟩, ⟨"python".toList, pyCanParse⟩,
   ⟨"javascript".toList, jsCanParse⟩, ⟨"typescript".toList, jsCanParse⟩]

/-- `WorkflowParserFactory.getParser`: first-match selection. -/
def getParser (filePath : Str) : Option RegisteredParser :=
  factoryParsers.find? (fun p => p.canParse filePath)

/-- `WorkflowParserFactory.getSupportedExtensions`. -/
def getSupportedExtensions : List Str :=
  [".cs".toList, ".py".toList, ".js".toList, ".ts".toList, ".mjs".toList, ".mts".toList]

/-!
Reference definition of the balanced-delimiter scanner, following the
specification's description (§4.1): scan forward tracking the nesting
depth, with every string-literal region — entered and left on an
unescaped quote, the triple-quote delimiter consumed as a unit — skipped
wholesale, and the index of the closer that returns the depth to zero
reported; `none` when the text is exhausted first.  Both functions are
fuel-based (`specMatchingClose` passes `text.length + 1`, which exceeds
the number of scan steps, each consuming at least one character).
-/

/-- Skip to the end of one string-literal region.  `qc` is the quote
character, `isTriple` whether the region uses the three-character
delimiter.  Returns the previous character, remaining text and position
just after the closing delimiter. -/
def specSkipString (qc : Char) (isTriple : Bool) :
    Nat → Char → Str → Nat → Option (Char × Str × Nat)
  | 0, _, _, _ => none
  | _ + 1, _, [], _ => none
  | fuel + 1, prev, c :: rest, i =>
    if (c = dquote || c = squote) && prev ≠ '\\' && c = qc then
      if isTriple then
        match rest with
        | c2 :: c3 :: rest3 =>
          if c2 = qc && c3 = qc then some (c3, rest3, i + 3)
          else specSkipString qc isTriple fuel c (c2 :: c3 :: rest3) (i + 1)
        | [c2] => specSkipString qc isTriple fuel c [c2] (i + 1)
        | [] => specSkipString qc isTriple fuel c [] (i + 1)
      else some (c, rest, i + 1)
    else specSkipString qc isTriple fuel c rest (i + 1)

/-- The depth scan of the reference scanner: string-literal regions are
consumed as units and contribute nothing to the depth; an opening
bracket increments, a closing bracket at depth one is the matching
closer. -/
def specFindClose (oc cc : Char) : Nat → Char → Str → Nat → Nat → Option Nat
  | 0, _, _, _, _ => none
  | _ + 1, _, [], _, _ => none
  | fuel + 1, prev, c :: rest, i, depth =>
    if (c = dquote || c = squote) && prev ≠ '\\' then
      match rest with
      | c2 :: c3 :: rest3 =>
        if c2 = c && c3 = c then
          match specSkipString c true fuel c3 rest3 (i + 3) with
          | some (p2, r2, i2) => specFindClose oc cc fuel p2 r2 i2 depth
          | none => none
        else
          match specSkipString c false fuel c (c2 :: c3 :: rest3) (i + 1) with
          | some (p2, r2, i2) => specFindClose oc cc fuel p2 r2 i2 depth
          | none => none
      | _ =>
        match specSkipString c false fuel c rest (i + 1) with
        | some (p2, r2, i2) => specFindClose oc cc fuel p2 r2 i2 depth
        | none => none
    else if c = oc then specFindClose oc cc fuel c rest (i + 1) (depth + 1)
    else if c = cc then
      if depth = 1 then some i else specFindClose oc cc fuel c rest (i + 1) (depth - 1)
    else specFindClose oc cc fuel c rest (i + 1) depth

/-- The matching-closer index of the opening bracket at `openIndex`, per
the specification's scanning rules; `none` when no closer exists. -/
def specMatchingClose (text : Str) (openIndex : Nat) : Option Nat :=
  let oc := text.getD openIndex (Char.ofNat 0)
  let cc := if oc = obrace then cbrace else if oc = '[' then ']' else ')'
  specFindClose oc cc (text.length + 1) oc (text.drop (openIndex + 1)) (openIndex + 1) 1

/-!
Derived notions used in the claim statements.
-/

/-- The task step-node ids the parallel-group map resolves to join `j`
(its keys with value `j`, in insertion order). -/
def tasksOf (gm : List (Str × Str)) (j : Str) : List Str :=
  (gm.filter (fun p => p.2 = j)).map Prod.fst

/-- The parallel group the assembler collects for join `j`: the
line-sorted nodes whose id the group map sends to `j` (the
`parallelGroup` collection inside `buildControlFlowEdges`). -/
def groupOf (nodes : List WorkflowNode) (gm : List (Str × Str)) (j : Str) :
    List WorkflowNode :=
  (sortByLine nodes).filter (fun n => jsMapGet gm n.id = some j)

/-- Fan-out edges into the group of join `j`: parallel-kind edges whose
target is mapped to `j`. -/
def foP (gm : List (Str × Str)) (j : Str) (e : WorkflowEdge) : Bool :=
  e.type = .parallel && jsMapGet gm e.target = some j

/-- Fan-in edges of join `j`: parallel-kind edges targeting `j`. -/
def fiP (j : Str) (e : WorkflowEdge) : Bool :=
  e.type = .parallel && e.target = j

/-- The id of the node immediately preceding the parallel group of join
`j` in line-sorted order — the node the specification's fan-out/fan-in
property designates as the common source of the fan-out edges (reference
definition following the specification's words). -/
def specGroupPredecessor (nodes : List WorkflowNode) (gm : List (Str × Str)) (j : Str) :
    Option Str :=
  let sorted := sortByLine nodes
  match sorted.findIdx? (fun n => jsMapGet gm n.id = some j) with
  | some idx => if idx = 0 then none else (sorted.get? (idx - 1)).map (fun n => n.id)
  | none => none

/-- An empty workflow value (used only to destructure optional results in
closed statements). -/
def emptyWf : WorkflowDefinition :=
  { id := [], name := [], language := [], filePath := [], nodes := [], edges := [] }

/-!
Concrete inputs for the counterexamples and witnesses.
-/

/-- A workflow body with two interleaved parallel groups: the `when_all`
at line 3 joins the task of line 2, the `when_all` at line 4 joins the
task of line 1. -/
def c1src : Str :=
  ("t1_task = ctx.call_activity(a)\n" ++
   "t2_task = ctx.call_activity(b)\n" ++
   "x = yield when_all([t2_task])\n" ++
   "y = yield when_all([t1_task])\n").toList

/-- The parse of `c1src`. -/
def c1res : PyState × ParseResult := pyParse {} c1src "w.py".toList none "I".toList

/-- The workflow graph parsed from `c1src`. -/
def c1wf : WorkflowDefinition := c1res.2.workflow.getD emptyWf

/-- A workflow body whose single step consumes the variable it itself
outputs (`r1`), registered in the producer map before the input
expression is classified. -/
def c10src : Str := "r1 = yield ctx.call_activity(do_thing, input=r1)\n".toList

/-- The parse of `c10src`. -/
def c10res : PyState × ParseResult := pyParse {} c10src "w.py".toList none "I".toList

/-- The workflow graph parsed from `c10src`. -/
def c10wf : WorkflowDefinition := c10res.2.workflow.getD emptyWf

/-- A workflow body whose first step binds its result to a variable named
`input` — the same name as the default workflow-input parameter — and
whose second step consumes `input.data`. -/
def c3src : Str :=
  ("input = yield ctx.call_activity(act_a, input=cfg)\n" ++
   "r2 = yield ctx.call_activity(act_b, input=input.data)\n").toList

/-- The parse of `c3src`. -/
def c3res : PyState × ParseResult := pyParse {} c3src "w.py".toList none "I".toList

/-- The workflow graph parsed from `c3src`. -/
def c3wf : WorkflowDefinition := c3res.2.workflow.getD emptyWf

/-- An activity call whose bracketed input expression never closes: the
text is exhausted with the `[` still open. -/
def c5src : Str := "x = yield ctx.call_activity(act, input=[1, 2\n".toList

/-- A text whose opening parenthesis at index 1 encloses an unmatched
closing parenthesis inside a triple-quoted string literal; its matching
closer is the final character (index 11). -/
def c4text : Str := ['f', '(', '\x27', '\x27', '\x27', 'a', ')', 'b', '\x27', '\x27', '\x27', ')']

/-- A first source whose workflow signature binds the input parameter
name `payload` (stored in the instance field `workflowInputParam`). -/
def c8src1 : Str := "@workflow\ndef wf(ctx, payload: Any):\n    pass\n".toList

/-- A second source with no workflow signature: a fresh parser leaves the
default parameter name `input`, while a parser that has previously seen
`c8src1` retains `payload`. -/
def c8src2 : Str := []

/-- A C# workflow body with one recognized return statement. -/
def c9csSrc : Str :=
  "public override async Task Run() \x7b return new OrderResult \x7b Success = true \x7d; \x7d\n".toList

/-- A Python workflow body with one recognized return statement. -/
def c9pySrc : Str := "    return result\n".toList

/-- The parse of `c8src1` from the default instance state. -/
def c8res1 : PyState × ParseResult := pyParse {} c8src1 "a.py".toList none "I".toList

/-!
Evaluated forms of the concrete parses, each certified against the
embedding by a `rfl` equality; the claim theorems below compute over
these literals.
-/

/-- The evaluated parse of `c1src`. -/
def c1resLit : PyState × ParseResult :=
  ({ outputVariableMap := [("x".toList, "parallel-join-0".toList), ("y".toList, "parallel-join-1".toList)], workflowInputParam := "input".toList, inputProperties := [], parallelTaskMap := [("t1_task".toList, "activity-0".toList), ("t2_task".toList, "activity-1".toList)], parallelGroupMap := [("activity-1".toList, "parallel-join-0".toList), ("activity-0".toList, "parallel-join-1".toList)] }, { success := true, workflow := some { id := "w-I".toList, name := "w".toList, language := "python".toList, filePath := "w.py".toList, nodes := [{ id := "start".toList, type := DaprViz.NodeType.start, name := "Start".toList, label := "Start".toList, lineNumber := none, isParallelTask := false, taskVariable := none, fullCondition := none, metaDataSources := [], tasks := [], outputs := [], taskNodeIds := [], returnType := none, output := none, input := none, dataSources := [] }, { id := "activity-0".toList, type := DaprViz.NodeType.activity, name := "a".toList, label := "a".toList, lineNumber := some 1, isParallelTask := true, taskVariable := some "t1_task".toList, fullCondition := none, metaDataSources := [], tasks := [], outputs := [], taskNodeIds := [], returnType := none, output := some "t1_task".toList, input := none, dataSources := [] }, { id := "activity-1".toList, type := DaprViz.NodeType.activity, name := "b".toList, label := "b".toList, lineNumber := some 2, isParallelTask := true, taskVariable := some "t2_task".toList, fullCondition := none, metaDataSources := [], tasks := [], outputs := [], taskNodeIds := [], returnType := none, output := some "t2_task".toList, input := none, dataSources := [] }, { id := "parallel-join-0".toList, type := DaprViz.NodeType.parallel, name := "Join".toList, label := "⫴ Join (1 tasks)".toList, lineNumber := some 3, isParallelTask := false, taskVariable := none, fullCondition := none, metaDataSources := [], tasks := ["t2_task".toList], outputs := ["x".toList], taskNodeIds := ["activity-1".toList], returnType := none, output := none, input := none, dataSources := [] }, { id := "parallel-join-1".toList, type := DaprViz.NodeType.parallel, name := "Join".toList, label := "⫴ Join (1 tasks)".toList, lineNumber := some 4, isParallelTask := false, taskVariable := none, fullCondition := none, metaDataSources := [], tasks := ["t1_task".toList], outputs := ["y".toList], taskNodeIds := ["activity-0".toList], returnType := none, output := none, input := none, dataSources := [] }, { id := "end".toList, type := DaprViz.NodeType.stop, name := "End".toList, label := "End".toList, lineNumber := none, isParallelTask := false, taskVariable := none, fullCondition := none, metaDataSources := [], tasks := [], outputs := [], taskNodeIds := [], returnType := none, output := none, input := none, dataSources := [] }], edges := [{ id := "start-activity-0".toList, source := "start".toList, target := "activity-0".toList, label := none, type := DaprViz.EdgeType.parallel, dataFlow := none, dataSourceType := none }, { id := "activity-0-parallel-join-1".toList, source := "activity-0".toList, target := "parallel-join-1".toList, label := none, type := DaprViz.EdgeType.parallel, dataFlow := none, dataSourceType := none }, { id := "parallel-join-1-activity-1".toList, source := "parallel-join-1".toList, target := "activity-1".toList, label := none, type := DaprViz.EdgeType.parallel, dataFlow := none, dataSourceType := none }, { id := "activity-1-parallel-join-0".toList, source := "activity-1".toList, target := "parallel-join-0".toList, label := none, type := DaprViz.EdgeType.parallel, dataFlow := none, dataSourceType := none }, { id := "parallel-join-1-end".toList, source := "parallel-join-1".toList, target := "end".toList, label := none, type := DaprViz.EdgeType.dflt, dataFlow := none, dataSourceType := none }], metadata := some { description := none, inputType := none, outputType := none, inputProperties := some [], outputFields := none, returnExpression := none, debugTaskMap := [("t1_task".toList, "activity-0".toList), ("t2_task".toList, "activity-1".toList)], debugGroupMap := [("activity-1".toList, "parallel-join-0".toList), ("activity-0".toList, "parallel-join-1".toList)], debugNodeCount := 6, debugEdgeCount := 5 }, dataFlow := some { workflow := "w".toList, inputType := none, inputProperties := [], parameterName := "input".toList, activities := [{ nodeId := "activity-0".toList, name := "a".toList, type := DaprViz.NodeType.activity, inputs := [], outputVar := some "t1_task".toList, outputType := none, lineNumber := some 1 }, { nodeId := "activity-1".toList, name := "b".toList, type := DaprViz.NodeType.activity, inputs := [], outputVar := some "t2_task".toList, outputType := none, lineNumber := some 2 }], outputVariableMap := [("x".toList, "parallel-join-0".toList), ("y".toList, "parallel-join-1".toList)] }, lineOffset := 0 }, errors := [] })

/-- The evaluated parse of `c3src`. -/
def c3resLit : PyState × ParseResult :=
  ({ outputVariableMap := [("input".toList, "activity-0".toList), ("r2".toList, "activity-1".toList)], workflowInputParam := "input".toList, inputProperties := [], parallelTaskMap := [], parallelGroupMap := [] }, { success := true, workflow := some { id := "w-I".toList, name := "w".toList, language := "python".toList, filePath := "w.py".toList, nodes := [{ id := "start".toList, type := DaprViz.NodeType.start, name := "Start".toList, label := "Start".toList, lineNumber := none, isParallelTask := false, taskVariable := none, fullCondition := none, metaDataSources := [], tasks := [], outputs := [], taskNodeIds := [], returnType := none, output := none, input := none, dataSources := [] }, { id := "activity-0".toList, type := DaprViz.NodeType.activity, name := "act_a".toList, label := "act_a".toList, lineNumber := some 1, isParallelTask := false, taskVariable := none, fullCondition := none, metaDataSources := [{ sourceType := DaprViz.DataSrcType.workflow_input, sourcePath := "cfg".toList, sourceActivityId := none, targetProperty := none }], tasks := [], outputs := [], taskNodeIds := [], returnType := none, output := some "input".toList, input := some "cfg".toList, dataSources := [{ sourceType := DaprViz.DataSrcType.workflow_input, sourcePath := "cfg".toList, sourceActivityId := none, targetProperty := none }] }, { id := "activity-1".toList, type := DaprViz.NodeType.activity, name := "act_b".toList, label := "act_b".toList, lineNumber := some 2, isParallelTask := false, taskVariable := none, fullCondition := none, metaDataSources := [{ sourceType := DaprViz.DataSrcType.workflow_input, sourcePath := "input.data".toList, sourceActivityId := none, targetProperty := none }], tasks := [], outputs := [], taskNodeIds := [], returnType := none, output := some "r2".toList, input := some "input.data".toList, dataSources := [{ sourceType := DaprViz.DataSrcType.workflow_input, sourcePath := "input.data".toList, sourceActivityId := none, targetProperty := none }] }, { id := "end".toList, type := DaprViz.NodeType.stop, name := "End".toList, label := "End".toList, lineNumber := none, isParallelTask := false, taskVariable := none, fullCondition := none, metaDataSources := [], tasks := [], outputs := [], taskNodeIds := [], returnType := none, output := none, input := none, dataSources := [] }], edges := [{ id := "start-activity-0".toList, source := "start".toList, target := "activity-0".toList, label := none, type := DaprViz.EdgeType.dflt, dataFlow := none, dataSourceType := none }, { id := "activity-0-activity-1".toList, source := "activity-0".toList, target := "activity-1".toList, label := none, type := DaprViz.EdgeType.dflt, dataFlow := none, dataSourceType := none }, { id := "activity-1-end".toList, source := "activity-1".toList, target := "end".toList, label := none, type := DaprViz.EdgeType.dflt, dataFlow := none, dataSourceType := none }, { id := "df-start-activity-0-cfg".toList, source := "start".toList, target := "activity-0".toList, label := some "cfg".toList, type := DaprViz.EdgeType.data_workflow_input, dataFlow := some "cfg".toList, dataSourceType := some (DaprViz.DataSrcType.workflow_input) }, { id := "df-start-activity-1-input.data".toList, source := "start".toList, target := "activity-1".toList, label := some "data".toList, type := DaprViz.EdgeType.data_workflow_input, dataFlow := some "input.data".toList, dataSourceType := some (DaprViz.DataSrcType.workflow_input) }], metadata := some { description := none, inputType := none, outputType := none, inputProperties := some [], outputFields := none, returnExpression := none, debugTaskMap := [], debugGroupMap := [], debugNodeCount := 4, debugEdgeCount := 5 }, dataFlow := some { workflow := "w".toList, inputType := none, inputProperties := [], parameterName := "input".toList, activities := [{ nodeId := "activity-0".toList, name := "act_a".toList, type := DaprViz.NodeType.activity, inputs := [{ sourceType := DaprViz.DataSrcType.workflow_input, sourcePath := "cfg".toList, sourceActivityId := none, targetProperty := none }], outputVar := some "input".toList, outputType := none, lineNumber := some 1 }, { nodeId := "activity-1".toList, name := "act_b".toList, type := DaprViz.NodeType.activity, inputs := [{ sourceType := DaprViz.DataSrcType.workflow_input, sourcePath := "input.data".toList, sourceActivityId := none, targetProperty := none }], outputVar := some "r2".toList, outputType := none, lineNumber := some 2 }], outputVariableMap := [("input".toList, "activity-0".toList), ("r2".toList, "activity-1".toList)] }, lineOffset := 0 }, errors := [] })

/-- The evaluated parse of `c10src`. -/
def c10resLit : PyState × ParseResult :=
  ({ outputVariableMap := [("r1".toList, "activity-0".toList)], workflowInputParam := "input".toList, inputProperties := [], parallelTaskMap := [], parallelGroupMap := [] }, { success := true, workflow := some { id := "w-I".toList, name := "w".toList, language := "python".toList, filePath := "w.py".toList, nodes := [{ id := "start".toList, type := DaprViz.NodeType.start, name := "Start".toList, label := "Start".toList, lineNumber := none, isParallelTask := false, taskVariable := none, fullCondition := none, metaDataSources := [], tasks := [], outputs := [], taskNodeIds := [], returnType := none, output := none, input := none, dataSources := [] }, { id := "activity-0".toList, type := DaprViz.NodeType.activity, name := "do_thing".toList, label := "do_thing".toList, lineNumber := some 1, isParallelTask := false, taskVariable := none, fullCondition := none, metaDataSources := [{ sourceType := DaprViz.DataSrcType.activity_output, sourcePath := "r1".toList, sourceActivityId := some "activity-0".toList, targetProperty := none }], tasks := [], outputs := [], taskNodeIds := [], returnType := none, output := some "r1".toList, input := some "r1".toList, dataSources := [{ sourceType := DaprViz.DataSrcType.activity_output, sourcePath := "r1".toList, sourceActivityId := some "activity-0".toList, targetProperty := none }] }, { id := "end".toList, type := DaprViz.NodeType.stop, name := "End".toList, label := "End".toList, lineNumber := none, isParallelTask := false, taskVariable := none, fullCondition := none, metaDataSources := [], tasks := [], outputs := [], taskNodeIds := [], returnType := none, output := none, input := none, dataSources := [] }], edges := [{ id := "start-activity-0".toList, source := "start".toList, target := "activity-0".toList, label := none, type := DaprViz.EdgeType.dflt, dataFlow := none, dataSourceType := none }, { id := "activity-0-end".toList, source := "activity-0".toList, target := "end".toList, label := none, type := DaprViz.EdgeType.dflt, dataFlow := none, dataSourceType := none }, { id := "df-activity-0-activity-0-r1".toList, source := "activity-0".toList, target := "activity-0".toList, label := some "r1".toList, type := DaprViz.EdgeType.data_activity_output, dataFlow := some "r1".toList, dataSourceType := some (DaprViz.DataSrcType.activity_output) }], metadata := some { description := none, inputType := none, outputType := none, inputProperties := some [], outputFields := none, returnExpression := none, debugTaskMap := [], debugGroupMap := [], debugNodeCount := 3, debugEdgeCount := 3 }, dataFlow := some { workflow := "w".toList, inputType := none, inputProperties := [], parameterName := "input".toList, activities := [{ nodeId := "activity-0".toList, name := "do_thing".toList, type := DaprViz.NodeType.activity, inputs := [{ sourceType := DaprViz.DataSrcType.activity_output, sourcePath := "r1".toList, sourceActivityId := some "activity-0".toList, targetProperty := none }], outputVar := some "r1".toList, outputType := none, lineNumber := some 1 }], outputVariableMap := [("r1".toList, "activity-0".toList)] }, lineOffset := 0 }, errors := [] })

/-- The evaluated parse of `c8src1`. -/
def c8res1Lit : PyState × ParseResult :=
  ({ outputVariableMap := [], workflowInputParam := "payload".toList, inputProperties := [], parallelTaskMap := [], parallelGroupMap := [] }, { success := true, workflow := some { id := "wf-I".toList, name := "wf".toList, language := "python".toList, filePath := "a.py".toList, nodes := [{ id := "start".toList, type := DaprViz.NodeType.start, name := "Start".toList, label := "Start".toList, lineNumber := none, isParallelTask := false, taskVariable := none, fullCondition := none, metaDataSources := [], tasks := [], outputs := [], taskNodeIds := [], returnType := none, output := none, input := none, dataSources := [] }, { id := "end".toList, type := DaprViz.NodeType.stop, name := "End".toList, label := "End".toList, lineNumber := none, isParallelTask := false, taskVariable := none, fullCondition := none, metaDataSources := [], tasks := [], outputs := [], taskNodeIds := [], returnType := none, output := none, input := none, dataSources := [] }], edges := [{ id := "start-end".toList, source := "start".toList, target := "end".toList, label := none, type := DaprViz.EdgeType.dflt, dataFlow := none, dataSourceType := none }], metadata := some { description := none, inputType := none, outputType := none, inputProperties := some [], outputFields := none, returnExpression := none, debugTaskMap := [], debugGroupMap := [], debugNodeCount := 2, debugEdgeCount := 1 }, dataFlow := some { workflow := "wf".toList, inputType := none, inputProperties := [], parameterName := "payload".toList, activities := [], outputVariableMap := [] }, lineOffset := 0 }, errors := [] })

/-!
Claim-level notions for the producer-map and control-flow-assembler
claims: the root-identifier test used by `classifyLoop`, the assembler
invariant `CFInv` satisfied by the node lists the extractor produces,
and the fan-out/fan-in filter states `cfA`/`cfB` threaded through the
assembler walk.
-/

/-- `expr` is the variable `v` itself or a dotted/indexed access rooted
at `v`, exactly the test `classifyLoop` applies to each producer-map
entry. -/
def rootsVar (v expr : Str) : Bool :=
  expr = v || startsWithS expr (v ++ ".".toList) || startsWithS expr (v ++ "[".toList)

/-- Invariant of the assembler inputs: node ids are distinct, group-map
keys are distinct, every key names a parallel task node and every value
names a non-task parallel join node. The extractor establishes this for
the node lists it hands to `buildControlFlowEdges`. -/
def CFInv (nodes : List WorkflowNode) (gm : List (Str × Str)) : Prop :=
  (nodes.map (fun n => n.id)).Nodup ∧
  (gm.map Prod.fst).Nodup ∧
  (∀ p ∈ gm, ∃ n ∈ nodes, n.id = p.1 ∧ n.isParallelTask = true ∧ n.type = .activity) ∧
  (∀ p ∈ gm, ∃ n ∈ nodes, n.id = p.2 ∧ n.isParallelTask = false ∧ n.type = .parallel)

instance (nodes : List WorkflowNode) (gm : List (Str × Str)) : Decidable (CFInv nodes gm) := by
  unfold CFInv
  infer_instance

/-- Ids of the parallel task nodes in sorted order. -/
def ptIdsOf (nodes : List WorkflowNode) : List Str :=
  ((sortByLine nodes).filter (fun n => n.isParallelTask)).map (fun n => n.id)

/-- Ids of the parallel join nodes in sorted order. -/
def joinIdsOf (nodes : List WorkflowNode) : List Str :=
  ((sortByLine nodes).filter
    (fun n => n.type = .parallel && startsWithS n.id "parallel-join".toList)).map
    (fun n => n.id)

/-- Walk state before the join `j` is processed: no fan-out or fan-in
edge for `j` has been emitted. -/
def cfA (gm : List (Str × Str)) (j : Str) (st : CFState) : Prop :=
  st.processed.contains j = false ∧
  st.edges.filter (foP gm j) = [] ∧ st.edges.filter (fiP j) = []

/-- Walk state after the join `j` is processed: its fan-out edges all
share one source `src` and its fan-in edges enter `j`, one of each per
group member. -/
def cfB (nodes : List WorkflowNode) (gm : List (Str × Str)) (j : Str) (st : CFState) : Prop :=
  st.processed.contains j = true ∧
  ∃ src,
    st.edges.filter (foP gm j) = (groupOf nodes gm j).map (fun p => mkCtl src p.id .parallel) ∧
    st.edges.filter (fiP j) = (groupOf nodes gm j).map (fun p => mkCtl p.id j .parallel)

/-- A small concrete assembler input: start node, two parallel task
activities, one join, end node. -/
def cfWitNodes : List WorkflowNode :=
  [createNode "start".toList .start "Start".toList (some "Start".toList),
   { id := "activity-0".toList, type := .activity, name := "a0".toList,
     label := "a0".toList, lineNumber := some 1, isParallelTask := true },
   { id := "activity-1".toList, type := .activity, name := "a1".toList,
     label := "a1".toList, lineNumber := some 2, isParallelTask := true },
   { id := "parallel-join-0".toList, type := .parallel, name := "join".toList,
     label := "join".toList, lineNumber := some 3 },
   createNode "end".toList .stop "End".toList (some "End".toList)]

/-- The matching group map: both activities resolve to the join. -/
def cfWitGm : List (Str × Str) :=
  [("activity-0".toList, "parallel-join-0".toList),
   ("activity-1".toList, "parallel-join-0".toList)]


set_option maxRecDepth 1000000 in
set_option maxHeartbeats 16000000 in
/-- The parse of `c1src` evaluates to `c1resLit`. -/
theorem c1res_eq : c1res = c1resLit := by rfl

set_option maxRecDepth 1000000 in
set_option maxHeartbeats 16000000 in
/-- The parse of `c3src` evaluates to `c3resLit`. -/
theorem c3res_eq : c3res = c3resLit := by rfl

set_option maxRecDepth 1000000 in
set_option maxHeartbeats 16000000 in
/-- The parse of `c10src` evaluates to `c10resLit`. -/
theorem c10res_eq : c10res = c10resLit := by rfl

set_option maxRecDepth 1000000 in
set_option maxHeartbeats 16000000 in
/-- The parse of `c8src1` evaluates to `c8res1Lit`. -/
theorem c8res1_eq : c8res1 = c8res1Lit := by rfl

/-!
Counterexample theorems.
-/

/-- Claim C1 counterexample: in the graph parsed from `c1src` the
parallel-group map resolves exactly one task node (`activity-1`, k = 1)
to the join `parallel-join-0`.  The graph contains exactly k fan-out
parallel edges into that group and k fan-in edges out of it, but the
common source of the fan-out edges is `parallel-join-1` — not
`activity-0`, the node that immediately precedes the group in
line-sorted order, as the claim requires. -/
theorem claim_C1_counterexample :
    c1res.2.workflow = some c1wf ∧
    tasksOf c1res.1.parallelGroupMap "parallel-join-0".toList = ["activity-1".toList] ∧
    c1wf.edges.filter (foP c1res.1.parallelGroupMap "parallel-join-0".toList) =
      [mkCtl "parallel-join-1".toList "activity-1".toList .parallel] ∧
    c1wf.edges.filter (fiP "parallel-join-0".toList) =
      [mkCtl "activity-1".toList "parallel-join-0".toList .parallel] ∧
    specGroupPredecessor c1wf.nodes c1res.1.parallelGroupMap "parallel-join-0".toList =
      some "activity-0".toList ∧
    ¬ (∀ e ∈ c1wf.edges.filter (foP c1res.1.parallelGroupMap "parallel-join-0".toList),
        some e.source =
          specGroupPredecessor c1wf.nodes c1res.1.parallelGroupMap "parallel-join-0".toList) := by
  simp only [c1wf, c1res_eq]
  decide

/-- Claim C3 counterexample: in the graph parsed from `c3src` the first
step outputs the variable `input` (registered in the producer map with
producer `activity-0`); the later step's input expression `input.data`
is a dotted access rooted at that variable, yet its data source is
classified as workflow-input with no producer, because the
workflow-input check precedes the producer-map check. -/
theorem claim_C3_counterexample :
    c3res.2.workflow = some c3wf ∧
    (c3wf.nodes.map (fun n => (n.id, n.output))) =
      [("start".toList, none), ("activity-0".toList, some "input".toList),
       ("activity-1".toList, some "r2".toList), ("end".toList, none)] ∧
    jsMapGet c3res.1.outputVariableMap "input".toList = some "activity-0".toList ∧
    ((c3wf.nodes.filter (fun n => n.id = "activity-1".toList)).map (fun n => n.input)) =
      [some "input.data".toList] ∧
    ((c3wf.nodes.filter (fun n => n.id = "activity-1".toList)).map (fun n => n.dataSources)) =
      [[{ sourceType := .workflow_input, sourcePath := "input.data".toList }]] := by
  simp only [c3wf, c3res_eq]
  decide

/-- Claim C5 counterexample: the bracket opened at index 39 of `c5src`
has no matching closer (the reference scan is exhausted first), yet
`findMatchingBracket` returns 44 = length − 1 — an in-range index, not
an out-of-range sentinel — and `extractInputExpression` consumes it
unchecked, returning the remainder of the text as the input expression
instead of skipping the step. -/
theorem claim_C5_counterexample :
    c5src.getD 39 (Char.ofNat 0) = '[' ∧
    specMatchingClose c5src 39 = none ∧
    findMatchingBracket c5src 39 = c5src.length - 1 ∧
    c5src.length - 1 < c5src.length ∧
    extractInputExpression c5src 0 = some "[1, 2".toList := by
  decide

/-- Claim C7 counterexample: `.ts` is a supported extension, and two
registered extractors (the `javascript`-tagged and `typescript`-tagged
`JavaScriptWorkflowParser` instances) answer `canParse` true for a file
path ending in it — not exactly one. -/
theorem claim_C7_counterexample :
    ".ts".toList ∈ getSupportedExtensions ∧
    endsWithS "a.ts".toList ".ts".toList = true ∧
    (factoryParsers.filter (fun p => p.canParse "a.ts".toList)).length = 2 ∧
    (factoryParsers.filter (fun p => p.canParse "a.ts".toList)).length ≠ 1 := by
  decide

/-- Claim C8 counterexample: parsing `c8src1` stores the input-parameter
name `payload` in the instance state; a second parse of the empty source
`c8src2` on the same instance then reports `parameterName = payload` in
its data-flow metadata, while a fresh instance reports `input` — the
second call's result depends on state written by the first call. -/
theorem claim_C8_counterexample :
    (pyParse c8res1.1 c8src2 "b.py".toList none "I".toList).2 ≠
      (pyParse {} c8src2 "b.py".toList none "I".toList).2 ∧
    (((pyParse c8res1.1 c8src2 "b.py".toList none "I".toList).2.workflow.getD
        emptyWf).dataFlow.map (fun d => d.parameterName)) = some "payload".toList ∧
    (((pyParse ({} : PyState) c8src2 "b.py".toList none "I".toList).2.workflow.getD
        emptyWf).dataFlow.map (fun d => d.parameterName)) = some "input".toList := by
  simp only [c8res1_eq]
  decide

/-- Claim C9 counterexample: on a C# body with one recognized return
statement the C# extractor records only the output field names — its
metadata carries no `returnExpression` — while the Python extractor on a
body with one recognized return records the last return expression
verbatim; the behavior is not identical across languages. -/
theorem claim_C9_counterexample :
    csReturns c9csSrc ≠ [] ∧
    (csExtractReturnInfo c9csSrc emptyWf).metadata =
      some { outputFields := some ["Success".toList] } ∧
    ((csExtractReturnInfo c9csSrc emptyWf).metadata.bind (fun m => m.returnExpression)) =
      none ∧
    pyReturns c9pySrc ≠ [] ∧
    ((extractReturnInfo c9pySrc emptyWf).metadata.bind (fun m => m.returnExpression)) =
      some "result".toList := by
  decide

/-- Claim C10 counterexample: the graph parsed from `c10src` contains a
self-loop edge that is not an event-data edge — the activity-output data
edge of the step that consumes its own output variable. -/
theorem claim_C10_counterexample :
    c10res.2.workflow = some c10wf ∧
    ((c10wf.edges.filter (fun e => e.source = e.target)).map (fun e => (e.id, e.type))) =
      [("df-activity-0-activity-0-r1".toList, EdgeType.data_activity_output)] ∧
    ¬ (∀ e ∈ c10wf.edges, e.source = e.target → e.type = EdgeType.data_event) := by
  simp only [c10wf, c10res_eq]
  decide


theorem extractReturnInfo_nodes (sourceCode : Str) (wf : WorkflowDefinition) :
    (extractReturnInfo sourceCode wf).nodes = wf.nodes := by
  unfold extractReturnInfo
  dsimp only
  split <;> rfl

theorem extractReturnInfo_edges (sourceCode : Str) (wf : WorkflowDefinition) :
    (extractReturnInfo sourceCode wf).edges = wf.edges := by
  unfold extractReturnInfo
  dsimp only
  split <;> rfl

theorem buildCF_startEnd (gm : List (Str × Str)) :
    buildControlFlowEdges (addStartEndNodes []) gm =
      [mkCtl "start".toList "end".toList .dflt] := rfl

/-- Claim C6: for every source text, file identifier and target name the
Python `parse` returns a structured success outcome (the embedded body is
total, so no exception can arise), and the catch boundary maps any thrown
message to a failure outcome with no workflow object and that single
error message — never a partial graph. -/
theorem claim_C6 (st : PyState) (sourceCode filePath : Str) (target : Option Str)
    (idSuffix : Str) :
    ((pyParse st sourceCode filePath target idSuffix).2.success = true ∧
     (pyParse st sourceCode filePath target idSuffix).2.workflow.isSome = true ∧
     (pyParse st sourceCode filePath target idSuffix).2.errors = []) ∧
    (∀ m : Str, pyParseOutcome (.error m) =
      { success := false, workflow := none, errors := [{ message := m }] }) := by
  refine ⟨?_, fun m => rfl⟩
  rcases hpb : pyParseBody st sourceCode filePath target idSuffix with ⟨st2, wf⟩
  simp [pyParse, hpb, pyParseOutcome]

/-- Claim C8, amended: the outcome of a `parse` call is independent of
the producer, task and group maps left by an earlier call — those three
are reset on entry — but it does depend on the persisted
`workflowInputParam` and `inputProperties` fields: two instance states
agreeing on those two fields yield identical results. (The claim as
written is refuted by `claim_C8_counterexample`.) -/
theorem claim_C8_amended (st st2 : PyState) (sourceCode filePath : Str)
    (target : Option Str) (idSuffix : Str)
    (h1 : st.workflowInputParam = st2.workflowInputParam)
    (h2 : st.inputProperties = st2.inputProperties) :
    (pyParse st sourceCode filePath target idSuffix).2 =
      (pyParse st2 sourceCode filePath target idSuffix).2 := by
  have hreset :
      ({ st with outputVariableMap := [], parallelTaskMap := [], parallelGroupMap := [] } : PyState) =
      { st2 with outputVariableMap := [], parallelTaskMap := [], parallelGroupMap := [] } := by
    cases st; cases st2; simp_all
  have hbody : pyParseBody st sourceCode filePath target idSuffix =
      pyParseBody st2 sourceCode filePath target idSuffix := by
    unfold pyParseBody
    rw [hreset]
  simp [pyParse, hbody]

/-- Claim C9, amended: the C# extractor never writes `returnExpression`
(it leaves whatever was in the metadata untouched), while the Python
extractor on a scope with at least one recognized return statement
records both the collected output fields and the last return expression
verbatim — the behavior is not identical across languages. -/
theorem claim_C9_amended (csSrc : Str) (csWf : WorkflowDefinition)
    (pySrc : Str) (pyWf : WorkflowDefinition)
    (h : pyReturns pySrc ≠ []) :
    ((csExtractReturnInfo csSrc csWf).metadata.bind (fun m => m.returnExpression)) =
      (csWf.metadata.bind (fun m => m.returnExpression)) ∧
    ((extractReturnInfo pySrc pyWf).metadata.bind (fun m => m.returnExpression)) =
      some ((pyReturns pySrc).getLastD []) ∧
    ((extractReturnInfo pySrc pyWf).metadata.map (fun m => m.outputFields.isSome)) =
      some true := by
  refine ⟨?_, ?_, ?_⟩
  · unfold csExtractReturnInfo
    dsimp only
    split
    · rfl
    · cases hm : csWf.metadata <;> simp [hm]
  · unfold extractReturnInfo
    dsimp only
    rw [if_neg h]
    rfl
  · unfold extractReturnInfo
    dsimp only
    rw [if_neg h]
    rfl

theorem endsWith_excl (p a b : Str) (ha : endsWithS p a = true)
    (hab : ¬ a <:+ b) (hba : ¬ b <:+ a) : endsWithS p b = false := by
  rw [endsWithS] at *
  by_contra hb
  rw [Bool.not_eq_false, List.isSuffixOf_iff_suffix] at hb
  rw [List.isSuffixOf_iff_suffix] at ha
  rcases List.suffix_or_suffix_of_suffix ha hb with h | h
  · exact hab h
  · exact hba h

/-- Claim C7, amended: for a path ending in a supported extension, the
number of registered extractors whose `canParse` answers true is one for
`.cs` and `.py` but two for `.js`, `.ts`, `.mjs` and `.mts` (the
`javascript`- and `typescript`-tagged registrations share the same
predicate); first-match selection still resolves deterministically, to
the `javascript` registration for all four script extensions. -/
theorem claim_C7_amended (p ext : Str) (hext : ext ∈ getSupportedExtensions)
    (he : endsWithS p ext = true) :
    (factoryParsers.filter (fun q => q.canParse p)).length =
      (if ext = ".cs".toList ∨ ext = ".py".toList then 1 else 2) ∧
    (getParser p).map (fun q => q.language) =
      some (if ext = ".cs".toList then "csharp".toList
            else if ext = ".py".toList then "python".toList
            else "javascript".toList) := by
  simp only [getSupportedExtensions, List.mem_cons, List.not_mem_nil, or_false] at hext
  rcases hext with rfl | rfl | rfl | rfl | rfl | rfl
  · have he2 : endsWithS p ['.','c','s'] = true := he
    have h1 : endsWithS p ['.','p','y'] = false :=
      endsWith_excl p ".cs".toList ".py".toList he (by decide) (by decide)
    have h2 : endsWithS p ['.','j','s'] = false :=
      endsWith_excl p ".cs".toList ".js".toList he (by decide) (by decide)
    have h3 : endsWithS p ['.','t','s'] = false :=
      endsWith_excl p ".cs".toList ".ts".toList he (by decide) (by decide)
    have h4 : endsWithS p ['.','m','j','s'] = false :=
      endsWith_excl p ".cs".toList ".mjs".toList he (by decide) (by decide)
    have h5 : endsWithS p ['.','m','t','s'] = false :=
      endsWith_excl p ".cs".toList ".mts".toList he (by decide) (by decide)
    simp [factoryParsers, getParser, csCanParse, pyCanParse, jsCanParse,
          List.filter, List.find?, he2, h1, h2, h3, h4, h5]
  · have he2 : endsWithS p ['.','p','y'] = true := he
    have h1 : endsWithS p ['.','c','s'] = false :=
      endsWith_excl p ".py".toList ".cs".toList he (by decide) (by decide)
    have h2 : endsWithS p ['.','j','s'] = false :=
      endsWith_excl p ".py".toList ".js".toList he (by decide) (by decide)
    have h3 : endsWithS p ['.','t','s'] = false :=
      endsWith_excl p ".py".toList ".ts".toList he (by decide) (by decide)
    have h4 : endsWithS p ['.','m','j','s'] = false :=
      endsWith_excl p ".py".toList ".mjs".toList he (by decide) (by decide)
    have h5 : endsWithS p ['.','m','t','s'] = false :=
      endsWith_excl p ".py".toList ".mts".toList he (by decide) (by decide)
    simp [factoryParsers, getParser, csCanParse, pyCanParse, jsCanParse,
          List.filter, List.find?, he2, h1, h2, h3, h4, h5]
  · have he2 : endsWithS p ['.','j','s'] = true := he
    have h1 : endsWithS p ['.','c','s'] = false :=
      endsWith_excl p ".js".toList ".cs".toList he (by decide) (by decide)
    have h2 : endsWithS p ['.','p','y'] = false :=
      endsWith_excl p ".js".toList ".py".toList he (by decide) (by decide)
    simp [factoryParsers, getParser, csCanParse, pyCanParse, jsCanParse,
          List.filter, List.find?, he2, h1, h2]
  · have he2 : endsWithS p ['.','t','s'] = true := he
    have h1 : endsWithS p ['.','c','s'] = false :=
      endsWith_excl p ".ts".toList ".cs".toList he (by decide) (by decide)
    have h2 : endsWithS p ['.','p','y'] = false :=
      endsWith_excl p ".ts".toList ".py".toList he (by decide) (by decide)
    simp [factoryParsers, getParser, csCanParse, pyCanParse, jsCanParse,
          List.filter, List.find?, he2, h1, h2]
  · have he2 : endsWithS p ['.','m','j','s'] = true := he
    have h1 : endsWithS p ['.','c','s'] = false :=
      endsWith_excl p ".mjs".toList ".cs".toList he (by decide) (by decide)
    have h2 : endsWithS p ['.','p','y'] = false :=
      endsWith_excl p ".mjs".toList ".py".toList he (by decide) (by decide)
    simp [factoryParsers, getParser, csCanParse, pyCanParse, jsCanParse,
          List.filter, List.find?, he2, h1, h2]
  · have he2 : endsWithS p ['.','m','t','s'] = true := he
    have h1 : endsWithS p ['.','c','s'] = false :=
      endsWith_excl p ".mts".toList ".cs".toList he (by decide) (by decide)
    have h2 : endsWithS p ['.','p','y'] = false :=
      endsWith_excl p ".mts".toList ".py".toList he (by decide) (by decide)
    simp [factoryParsers, getParser, csCanParse, pyCanParse, jsCanParse,
          List.filter, List.find?, he2, h1, h2]

/-- Claim C2: whenever the step extractors recognize zero steps, the
returned workflow graph is exactly the synthetic start and end nodes
(ids `start` and `end`) joined by the single control edge
`start -> end`. -/
theorem claim_C2 (st : PyState) (sourceCode filePath : Str) (target : Option Str)
    (idSuffix : Str)
    (h : (pyStepNodes
        (extractWorkflowInputInfo
          { st with outputVariableMap := [], parallelTaskMap := [], parallelGroupMap := [] }
          (pyScope sourceCode filePath target).1)
        (pyScope sourceCode filePath target).1
        (pyScope sourceCode filePath target).2.1).1 = []) :
    (pyParse st sourceCode filePath target idSuffix).2.success = true ∧
    ∃ w, (pyParse st sourceCode filePath target idSuffix).2.workflow = some w ∧
      w.nodes = addStartEndNodes [] ∧
      w.nodes.map (fun n => n.id) = ["start".toList, "end".toList] ∧
      w.edges = [mkCtl "start".toList "end".toList .dflt] := by
  rcases hsc : pyScope sourceCode filePath target with ⟨s, off, nm⟩
  rw [hsc] at h
  rcases hsn : pyStepNodes
      (extractWorkflowInputInfo
        { st with outputVariableMap := [], parallelTaskMap := [], parallelGroupMap := [] } s)
      s off with ⟨steps, st2⟩
  rw [hsn] at h
  simp only at h
  subst h
  simp only [pyParse, pyParseBody, pyParseOutcome, hsc, hsn]
  refine ⟨trivial, _, rfl, ?_, ?_, ?_⟩
  · simp [buildEdgesWithDataFlow, extractReturnInfo_nodes]
  · simp [buildEdgesWithDataFlow, extractReturnInfo_nodes]
    rfl
  · simp only [buildEdgesWithDataFlow, extractReturnInfo_nodes, extractReturnInfo_edges,
      List.append_nil]
    rw [buildCF_startEnd]
    rfl

theorem claim_C8_amended_witness :
    ({ outputVariableMap := [("a".toList, "b".toList)],
       parallelTaskMap := [("c".toList, "d".toList)],
       parallelGroupMap := [("e".toList, "f".toList)] } : PyState).workflowInputParam =
      ({} : PyState).workflowInputParam ∧
    ({ outputVariableMap := [("a".toList, "b".toList)],
       parallelTaskMap := [("c".toList, "d".toList)],
       parallelGroupMap := [("e".toList, "f".toList)] } : PyState).inputProperties =
      ({} : PyState).inputProperties ∧
    (pyParse { outputVariableMap := [("a".toList, "b".toList)],
               parallelTaskMap := [("c".toList, "d".toList)],
               parallelGroupMap := [("e".toList, "f".toList)] } [] [] none []).2 =
      (pyParse {} [] [] none []).2 :=
  ⟨rfl, rfl,
   claim_C8_amended _ {} [] [] none [] rfl rfl⟩

theorem claim_C9_amended_witness :
    pyReturns c9pySrc ≠ [] ∧
    (((csExtractReturnInfo [] emptyWf).metadata.bind (fun m => m.returnExpression)) =
       (emptyWf.metadata.bind (fun m => m.returnExpression)) ∧
     ((extractReturnInfo c9pySrc emptyWf).metadata.bind (fun m => m.returnExpression)) =
       some ((pyReturns c9pySrc).getLastD []) ∧
     ((extractReturnInfo c9pySrc emptyWf).metadata.map (fun m => m.outputFields.isSome)) =
       some true) :=
  ⟨by decide, claim_C9_amended [] emptyWf c9pySrc emptyWf (by decide)⟩

theorem claim_C7_amended_witness :
    ".ts".toList ∈ getSupportedExtensions ∧
    endsWithS "a.ts".toList ".ts".toList = true ∧
    ((factoryParsers.filter (fun q => q.canParse "a.ts".toList)).length =
       (if ".ts".toList = ".cs".toList ∨ ".ts".toList = ".py".toList then 1 else 2) ∧
     (getParser "a.ts".toList).map (fun q => q.language) =
       some (if ".ts".toList = ".cs".toList then "csharp".toList
             else if ".ts".toList = ".py".toList then "python".toList
             else "javascript".toList)) :=
  ⟨by decide, by decide,
   claim_C7_amended "a.ts".toList ".ts".toList (by decide) (by decide)⟩

set_option maxRecDepth 100000 in
set_option maxHeartbeats 4000000 in
theorem claim_C2_witness :
    (pyStepNodes
        (extractWorkflowInputInfo
          { ({} : PyState) with
            outputVariableMap := [], parallelTaskMap := [], parallelGroupMap := [] }
          (pyScope [] "w.py".toList none).1)
        (pyScope [] "w.py".toList none).1
        (pyScope [] "w.py".toList none).2.1).1 = [] ∧
    ((pyParse {} [] "w.py".toList none "I".toList).2.success = true ∧
     ∃ w, (pyParse {} [] "w.py".toList none "I".toList).2.workflow = some w ∧
       w.nodes = addStartEndNodes [] ∧
       w.nodes.map (fun n => n.id) = ["start".toList, "end".toList] ∧
       w.edges = [mkCtl "start".toList "end".toList .dflt]) :=
  ⟨by decide, claim_C2 {} [] "w.py".toList none "I".toList (by decide)⟩

/-!
Equivalence of `findMatchingBracket` with the reference scanner: one-step
unfolding lemmas for `fmbGo`, the string-skip simulation, and the main
induction relating `fmbGo` to `specFindClose`.
-/

theorem quoteCond_true (c prev : Char)
    (h : ((c = dquote || c = squote) && prev ≠ '\\') = true) :
    (c = dquote ∨ c = squote) ∧ ¬ prev = '\\' := by
  simp only [Bool.and_eq_true, Bool.or_eq_true, decide_eq_true_eq] at h
  simpa using h

theorem quoteCond_false (c prev : Char)
    (h : ((c = dquote || c = squote) && prev ≠ '\\') = false) :
    ¬ ((c = dquote ∨ c = squote) ∧ ¬ prev = '\\') := by
  intro hc
  have ht : ((c = dquote || c = squote) && prev ≠ '\\') = true := by
    rcases hc.1 with h1 | h1 <;> simp [h1, hc.2]
  rw [ht] at h
  exact Bool.true_eq_false.mp h

theorem fmbGo_nil (oc cc prev : Char) (i depth : Nat) (q : QuoteSt) :
    fmbGo oc cc prev [] i depth q = i - 1 := rfl

theorem fmbGo_zero (oc cc prev : Char) (rest : Str) (i : Nat) (q : QuoteSt) :
    fmbGo oc cc prev rest i 0 q = i - 1 := by
  rcases rest with _ | ⟨c, rest⟩
  · rfl
  · conv_lhs => rw [fmbGo.eq_def]
    simp

theorem fmbGo_single_exit (oc cc prev c qc : Char) (rest : Str) (i depth : Nat)
    (hd : depth ≠ 0)
    (hAB : ((c = dquote || c = squote) && prev ≠ '\\') = true)
    (hq : qc = c) :
    fmbGo oc cc prev (c :: rest) i depth (.single qc) =
      fmbGo oc cc c rest (i + 1) depth .noQ := by
  obtain ⟨hA, hB⟩ := quoteCond_true c prev hAB
  subst hq
  conv_lhs => rw [fmbGo.eq_def]
  simp [hd, hA, hB]

theorem fmbGo_single_stay_q (oc cc prev c qc : Char) (rest : Str) (i depth : Nat)
    (hd : depth ≠ 0)
    (hAB : ((c = dquote || c = squote) && prev ≠ '\\') = true)
    (hq : ¬ qc = c) :
    fmbGo oc cc prev (c :: rest) i depth (.single qc) =
      fmbGo oc cc c rest (i + 1) depth (.single qc) := by
  obtain ⟨hA, hB⟩ := quoteCond_true c prev hAB
  conv_lhs => rw [fmbGo.eq_def]
  simp [hd, hA, hB, hq]

theorem fmbGo_single_stay_nq (oc cc prev c qc : Char) (rest : Str) (i depth : Nat)
    (hd : depth ≠ 0)
    (hAB : ((c = dquote || c = squote) && prev ≠ '\\') = false) :
    fmbGo oc cc prev (c :: rest) i depth (.single qc) =
      fmbGo oc cc c rest (i + 1) depth (.single qc) := by
  have hN := quoteCond_false c prev hAB
  conv_lhs => rw [fmbGo.eq_def]
  simp [hd, hN]

theorem fmbGo_triple_exit (oc cc prev c qc c2 c3 : Char) (rest3 : Str) (i depth : Nat)
    (hd : depth ≠ 0)
    (hAB : ((c = dquote || c = squote) && prev ≠ '\\') = true)
    (hq : qc = c)
    (h2 : c2 = qc)
    (h3 : c3 = qc) :
    fmbGo oc cc prev (c :: c2 :: c3 :: rest3) i depth (.triple qc) =
      fmbGo oc cc c3 rest3 (i + 3) depth .noQ := by
  obtain ⟨hA, hB⟩ := quoteCond_true c prev hAB
  subst hq
  subst h2
  subst h3
  conv_lhs => rw [fmbGo.eq_def]
  simp [hd, hA, hB]

theorem fmbGo_triple_stay_shape (oc cc prev c qc c2 c3 : Char) (rest3 : Str) (i depth : Nat)
    (hd : depth ≠ 0)
    (hAB : ((c = dquote || c = squote) && prev ≠ '\\') = true)
    (hq : qc = c)
    (h23 : ¬ (c2 = qc ∧ c3 = qc)) :
    fmbGo oc cc prev (c :: c2 :: c3 :: rest3) i depth (.triple qc) =
      fmbGo oc cc c (c2 :: c3 :: rest3) (i + 1) depth (.triple qc) := by
  obtain ⟨hA, hB⟩ := quoteCond_true c prev hAB
  subst hq
  conv_lhs => rw [fmbGo.eq_def]
  simp [hd, hA, hB, h23]

theorem fmbGo_triple_stay_one (oc cc prev c qc c2 : Char) (i depth : Nat)
    (hd : depth ≠ 0)
    (hAB : ((c = dquote || c = squote) && prev ≠ '\\') = true)
    (hq : qc = c) :
    fmbGo oc cc prev [c, c2] i depth (.triple qc) =
      fmbGo oc cc c [c2] (i + 1) depth (.triple qc) := by
  obtain ⟨hA, hB⟩ := quoteCond_true c prev hAB
  subst hq
  conv_lhs => rw [fmbGo.eq_def]
  simp [hd, hA, hB]

theorem fmbGo_triple_stay_nil (oc cc prev c qc : Char) (i depth : Nat)
    (hd : depth ≠ 0)
    (hAB : ((c = dquote || c = squote) && prev ≠ '\\') = true)
    (hq : qc = c) :
    fmbGo oc cc prev [c] i depth (.triple qc) =
      fmbGo oc cc c [] (i + 1) depth (.triple qc) := by
  obtain ⟨hA, hB⟩ := quoteCond_true c prev hAB
  subst hq
  conv_lhs => rw [fmbGo.eq_def]
  simp [hd, hA, hB]

theorem fmbGo_triple_stay_q (oc cc prev c qc : Char) (rest : Str) (i depth : Nat)
    (hd : depth ≠ 0)
    (hAB : ((c = dquote || c = squote) && prev ≠ '\\') = true)
    (hq : ¬ qc = c) :
    fmbGo oc cc prev (c :: rest) i depth (.triple qc) =
      fmbGo oc cc c rest (i + 1) depth (.triple qc) := by
  obtain ⟨hA, hB⟩ := quoteCond_true c prev hAB
  conv_lhs => rw [fmbGo.eq_def]
  simp [hd, hA, hB, hq]

theorem fmbGo_triple_stay_nq (oc cc prev c qc : Char) (rest : Str) (i depth : Nat)
    (hd : depth ≠ 0)
    (hAB : ((c = dquote || c = squote) && prev ≠ '\\') = false) :
    fmbGo oc cc prev (c :: rest) i depth (.triple qc) =
      fmbGo oc cc c rest (i + 1) depth (.triple qc) := by
  have hN := quoteCond_false c prev hAB
  conv_lhs => rw [fmbGo.eq_def]
  simp [hd, hN]

theorem fmbGo_noq_quote_triple (oc cc prev c c2 c3 : Char) (rest3 : Str) (i depth : Nat)
    (hd : depth ≠ 0)
    (hAB : ((c = dquote || c = squote) && prev ≠ '\\') = true)
    (h2 : c2 = c)
    (h3 : c3 = c) :
    fmbGo oc cc prev (c :: c2 :: c3 :: rest3) i depth .noQ =
      fmbGo oc cc c3 rest3 (i + 3) depth (.triple c) := by
  obtain ⟨hA, hB⟩ := quoteCond_true c prev hAB
  subst h2
  subst h3
  conv_lhs => rw [fmbGo.eq_def]
  simp [hd, hA, hB]

theorem fmbGo_noq_quote_single3 (oc cc prev c c2 c3 : Char) (rest3 : Str) (i depth : Nat)
    (hd : depth ≠ 0)
    (hAB : ((c = dquote || c = squote) && prev ≠ '\\') = true)
    (h23 : ¬ (c2 = c ∧ c3 = c)) :
    fmbGo oc cc prev (c :: c2 :: c3 :: rest3) i depth .noQ =
      fmbGo oc cc c (c2 :: c3 :: rest3) (i + 1) depth (.single c) := by
  obtain ⟨hA, hB⟩ := quoteCond_true c prev hAB
  conv_lhs => rw [fmbGo.eq_def]
  simp [hd, hA, hB, h23]

theorem fmbGo_noq_quote_single1 (oc cc prev c c2 : Char) (i depth : Nat)
    (hd : depth ≠ 0)
    (hAB : ((c = dquote || c = squote) && prev ≠ '\\') = true) :
    fmbGo oc cc prev [c, c2] i depth .noQ =
      fmbGo oc cc c [c2] (i + 1) depth (.single c) := by
  obtain ⟨hA, hB⟩ := quoteCond_true c prev hAB
  conv_lhs => rw [fmbGo.eq_def]
  simp [hd, hA, hB]

theorem fmbGo_noq_quote_single0 (oc cc prev c : Char) (i depth : Nat)
    (hd : depth ≠ 0)
    (hAB : ((c = dquote || c = squote) && prev ≠ '\\') = true) :
    fmbGo oc cc prev [c] i depth .noQ =
      fmbGo oc cc c [] (i + 1) depth (.single c) := by
  obtain ⟨hA, hB⟩ := quoteCond_true c prev hAB
  conv_lhs => rw [fmbGo.eq_def]
  simp [hd, hA, hB]

theorem fmbGo_noq_open (oc cc prev c : Char) (rest : Str) (i depth : Nat)
    (hd : depth ≠ 0)
    (hAB : ((c = dquote || c = squote) && prev ≠ '\\') = false)
    (ho : c = oc) :
    fmbGo oc cc prev (c :: rest) i depth .noQ =
      fmbGo oc cc c rest (i + 1) (depth + 1) .noQ := by
  have hN := quoteCond_false c prev hAB
  subst ho
  conv_lhs => rw [fmbGo.eq_def]
  simp [hd, hN]

theorem fmbGo_noq_close (oc cc prev c : Char) (rest : Str) (i depth : Nat)
    (hd : depth ≠ 0)
    (hAB : ((c = dquote || c = squote) && prev ≠ '\\') = false)
    (ho : ¬ c = oc)
    (hc : c = cc) :
    fmbGo oc cc prev (c :: rest) i depth .noQ =
      fmbGo oc cc c rest (i + 1) (depth - 1) .noQ := by
  have hN := quoteCond_false c prev hAB
  subst hc
  conv_lhs => rw [fmbGo.eq_def]
  simp [hd, hN, ho]

theorem fmbGo_noq_other (oc cc prev c : Char) (rest : Str) (i depth : Nat)
    (hd : depth ≠ 0)
    (hAB : ((c = dquote || c = squote) && prev ≠ '\\') = false)
    (ho : ¬ c = oc)
    (hc : ¬ c = cc) :
    fmbGo oc cc prev (c :: rest) i depth .noQ =
      fmbGo oc cc c rest (i + 1) depth .noQ := by
  have hN := quoteCond_false c prev hAB
  conv_lhs => rw [fmbGo.eq_def]
  simp [hd, hN, ho, hc]


theorem skip_spec (oc cc qc : Char) (tri : Bool) (depth : Nat) (hd : depth ≠ 0)
    (fuel : Nat) (prev : Char) (rest : Str) (i : Nat) (hfuel : rest.length < fuel) :
    (match specSkipString qc tri fuel prev rest i with
    | some (p2, r2, i2) =>
        fmbGo oc cc prev rest i depth (if tri then .triple qc else .single qc) =
          fmbGo oc cc p2 r2 i2 depth .noQ ∧
        i2 + r2.length = i + rest.length ∧ r2.length < rest.length
    | none =>
        fmbGo oc cc prev rest i depth (if tri then .triple qc else .single qc) =
          i + rest.length - 1) := by
  induction fuel, prev, rest, i using specSkipString.induct qc tri with
  | case1 prev rest i =>
    exact absurd hfuel (by omega)
  | case2 fuel prev i =>
    simp only [specSkipString]
    cases tri <;> simp [fmbGo]
  | case3 fuel prev c i h2 htri c2 c3 rest3 h =>
    subst htri
    simp only [reduceIte]
    rw [Bool.and_eq_true] at h2
    obtain ⟨hAB, hC⟩ := h2
    have hq : c = qc := of_decide_eq_true hC
    subst hq
    have hspec : specSkipString c true (fuel + 1) prev (c :: c2 :: c3 :: rest3) i =
        some (c3, rest3, i + 3) := by
      simp only [specSkipString, hAB, hC, h]
      simp
    have hfmb : fmbGo oc cc prev (c :: c2 :: c3 :: rest3) i depth (.triple c) =
        fmbGo oc cc c3 rest3 (i + 3) depth .noQ := by
      simp only [fmbGo, hAB, hd]
      simp [hd, h]
    rw [hspec, hfmb]
    refine ⟨rfl, ?_, ?_⟩ <;> simp only [List.length_cons] <;> omega
  | case4 fuel prev c i h2 htri c2 c3 rest3 h ih =>
    subst htri
    simp only [reduceIte] at ih ⊢
    rw [Bool.and_eq_true] at h2
    obtain ⟨hAB, hC⟩ := h2
    have hq : c = qc := of_decide_eq_true hC
    subst hq
    have hspec : specSkipString c true (fuel + 1) prev (c :: c2 :: c3 :: rest3) i =
        specSkipString c true fuel c (c2 :: c3 :: rest3) (i + 1) := by
      simp only [specSkipString, hAB, hC, h]
      simp [h]
    have hfmb : fmbGo oc cc prev (c :: c2 :: c3 :: rest3) i depth (.triple c) =
        fmbGo oc cc c (c2 :: c3 :: rest3) (i + 1) depth (.triple c) := by
      simp only [fmbGo, hAB, hd]
      simp [hd, h]
    rw [hspec, hfmb]
    have ih2 := ih (by simp only [List.length_cons, List.length_nil] at hfuel ⊢; omega)
    rcases hsp : specSkipString c true fuel c (c2 :: c3 :: rest3) (i + 1) with _ | ⟨p2, r2, i2⟩
    · rw [hsp] at ih2
      dsimp only at ih2 ⊢
      rw [ih2]
      simp only [List.length_cons, List.length_nil]
      try omega
    · rw [hsp] at ih2
      dsimp only at ih2 ⊢
      obtain ⟨e1, e2, e3⟩ := ih2
      refine ⟨e1, ?_, ?_⟩ <;> simp only [List.length_cons, List.length_nil] at e2 e3 ⊢ <;> omega
  | case5 fuel prev c i h2 htri c2 ih =>
    subst htri
    simp only [reduceIte] at ih ⊢
    rw [Bool.and_eq_true] at h2
    obtain ⟨hAB, hC⟩ := h2
    have hq : c = qc := of_decide_eq_true hC
    subst hq
    have hspec : specSkipString c true (fuel + 1) prev [c, c2] i =
        specSkipString c true fuel c [c2] (i + 1) := by
      simp only [specSkipString, hAB, hC]
      simp
    have hfmb : fmbGo oc cc prev [c, c2] i depth (.triple c) =
        fmbGo oc cc c [c2] (i + 1) depth (.triple c) := by
      simp only [fmbGo, hAB, hd]
      simp [hd]
    rw [hspec, hfmb]
    have ih2 := ih (by simp only [List.length_cons, List.length_nil] at hfuel ⊢; omega)
    rcases hsp : specSkipString c true fuel c [c2] (i + 1) with _ | ⟨p2, r2, i2⟩
    · rw [hsp] at ih2
      dsimp only at ih2 ⊢
      rw [ih2]
      simp only [List.length_cons, List.length_nil]
      try omega
    · rw [hsp] at ih2
      dsimp only at ih2 ⊢
      obtain ⟨e1, e2, e3⟩ := ih2
      refine ⟨e1, ?_, ?_⟩ <;> simp only [List.length_cons, List.length_nil] at e2 e3 ⊢ <;> omega
  | case6 fuel prev c i h2 htri ih =>
    subst htri
    simp only [reduceIte] at ih ⊢
    rw [Bool.and_eq_true] at h2
    obtain ⟨hAB, hC⟩ := h2
    have hq : c = qc := of_decide_eq_true hC
    subst hq
    have hspec : specSkipString c true (fuel + 1) prev [c] i =
        specSkipString c true fuel c [] (i + 1) := by
      simp only [specSkipString, hAB, hC]
      simp
    have hfmb : fmbGo oc cc prev [c] i depth (.triple c) =
        fmbGo oc cc c [] (i + 1) depth (.triple c) := by
      simp only [fmbGo, hAB, hd]
      simp [hd]
    rw [hspec, hfmb]
    have ih2 := ih (by simp only [List.length_cons, List.length_nil] at hfuel ⊢; omega)
    rcases hsp : specSkipString c true fuel c [] (i + 1) with _ | ⟨p2, r2, i2⟩
    · rw [hsp] at ih2
      dsimp only at ih2 ⊢
      rw [ih2]
      simp only [List.length_cons, List.length_nil]
      try omega
    · rw [hsp] at ih2
      dsimp only at ih2 ⊢
      obtain ⟨e1, e2, e3⟩ := ih2
      exact absurd e3 (by simp)
  | case7 fuel prev c rest i h2 htri =>
    have htri2 : tri = false := by cases tri <;> simp_all
    subst htri2
    simp only [Bool.false_eq_true, if_false]
    rw [Bool.and_eq_true] at h2
    obtain ⟨hAB, hC⟩ := h2
    have hq : c = qc := of_decide_eq_true hC
    subst hq
    have hspec : specSkipString c false (fuel + 1) prev (c :: rest) i =
        some (c, rest, i + 1) := by
      simp only [specSkipString, hAB, hC]
      simp
    have hfmb : fmbGo oc cc prev (c :: rest) i depth (.single c) =
        fmbGo oc cc c rest (i + 1) depth .noQ := by
      simp only [fmbGo, hAB, hd]
      simp [hd]
    rw [hspec, hfmb]
    refine ⟨rfl, ?_, ?_⟩ <;> simp only [List.length_cons] <;> omega
  | case8 fuel prev c rest i h2 ih =>
    have hspec : specSkipString qc tri (fuel + 1) prev (c :: rest) i =
        specSkipString qc tri fuel c rest (i + 1) := by
      simp only [specSkipString, if_neg h2]
    have hfmb : fmbGo oc cc prev (c :: rest) i depth
          (if tri = true then .triple qc else .single qc) =
        fmbGo oc cc c rest (i + 1) depth
          (if tri = true then .triple qc else .single qc) := by
      by_cases hAB : ((c = dquote || c = squote) && prev ≠ '\\') = true
      · have hCn : ¬ qc = c := by
          intro hqec
          apply h2
          rw [Bool.and_eq_true]
          exact ⟨hAB, by subst hqec; simp⟩
        cases tri
        · simp only [Bool.false_eq_true, if_false]
          exact fmbGo_single_stay_q oc cc prev c qc rest i depth hd hAB hCn
        · simp only [reduceIte]
          exact fmbGo_triple_stay_q oc cc prev c qc rest i depth hd hAB hCn
      · have hABf : ((c = dquote || c = squote) && prev ≠ '\\') = false := by
          revert hAB
          cases ((c = dquote || c = squote) && prev ≠ '\\') <;> simp
        cases tri
        · simp only [Bool.false_eq_true, if_false]
          exact fmbGo_single_stay_nq oc cc prev c qc rest i depth hd hABf
        · simp only [reduceIte]
          exact fmbGo_triple_stay_nq oc cc prev c qc rest i depth hd hABf
    rw [hspec, hfmb]
    have ih2 := ih (by simp only [List.length_cons, List.length_nil] at hfuel ⊢; omega)
    rcases hsp : specSkipString qc tri fuel c rest (i + 1) with _ | ⟨p2, r2, i2⟩
    · rw [hsp] at ih2
      dsimp only at ih2 ⊢
      rw [ih2]
      simp only [List.length_cons, List.length_nil]
      try omega
    · rw [hsp] at ih2
      dsimp only at ih2 ⊢
      obtain ⟨e1, e2, e3⟩ := ih2
      refine ⟨e1, ?_, ?_⟩ <;> simp only [List.length_cons, List.length_nil] at e2 e3 ⊢ <;> omega

theorem matchOptNat_congr (X : Option Nat) (a b : Nat) (hab : a = b) :
    (match X with | some j => j | none => a) =
      (match X with | some j => j | none => b) := by
  cases X
  · exact hab
  · rfl

theorem fmb_spec (oc cc : Char)
    (fuel : Nat) (prev : Char) (rest : Str) (i depth : Nat)
    (hfuel : rest.length < fuel) (hd : depth ≠ 0) :
    fmbGo oc cc prev rest i depth .noQ =
      (match specFindClose oc cc fuel prev rest i depth with
       | some j => j
       | none => i + rest.length - 1) := by
  induction fuel, prev, rest, i, depth using specFindClose.induct oc cc with
  | case1 prev rest i depth =>
    exact absurd hfuel (by omega)
  | case2 fuel prev i depth =>
    have hsp : specFindClose oc cc (fuel + 1) prev [] i depth = none := rfl
    rw [hsp, fmbGo_nil]
    simp
  | case3 fuel prev c i depth hAB c2 c3 rest3 h p2 r2 i2 hx ih =>
    have hfx : rest3.length + 3 < fuel + 1 := hfuel
    rw [Bool.and_eq_true] at h
    have h2c : c2 = c := of_decide_eq_true h.1
    have h3c : c3 = c := of_decide_eq_true h.2
    obtain ⟨hA, hB⟩ := quoteCond_true c prev hAB
    have hstep := fmbGo_noq_quote_triple oc cc prev c c2 c3 rest3 i depth hd hAB h2c h3c
    have hsk := skip_spec oc cc c true depth hd fuel c3 rest3 (i + 3) (by omega)
    rw [hx] at hsk
    simp only [reduceIte] at hsk
    obtain ⟨e1, e2, e3⟩ := hsk
    have e2x : i2 + r2.length = i + 3 + rest3.length := e2
    have e3x : r2.length < rest3.length := e3
    have hx2 : specSkipString c true fuel c rest3 (i + 3) = some (p2, r2, i2) := by
      rw [h3c] at hx
      exact hx
    have hspec : specFindClose oc cc (fuel + 1) prev (c :: c2 :: c3 :: rest3) i depth =
        specFindClose oc cc fuel p2 r2 i2 depth := by
      conv_lhs => rw [specFindClose.eq_def]
      simp [hA, hB, h2c, h3c, hx2]
    have ihh := ih (by omega) hd
    rw [hstep, e1, hspec]
    rw [ihh]
    exact matchOptNat_congr _ _ _ (by
      show i2 + r2.length - 1 = i + (rest3.length + 3) - 1
      omega)
  | case4 fuel prev c i depth hAB c2 c3 rest3 h hx =>
    have hfx : rest3.length + 3 < fuel + 1 := hfuel
    rw [Bool.and_eq_true] at h
    have h2c : c2 = c := of_decide_eq_true h.1
    have h3c : c3 = c := of_decide_eq_true h.2
    obtain ⟨hA, hB⟩ := quoteCond_true c prev hAB
    have hstep := fmbGo_noq_quote_triple oc cc prev c c2 c3 rest3 i depth hd hAB h2c h3c
    have hsk := skip_spec oc cc c true depth hd fuel c3 rest3 (i + 3) (by omega)
    rw [hx] at hsk
    simp only [reduceIte] at hsk
    have hx2 : specSkipString c true fuel c rest3 (i + 3) = none := by
      rw [h3c] at hx
      exact hx
    have hspec : specFindClose oc cc (fuel + 1) prev (c :: c2 :: c3 :: rest3) i depth = none := by
      conv_lhs => rw [specFindClose.eq_def]
      simp [hA, hB, h2c, h3c, hx2]
    rw [hstep, hsk, hspec]
    dsimp only
    show i + 3 + rest3.length - 1 = i + (rest3.length + 3) - 1
    omega
  | case5 fuel prev c i depth hAB c2 c3 rest3 h p2 r2 i2 hx ih =>
    have hfx : rest3.length + 3 < fuel + 1 := hfuel
    have h23 : ¬ (c2 = c ∧ c3 = c) := by
      intro hcc
      exact h (by simp [hcc.1, hcc.2])
    obtain ⟨hA, hB⟩ := quoteCond_true c prev hAB
    have hstep := fmbGo_noq_quote_single3 oc cc prev c c2 c3 rest3 i depth hd hAB h23
    have hsk := skip_spec oc cc c false depth hd fuel c (c2 :: c3 :: rest3) (i + 1) (by
      show rest3.length + 2 < fuel
      omega)
    rw [hx] at hsk
    simp only [Bool.false_eq_true, if_false] at hsk
    obtain ⟨e1, e2, e3⟩ := hsk
    have e2x : i2 + r2.length = i + 1 + (rest3.length + 2) := e2
    have e3x : r2.length < rest3.length + 2 := e3
    have hspec : specFindClose oc cc (fuel + 1) prev (c :: c2 :: c3 :: rest3) i depth =
        specFindClose oc cc fuel p2 r2 i2 depth := by
      conv_lhs => rw [specFindClose.eq_def]
      simp [hA, hB, h23, hx]
    have ihh := ih (by omega) hd
    rw [hstep, e1, hspec]
    rw [ihh]
    exact matchOptNat_congr _ _ _ (by
      show i2 + r2.length - 1 = i + (rest3.length + 3) - 1
      omega)
  | case6 fuel prev c i depth hAB c2 c3 rest3 h hx =>
    have hfx : rest3.length + 3 < fuel + 1 := hfuel
    have h23 : ¬ (c2 = c ∧ c3 = c) := by
      intro hcc
      exact h (by simp [hcc.1, hcc.2])
    obtain ⟨hA, hB⟩ := quoteCond_true c prev hAB
    have hstep := fmbGo_noq_quote_single3 oc cc prev c c2 c3 rest3 i depth hd hAB h23
    have hsk := skip_spec oc cc c false depth hd fuel c (c2 :: c3 :: rest3) (i + 1) (by
      show rest3.length + 2 < fuel
      omega)
    rw [hx] at hsk
    simp only [Bool.false_eq_true, if_false] at hsk
    have hspec : specFindClose oc cc (fuel + 1) prev (c :: c2 :: c3 :: rest3) i depth = none := by
      conv_lhs => rw [specFindClose.eq_def]
      simp [hA, hB, h23, hx]
    rw [hstep, hsk, hspec]
    dsimp only
    show i + 1 + (rest3.length + 2) - 1 = i + (rest3.length + 3) - 1
    omega
  | case7 fuel prev c rest i depth hAB p2 r2 i2 hx hshape ih =>
    obtain ⟨hA, hB⟩ := quoteCond_true c prev hAB
    rcases rest with _ | ⟨c2, rest2⟩
    · have hfx : (0 : Nat) + 1 < fuel + 1 := hfuel
      have hsk := skip_spec oc cc c false depth hd fuel c [] (i + 1) (by
        show 0 < fuel
        omega)
      rw [hx] at hsk
      simp only [Bool.false_eq_true, if_false] at hsk
      obtain ⟨e1, e2, e3⟩ := hsk
      exact absurd e3 (by simp)
    · rcases rest2 with _ | ⟨c3, rest3⟩
      · have hfx : (1 : Nat) + 1 < fuel + 1 := hfuel
        have hsk := skip_spec oc cc c false depth hd fuel c [c2] (i + 1) (by
          show 1 < fuel
          omega)
        rw [hx] at hsk
        simp only [Bool.false_eq_true, if_false] at hsk
        obtain ⟨e1, e2, e3⟩ := hsk
        have e2x : i2 + r2.length = i + 1 + 1 := e2
        have e3x : r2.length < 1 := e3
        have hstep := fmbGo_noq_quote_single1 oc cc prev c c2 i depth hd hAB
        have hspec : specFindClose oc cc (fuel + 1) prev [c, c2] i depth =
            specFindClose oc cc fuel p2 r2 i2 depth := by
          conv_lhs => rw [specFindClose.eq_def]
          simp [hA, hB, hx]
        have ihh := ih (by omega) hd
        rw [hstep, e1, hspec]
        rw [ihh]
        exact matchOptNat_congr _ _ _ (by
          show i2 + r2.length - 1 = i + 2 - 1
          omega)
      · exact absurd rfl (fun hh => hshape c2 c3 rest3 hh)
  | case8 fuel prev c rest i depth hAB hx hshape =>
    obtain ⟨hA, hB⟩ := quoteCond_true c prev hAB
    rcases rest with _ | ⟨c2, rest2⟩
    · have hfx : (0 : Nat) + 1 < fuel + 1 := hfuel
      have hsk := skip_spec oc cc c false depth hd fuel c [] (i + 1) (by
        show 0 < fuel
        omega)
      rw [hx] at hsk
      simp only [Bool.false_eq_true, if_false] at hsk
      have hstep := fmbGo_noq_quote_single0 oc cc prev c i depth hd hAB
      have hspec : specFindClose oc cc (fuel + 1) prev [c] i depth = none := by
        conv_lhs => rw [specFindClose.eq_def]
        simp [hA, hB, hx]
      rw [hstep, hsk, hspec]
      dsimp only
      show i + 1 + 0 - 1 = i + 1 - 1
      omega
    · rcases rest2 with _ | ⟨c3, rest3⟩
      · have hfx : (1 : Nat) + 1 < fuel + 1 := hfuel
        have hsk := skip_spec oc cc c false depth hd fuel c [c2] (i + 1) (by
          show 1 < fuel
          omega)
        rw [hx] at hsk
        simp only [Bool.false_eq_true, if_false] at hsk
        have hstep := fmbGo_noq_quote_single1 oc cc prev c c2 i depth hd hAB
        have hspec : specFindClose oc cc (fuel + 1) prev [c, c2] i depth = none := by
          conv_lhs => rw [specFindClose.eq_def]
          simp [hA, hB, hx]
        rw [hstep, hsk, hspec]
        dsimp only
        show i + 1 + 1 - 1 = i + 2 - 1
        omega
      · exact absurd rfl (fun hh => hshape c2 c3 rest3 hh)
  | case9 fuel prev rest i depth hAB ih =>
    have hfx : rest.length + 1 < fuel + 1 := hfuel
    have hABf : ((oc = dquote || oc = squote) && prev ≠ '\\') = false := by
      revert hAB
      cases ((oc = dquote || oc = squote) && prev ≠ '\\') <;> simp
    have hN := quoteCond_false oc prev hABf
    have hstep := fmbGo_noq_open oc cc prev oc rest i depth hd hABf rfl
    have hspec : specFindClose oc cc (fuel + 1) prev (oc :: rest) i depth =
        specFindClose oc cc fuel oc rest (i + 1) (depth + 1) := by
      conv_lhs => rw [specFindClose.eq_def]
      simp [hN]
    have ihh := ih (by omega) (by omega)
    rw [hstep, hspec]
    rw [ihh]
    exact matchOptNat_congr _ _ _ (by
      show i + 1 + rest.length - 1 = i + (rest.length + 1) - 1
      omega)
  | case10 fuel prev rest i hAB hoc =>
    have hABf : ((cc = dquote || cc = squote) && prev ≠ '\\') = false := by
      revert hAB
      cases ((cc = dquote || cc = squote) && prev ≠ '\\') <;> simp
    have hN := quoteCond_false cc prev hABf
    have hstep := fmbGo_noq_close oc cc prev cc rest i 1 hd hABf hoc rfl
    have hspec : specFindClose oc cc (fuel + 1) prev (cc :: rest) i 1 = some i := by
      conv_lhs => rw [specFindClose.eq_def]
      simp [hN, hoc]
    rw [hstep, hspec, fmbGo_zero]
    dsimp only
    show i + 1 - 1 = i
    omega
  | case11 fuel prev rest i depth hdep hAB hoc ih =>
    have hfx : rest.length + 1 < fuel + 1 := hfuel
    have hABf : ((cc = dquote || cc = squote) && prev ≠ '\\') = false := by
      revert hAB
      cases ((cc = dquote || cc = squote) && prev ≠ '\\') <;> simp
    have hN := quoteCond_false cc prev hABf
    have hstep := fmbGo_noq_close oc cc prev cc rest i depth hd hABf hoc rfl
    have hspec : specFindClose oc cc (fuel + 1) prev (cc :: rest) i depth =
        specFindClose oc cc fuel cc rest (i + 1) (depth - 1) := by
      conv_lhs => rw [specFindClose.eq_def]
      simp [hN, hoc, hdep]
    have ihh := ih (by omega) (by omega)
    rw [hstep, hspec]
    rw [ihh]
    exact matchOptNat_congr _ _ _ (by
      show i + 1 + rest.length - 1 = i + (rest.length + 1) - 1
      omega)
  | case12 fuel prev c rest i depth hAB hoc hcc ih =>
    have hfx : rest.length + 1 < fuel + 1 := hfuel
    have hABf : ((c = dquote || c = squote) && prev ≠ '\\') = false := by
      revert hAB
      cases ((c = dquote || c = squote) && prev ≠ '\\') <;> simp
    have hN := quoteCond_false c prev hABf
    have hstep := fmbGo_noq_other oc cc prev c rest i depth hd hABf hoc hcc
    have hspec : specFindClose oc cc (fuel + 1) prev (c :: rest) i depth =
        specFindClose oc cc fuel c rest (i + 1) depth := by
      conv_lhs => rw [specFindClose.eq_def]
      simp [hN, hoc, hcc]
    have ihh := ih (by omega) hd
    rw [hstep, hspec]
    rw [ihh]
    exact matchOptNat_congr _ _ _ (by
      show i + 1 + rest.length - 1 = i + (rest.length + 1) - 1
      omega)

/-- Claim C4: whenever the reference scanner (specMatchingClose, written
from the specification: depth tracking outside string-literal regions,
unescaped quotes entering and leaving regions, the triple-quote delimiter
consumed as a unit) finds a matching closer for the opening bracket at
`openIndex`, `findMatchingBracket` returns exactly that index —
brackets inside string literals never affect the nesting depth. -/
theorem claim_C4 (text : Str) (openIndex j : Nat)
    (hj : specMatchingClose text openIndex = some j) :
    findMatchingBracket text openIndex = j := by
  unfold specMatchingClose at hj
  dsimp only at hj
  unfold findMatchingBracket
  dsimp only
  have hlen : (text.drop (openIndex + 1)).length = text.length - (openIndex + 1) :=
    List.length_drop _ _
  have hmain := fmb_spec (text.getD openIndex (Char.ofNat 0))
    (if text.getD openIndex (Char.ofNat 0) = obrace then cbrace
     else if text.getD openIndex (Char.ofNat 0) = '[' then ']' else ')')
    (text.length + 1) (text.getD openIndex (Char.ofNat 0))
    (text.drop (openIndex + 1)) (openIndex + 1) 1
    (by omega) (by omega)
  rw [hj] at hmain
  dsimp only at hmain
  exact hmain

/-- Claim C5, amended: when the text is exhausted before the depth
returns to zero (the reference scanner finds no closer),
`findMatchingBracket` returns `text.length - 1` — an IN-range index, not
an out-of-range sentinel — and `extractInputExpression` does not skip
the step: it returns the remainder of the text from the opening bracket
on as the input expression.  (The claim as written is refuted by
`claim_C5_counterexample`.) -/
theorem claim_C5_amended (text : Str) (openIndex : Nat)
    (matchIndex callStart parenStart mIdx : Nat) (mStr : Str) (caps : Caps)
    (hoi : openIndex < text.length)
    (hn : specMatchingClose text openIndex = none)
    (hcall : jsIndexOfFrom text "call_activity".toList matchIndex = some callStart)
    (hparen : jsIndexOfFrom text "(".toList callStart = some parenStart)
    (hmark : rxFind pyInputMarkerPattern (jsSubstringFrom text parenStart) =
      some (mIdx, mStr, caps))
    (hbr : parenStart + mIdx + mStr.length = openIndex)
    (hch : text.getD openIndex (Char.ofNat 0) = obrace ∨
           text.getD openIndex (Char.ofNat 0) = '[' ∨
           text.getD openIndex (Char.ofNat 0) = '(') :
    findMatchingBracket text openIndex = text.length - 1 ∧
    text.length - 1 < text.length ∧
    extractInputExpression text matchIndex =
      some (trimS (jsSubstring text openIndex text.length)) := by
  have hfmb : findMatchingBracket text openIndex = text.length - 1 := by
    unfold specMatchingClose at hn
    dsimp only at hn
    unfold findMatchingBracket
    dsimp only
    have hlen : (text.drop (openIndex + 1)).length = text.length - (openIndex + 1) :=
      List.length_drop _ _
    have hmain := fmb_spec (text.getD openIndex (Char.ofNat 0))
      (if text.getD openIndex (Char.ofNat 0) = obrace then cbrace
       else if text.getD openIndex (Char.ofNat 0) = '[' then ']' else ')')
      (text.length + 1) (text.getD openIndex (Char.ofNat 0))
      (text.drop (openIndex + 1)) (openIndex + 1) 1
      (by omega) (by omega)
    rw [hn] at hmain
    dsimp only at hmain
    rw [hmain, hlen]
    show openIndex + 1 + (text.length - (openIndex + 1)) - 1 = text.length - 1
    omega
  have hlen1 : text.length - 1 + 1 = text.length := by omega
  refine ⟨hfmb, by omega, ?_⟩
  unfold extractInputExpression
  rw [hcall]
  dsimp only
  rw [hparen]
  dsimp only
  rw [hmark]
  dsimp only
  rw [hbr, hfmb]
  rcases hch with hc | hc | hc <;>
    · rw [hc]
      simp [hlen1]

theorem claim_C4_witness :
    specMatchingClose c4text 1 = some 11 ∧ findMatchingBracket c4text 1 = 11 :=
  ⟨by decide, claim_C4 c4text 1 11 (by decide)⟩

set_option maxRecDepth 1000000 in
set_option maxHeartbeats 4000000 in
theorem claim_C5_amended_witness :
    (39 < c5src.length ∧ specMatchingClose c5src 39 = none ∧
     jsIndexOfFrom c5src "call_activity".toList 0 = some 14 ∧
     jsIndexOfFrom c5src "(".toList 14 = some 27 ∧
     rxFind pyInputMarkerPattern (jsSubstringFrom c5src 27) = some (4, ", input=".toList, []) ∧
     27 + 4 + ", input=".toList.length = 39 ∧
     (c5src.getD 39 (Char.ofNat 0) = obrace ∨ c5src.getD 39 (Char.ofNat 0) = '[' ∨
      c5src.getD 39 (Char.ofNat 0) = '(')) ∧
    (findMatchingBracket c5src 39 = c5src.length - 1 ∧
     c5src.length - 1 < c5src.length ∧
     extractInputExpression c5src 0 = some (trimS (jsSubstring c5src 39 c5src.length))) :=
  ⟨⟨by decide, by decide, by decide, by decide, by decide, by decide, by decide⟩,
   claim_C5_amended c5src 39 0 14 27 4 ", input=".toList [] (by decide) (by decide) (by decide)
     (by decide) (by decide) (by decide) (by decide)⟩

theorem jsMapSet_get (m : List (Str × Str)) (k v : Str) :
    jsMapGet (jsMapSet m k v) k = some v := by
  induction m with
  | nil => simp [jsMapSet, jsMapGet, List.find?]
  | cons p t ih =>
    rcases p with ⟨k0, v0⟩
    by_cases h : k0 = k
    · subst h
      simp [jsMapSet, jsMapGet, List.find?]
    · simp only [jsMapSet, if_neg h]
      simp only [jsMapGet, List.find?] at ih ⊢
      simp only [h, decide_False, Bool.false_eq_true]
      exact ih

theorem classifyLoop_first (expr : Str) (tp : Option Str)
    (varName activityId : Str) (pre post : List (Str × Str))
    (hroot : rootsVar varName expr = true)
    (hpre : ∀ p ∈ pre, rootsVar p.1 expr = false) :
    classifyLoop (pre ++ (varName, activityId) :: post) expr tp =
      some { sourceType := .activity_output, sourcePath := expr,
             sourceActivityId := some activityId, targetProperty := tp } := by
  induction pre with
  | nil =>
    unfold rootsVar at hroot
    simp only [List.nil_append, classifyLoop, hroot, if_true]
  | cons p t ih =>
    have hp := hpre p (by simp)
    unfold rootsVar at hp
    simp only [List.cons_append, classifyLoop, hp, Bool.false_eq_true, if_false]
    exact ih (fun q hq => hpre q (by simp [hq]))

/-- Claim C3 (amended): if the producer map holds an entry
`(varName, activityId)`, a later expression is `varName` or a
dotted/indexed access rooted at it, no earlier map entry also roots the
expression, and the variable does not coincide with the workflow-input
parameter name (the workflow-input check runs first and wins), then the
expression's data source is classified as step output (activity_output)
with `sourceActivityId = activityId`; and the producer map always
returns the latest registration for a key, so `activityId` is the most
recent producer of `varName`. The original claim fails without the
shadowing hypothesis: see the counterexample. -/
theorem claim_C3_amended (st : PyState) (expr : Str) (tp : Option Str)
    (varName activityId : Str) (pre post : List (Str × Str))
    (hmap : st.outputVariableMap = pre ++ (varName, activityId) :: post)
    (hroot : rootsVar varName expr = true)
    (hpre : ∀ p ∈ pre, rootsVar p.1 expr = false)
    (hshadow : rootsVar st.workflowInputParam expr = false) :
    classifyExpression st expr tp =
      { sourceType := .activity_output, sourcePath := expr,
        sourceActivityId := some activityId, targetProperty := tp } ∧
    (∀ (m : List (Str × Str)) (k v : Str), jsMapGet (jsMapSet m k v) k = some v) := by
  refine ⟨?_, fun m k v => jsMapSet_get m k v⟩
  unfold classifyExpression
  dsimp only
  unfold rootsVar at hshadow
  rw [hshadow]
  simp only [Bool.false_eq_true, if_false]
  rw [hmap, classifyLoop_first expr tp varName activityId pre post hroot hpre]

theorem claim_C3_amended_witness :
    (({ outputVariableMap := [("r1".toList, "activity-0".toList)] } : PyState).outputVariableMap =
      [] ++ ("r1".toList, "activity-0".toList) :: []) ∧
    rootsVar "r1".toList "r1.data".toList = true ∧
    (∀ p ∈ ([] : List (Str × Str)), rootsVar p.1 "r1.data".toList = false) ∧
    rootsVar ({ outputVariableMap := [("r1".toList, "activity-0".toList)] } : PyState).workflowInputParam
      "r1.data".toList = false ∧
    (classifyExpression { outputVariableMap := [("r1".toList, "activity-0".toList)] }
        "r1.data".toList none =
      { sourceType := .activity_output, sourcePath := "r1.data".toList,
        sourceActivityId := some "activity-0".toList, targetProperty := none } ∧
    (∀ (m : List (Str × Str)) (k v : Str), jsMapGet (jsMapSet m k v) k = some v)) :=
  ⟨by decide, by decide, by decide, by decide,
   claim_C3_amended { outputVariableMap := [("r1".toList, "activity-0".toList)] }
     "r1.data".toList none "r1".toList "activity-0".toList [] []
     (by decide) (by decide) (by decide) (by decide)⟩

/-!
Control-flow assembler development: the assembler walk never emits a
self-loop, and fan-out/fan-in edges for each parallel join are exactly
the group, with one common fan-out source.
-/

theorem insertByLine_perm (x : WorkflowNode) (l : List WorkflowNode) :
    (insertByLine x l).Perm (x :: l) := by
  induction l with
  | nil => rfl
  | cons y ys ih =>
    unfold insertByLine
    by_cases h : lineOf y ≤ lineOf x
    · rw [if_pos h]
      exact (ih.cons y).trans (List.Perm.swap x y ys)
    · rw [if_neg h]

theorem sortByLine_fold_perm :
    ∀ (l acc : List WorkflowNode),
      (l.foldl (fun acc x => insertByLine x acc) acc).Perm (l ++ acc) := by
  intro l
  induction l with
  | nil => intro acc; simp
  | cons a t ih =>
    intro acc
    simp only [List.foldl_cons, List.cons_append]
    refine (ih (insertByLine a acc)).trans ?_
    refine (List.Perm.append_left t (insertByLine_perm a acc)).trans ?_
    exact List.perm_middle

theorem sortByLine_perm (l : List WorkflowNode) : (sortByLine l).Perm l := by
  have h := sortByLine_fold_perm l []
  simpa [sortByLine] using h


theorem nodes_inj (nodes : List WorkflowNode)
    (hn : (nodes.map (fun n => n.id)).Nodup) :
    ∀ a ∈ nodes, ∀ b ∈ nodes, a.id = b.id → a = b :=
  List.inj_on_of_nodup_map hn

theorem jsMapGet_entry (m : List (Str × Str)) (k v : Str)
    (h : jsMapGet m k = some v) : (k, v) ∈ m := by
  induction m with
  | nil => simp [jsMapGet, List.find?] at h
  | cons p t ih =>
    rcases p with ⟨k0, v0⟩
    simp only [jsMapGet, List.find?] at h ih
    by_cases hk : k0 = k
    · subst hk
      simp at h
      subst h
      simp
    · simp only [hk, decide_False, Bool.false_eq_true] at h
      right
      exact ih h

theorem jsMapGet_none_of_not_key (m : List (Str × Str)) (k : Str)
    (h : ∀ v, (k, v) ∉ m) : jsMapGet m k = none := by
  rcases hg : jsMapGet m k with _ | v
  · rfl
  · exact absurd (jsMapGet_entry m k v hg) (h v)

theorem cfinv_val_not_key (nodes : List WorkflowNode) (gm : List (Str × Str))
    (hinv : CFInv nodes gm) :
    ∀ k j, jsMapGet gm k = some j → jsMapGet gm j = none := by
  intro k j hkj
  obtain ⟨hn, _, hkeys, hvals⟩ := hinv
  obtain ⟨jn, hjn, hjid, hjpt, hjty⟩ := hvals _ (jsMapGet_entry gm k j hkj)
  rcases hx : jsMapGet gm j with _ | x
  · rfl
  · obtain ⟨tn, htn, htid, htpt, htty⟩ := hkeys _ (jsMapGet_entry gm j x hx)
    have : jn = tn := nodes_inj nodes hn jn hjn tn htn (by rw [hjid, htid])
    rw [this] at hjpt
    rw [htpt] at hjpt
    exact absurd hjpt (by simp)

theorem cfinv_key_props (nodes : List WorkflowNode) (gm : List (Str × Str))
    (hinv : CFInv nodes gm) :
    ∀ n ∈ nodes, ∀ j, jsMapGet gm n.id = some j →
      n.isParallelTask = true ∧ n.type = .activity := by
  intro n hn j hj
  obtain ⟨hnd, _, hkeys, _⟩ := hinv
  obtain ⟨tn, htn, htid, htpt, htty⟩ := hkeys _ (jsMapGet_entry gm n.id j hj)
  have : n = tn := nodes_inj nodes hnd n hn tn htn htid.symm
  rw [this]
  exact ⟨htpt, htty⟩

theorem cfinv_join_node (nodes : List WorkflowNode) (gm : List (Str × Str))
    (hinv : CFInv nodes gm) :
    ∀ k j, jsMapGet gm k = some j →
      ∃ jn ∈ nodes, jn.id = j ∧ jn.type = .parallel ∧ jn.isParallelTask = false := by
  intro k j hkj
  obtain ⟨_, _, _, hvals⟩ := hinv
  obtain ⟨jn, hjn, hjid, hjpt, hjty⟩ := hvals _ (jsMapGet_entry gm k j hkj)
  exact ⟨jn, hjn, hjid, hjty, hjpt⟩

theorem str_contains_iff (l : List Str) (x : Str) : l.contains x = true ↔ x ∈ l := by
  simp [List.contains]

theorem pt_contains_of_key (nodes : List WorkflowNode) (gm : List (Str × Str))
    (hinv : CFInv nodes gm) (n : WorkflowNode) (hn : n ∈ sortByLine nodes)
    (j : Str) (hj : jsMapGet gm n.id = some j) :
    (((sortByLine nodes).filter (fun n => n.isParallelTask)).map (fun n => n.id)).contains
      n.id = true := by
  have hmem : n ∈ nodes := (sortByLine_perm nodes).subset hn
  have hpt := (cfinv_key_props nodes gm hinv n hmem j hj).1
  rw [str_contains_iff]
  exact List.mem_map_of_mem _ (List.mem_filter.mpr ⟨hn, by simp [hpt]⟩)

theorem start_not_key (nodes : List WorkflowNode) (gm : List (Str × Str))
    (hinv : CFInv nodes gm) (n : WorkflowNode) (hn : n ∈ nodes)
    (hty : n.type = .start) : jsMapGet gm n.id = none := by
  rcases hx : jsMapGet gm n.id with _ | j
  · rfl
  · have := (cfinv_key_props nodes gm hinv n hn j hx).2
    rw [hty] at this
    exact absurd this (by simp)

theorem join_not_key (nodes : List WorkflowNode) (gm : List (Str × Str))
    (hinv : CFInv nodes gm) (n : WorkflowNode) (hn : n ∈ nodes)
    (hty : n.type = .parallel) : jsMapGet gm n.id = none := by
  rcases hx : jsMapGet gm n.id with _ | j
  · rfl
  · have := (cfinv_key_props nodes gm hinv n hn j hx).2
    rw [hty] at this
    exact absurd this (by simp)

theorem notpt_not_key (nodes : List WorkflowNode) (gm : List (Str × Str))
    (hinv : CFInv nodes gm) (n : WorkflowNode) (hn : n ∈ nodes)
    (hpt : n.isParallelTask = false) : jsMapGet gm n.id = none := by
  rcases hx : jsMapGet gm n.id with _ | j
  · rfl
  · have := (cfinv_key_props nodes gm hinv n hn j hx).1
    rw [hpt] at this
    exact absurd this (by simp)

theorem joinIds_not_key (nodes : List WorkflowNode) (gm : List (Str × Str))
    (hinv : CFInv nodes gm) (n : WorkflowNode) (hn : n ∈ nodes)
    (hc : (((sortByLine nodes).filter (fun n =>
        n.type = .parallel && startsWithS n.id "parallel-join".toList)).map
        (fun n => n.id)).contains n.id = true) :
    jsMapGet gm n.id = none := by
  rw [str_contains_iff] at hc
  obtain ⟨m, hm, hmid⟩ := List.mem_map.mp hc
  obtain ⟨hms, hmty⟩ := List.mem_filter.mp hm
  have hmmem : m ∈ nodes := (sortByLine_perm nodes).subset hms
  have hmty2 : m.type = .parallel := by
    rcases Bool.and_eq_true _ _ |>.mp hmty with ⟨h1, _⟩
    exact of_decide_eq_true h1
  have : m = n := nodes_inj nodes hinv.1 m hmmem n hn hmid
  rw [← this]
  exact join_not_key nodes gm hinv m hmmem hmty2

theorem find_join (nodes : List WorkflowNode) (gm : List (Str × Str))
    (hinv : CFInv nodes gm) (k j : Str) (hkj : jsMapGet gm k = some j) :
    ∃ jn, (sortByLine nodes).find? (fun n => n.id = j) = some jn ∧ jn.id = j := by
  obtain ⟨jn0, hjn0, hjid0, _, _⟩ := cfinv_join_node nodes gm hinv k j hkj
  have hjs : jn0 ∈ sortByLine nodes := (sortByLine_perm nodes).symm.subset hjn0
  rcases hf : (sortByLine nodes).find? (fun n => n.id = j) with _ | jn
  · rw [List.find?_eq_none] at hf
    exact absurd (by simp [hjid0]) (hf jn0 hjs)
  · have hp := List.find?_some hf
    simp only [decide_eq_true_eq] at hp
    exact ⟨jn, hf, hp⟩


theorem cfStep_noloop (nodes : List WorkflowNode) (gm : List (Str × Str))
    (hinv : CFInv nodes gm) (st : CFState) (node : WorkflowNode)
    (hn : node ∈ sortByLine nodes)
    (hls : ∀ ls, st.lastSeq = some ls → jsMapGet gm ls.id = none)
    (hed : ∀ e ∈ st.edges, e.source ≠ e.target) :
    (∀ ls, (cfStep (sortByLine nodes) gm (ptIdsOf nodes) (joinIdsOf nodes) st node).lastSeq =
        some ls → jsMapGet gm ls.id = none) ∧
    (∀ e ∈ (cfStep (sortByLine nodes) gm (ptIdsOf nodes) (joinIdsOf nodes) st node).edges,
       e.source ≠ e.target) := by
  have hmem : node ∈ nodes := (sortByLine_perm nodes).subset hn
  unfold cfStep
  by_cases h1 : node.type = .start
  · rw [if_pos h1]
    refine ⟨?_, hed⟩
    intro ls hlseq
    have hlseq2 : some node = some ls := hlseq
    injection hlseq2 with hh
    subst hh
    exact start_not_key nodes gm hinv node hmem h1
  rw [if_neg h1]
  by_cases h2 : node.type = .stop
  · rw [if_pos h2]
    exact ⟨hls, hed⟩
  rw [if_neg h2]
  by_cases h3 : (ptIdsOf nodes).contains node.id = true
  · rw [if_pos h3]
    rcases hg : jsMapGet gm node.id with _ | j
    · dsimp only
      refine ⟨?_, ?_⟩
      · intro ls hlseq
        have hlseq2 : some node = some ls := hlseq
        injection hlseq2 with hh
        subst hh
        exact hg
      · intro e he
        rw [List.mem_append] at he
        rcases he with he | he
        · exact hed e he
        · rcases hlsv : st.lastSeq with _ | ls
          · rw [hlsv] at he
            simp at he
          · rw [hlsv] at he
            dsimp only at he
            by_cases hne : ls.id ≠ node.id
            · rw [if_pos hne] at he
              simp at he
              subst he
              exact hne
            · rw [if_neg hne] at he
              simp at he
    · dsimp only
      by_cases hp : st.processed.contains j = true
      · rw [if_pos hp]
        exact ⟨hls, hed⟩
      · rw [if_neg hp]
        obtain ⟨jn, hfind, hjnid⟩ := find_join nodes gm hinv node.id j hg
        rw [hfind]
        have hjnone : jsMapGet gm j = none := cfinv_val_not_key nodes gm hinv node.id j hg
        refine ⟨?_, ?_⟩
        · intro ls hlseq
          have hlseq2 : some jn = some ls := hlseq
          injection hlseq2 with hh
          subst hh
          rw [hjnid]
          exact hjnone
        · intro e he
          rw [List.mem_append, List.mem_append] at he
          rcases he with (he | he) | he
          · exact hed e he
          · -- fan-out edge
            rcases hlsv : st.lastSeq with _ | ls
            · rw [hlsv] at he
              simp at he
            · rw [hlsv] at he
              rw [List.mem_map] at he
              obtain ⟨p, hpmem, hpe⟩ := he
              have hpkey : jsMapGet gm p.id = some j := by
                have := (List.mem_filter.mp hpmem).2
                exact of_decide_eq_true this
              subst hpe
              show ls.id ≠ p.id
              intro hcontra
              rw [← hcontra] at hpkey
              rw [hls ls hlsv] at hpkey
              exact Option.noConfusion hpkey
          · -- fan-in edge
            rw [List.mem_map] at he
            obtain ⟨p, hpmem, hpe⟩ := he
            have hpkey : jsMapGet gm p.id = some j := by
              have := (List.mem_filter.mp hpmem).2
              exact of_decide_eq_true this
            subst hpe
            show p.id ≠ jn.id
            rw [hjnid]
            intro hcontra
            rw [hcontra] at hpkey
            rw [hjnone] at hpkey
            exact Option.noConfusion hpkey
  rw [if_neg h3]
  by_cases h4 : (joinIdsOf nodes).contains node.id = true
  · rw [if_pos h4]
    have hnone : jsMapGet gm node.id = none :=
      joinIds_not_key nodes gm hinv node hmem h4
    rcases hlsv : st.lastSeq with _ | ls
    · dsimp only
      refine ⟨?_, hed⟩
      intro ls2 hlseq
      have hlseq2 : some node = some ls2 := hlseq
      injection hlseq2 with hh
      subst hh
      exact hnone
    · dsimp only
      by_cases hne : ls.id ≠ node.id
      · rw [if_pos hne]
        refine ⟨?_, hed⟩
        intro ls2 hlseq
        have hlseq2 : some node = some ls2 := hlseq
        injection hlseq2 with hh
        subst hh
        exact hnone
      · rw [if_neg hne]
        exact ⟨hls, hed⟩
  rw [if_neg h4]
  have hnone : jsMapGet gm node.id = none := by
    rcases hx : jsMapGet gm node.id with _ | j
    · rfl
    · exact absurd (pt_contains_of_key nodes gm hinv node hn j hx) h3
  refine ⟨?_, ?_⟩
  · intro ls hlseq
    have hlseq2 : some node = some ls := hlseq
    injection hlseq2 with hh
    subst hh
    exact hnone
  · intro e he
    rw [List.mem_append] at he
    rcases he with he | he
    · exact hed e he
    · rcases hlsv : st.lastSeq with _ | ls
      · rw [hlsv] at he
        simp at he
      · rw [hlsv] at he
        dsimp only at he
        by_cases hne : ls.id ≠ node.id
        · rw [if_pos hne] at he
          simp at he
          subst he
          exact hne
        · rw [if_neg hne] at he
          simp at he

theorem cf_fold_noloop (nodes : List WorkflowNode) (gm : List (Str × Str))
    (hinv : CFInv nodes gm) :
    ∀ (l : List WorkflowNode) (st : CFState),
      (∀ n ∈ l, n ∈ sortByLine nodes) →
      (∀ ls, st.lastSeq = some ls → jsMapGet gm ls.id = none) →
      (∀ e ∈ st.edges, e.source ≠ e.target) →
      (∀ ls, (l.foldl (cfStep (sortByLine nodes) gm (ptIdsOf nodes) (joinIdsOf nodes))
          st).lastSeq = some ls → jsMapGet gm ls.id = none) ∧
      (∀ e ∈ (l.foldl (cfStep (sortByLine nodes) gm (ptIdsOf nodes) (joinIdsOf nodes))
          st).edges, e.source ≠ e.target) := by
  intro l
  induction l with
  | nil =>
    intro st hsub hls hed
    exact ⟨hls, hed⟩
  | cons n t ih =>
    intro st hsub hls hed
    simp only [List.foldl_cons]
    obtain ⟨hls2, hed2⟩ := cfStep_noloop nodes gm hinv st n (hsub n (by simp)) hls hed
    exact ih _ (fun m hm => hsub m (by simp [hm])) hls2 hed2

/-- Claim C10 (amended): under the assembler invariant every
control-flow edge the assembler produces (kinds default and parallel)
has source distinct from target — the control-flow builder never emits
a self-loop. The further part of the original claim is refuted
separately: activity-output data-flow edges can self-loop, not only
event-data edges. -/
theorem claim_C10_amended (nodes : List WorkflowNode) (gm : List (Str × Str))
    (hinv : CFInv nodes gm) :
    ∀ e ∈ buildControlFlowEdges nodes gm, e.source ≠ e.target := by
  intro e he
  unfold buildControlFlowEdges at he
  dsimp only at he
  rw [List.mem_append] at he
  obtain ⟨hfold1, hfold2⟩ := cf_fold_noloop nodes gm hinv (sortByLine nodes) {}
    (fun n hn => hn)
    (fun ls h => absurd h (by simp))
    (fun e he => absurd he (by simp))
  rcases he with he | he
  · exact hfold2 e he
  · rcases hfe : (sortByLine nodes).find? (fun n => n.type = .stop) with _ | en
    · rw [hfe] at he
      simp at he
    · rw [hfe] at he
      rcases hlf : (List.foldl (cfStep (sortByLine nodes) gm
          (((sortByLine nodes).filter (fun n => n.isParallelTask)).map (fun n => n.id))
          (((sortByLine nodes).filter (fun n =>
            n.type = .parallel && startsWithS n.id "parallel-join".toList)).map
            (fun n => n.id)))
          { edges := [], lastSeq := none, processed := [] }
          (sortByLine nodes)).lastSeq with _ | ls
      · rw [hlf] at he
        simp at he
      · rw [hlf] at he
        dsimp only at he
        by_cases hne : ls.id ≠ en.id
        · rw [if_pos hne] at he
          simp at he
          subst he
          exact hne
        · rw [if_neg hne] at he
          simp at he


theorem contains_append_one (l : List Str) (x y : Str) :
    ((l ++ [y]).contains x) = (l.contains x || decide (x = y)) := by
  induction l with
  | nil => simp [List.contains]
  | cons a t ih =>
    simp only [List.cons_append, List.contains_cons, ih, Bool.or_assoc]

theorem filter_dflt_es (gm : List (Str × Str)) (j : Str)
    (es : List WorkflowEdge) (hes : ∀ e ∈ es, e.type = .dflt) :
    es.filter (foP gm j) = [] ∧ es.filter (fiP j) = [] := by
  constructor <;>
    · rw [List.filter_eq_nil_iff]
      intro e he
      have := hes e he
      simp [foP, fiP, this]

theorem guarded_dflt (node : WorkflowNode) (ls : Option WorkflowNode) :
    ∀ e ∈ ((match ls with
           | some l => if l.id ≠ node.id then [mkCtl l.id node.id EdgeType.dflt] else []
           | none => []) : List WorkflowEdge), e.type = .dflt := by
  rcases ls with _ | l
  · intro e he
    exact absurd he (by simp)
  · intro e he
    dsimp only at he
    by_cases h : l.id ≠ node.id
    · rw [if_pos h] at he
      simp at he
      subst he
      rfl
    · rw [if_neg h] at he
      exact absurd he (by simp)

theorem cfA_ext (gm : List (Str × Str)) (j : Str) (st st2 : CFState)
    (es : List WorkflowEdge)
    (hE : st2.edges = st.edges ++ es) (hes : ∀ e ∈ es, e.type = .dflt)
    (hP : st2.processed = st.processed) :
    cfA gm j st → cfA gm j st2 := by
  intro ⟨h1, h2, h3⟩
  obtain ⟨d1, d2⟩ := filter_dflt_es gm j es hes
  exact ⟨by rw [hP]; exact h1,
         by rw [hE, List.filter_append, h2, d1]; rfl,
         by rw [hE, List.filter_append, h3, d2]; rfl⟩

theorem cfB_ext (nodes : List WorkflowNode) (gm : List (Str × Str)) (j : Str)
    (st st2 : CFState) (es : List WorkflowEdge)
    (hE : st2.edges = st.edges ++ es)
    (hes : es.filter (foP gm j) = [] ∧ es.filter (fiP j) = [])
    (hP : st.processed.contains j = true → st2.processed.contains j = true) :
    cfB nodes gm j st → cfB nodes gm j st2 := by
  intro ⟨h1, src, h2, h3⟩
  refine ⟨hP h1, src, ?_, ?_⟩
  · rw [hE, List.filter_append, h2, hes.1, List.append_nil]
  · rw [hE, List.filter_append, h3, hes.2, List.append_nil]

theorem cfB_ext_dflt (nodes : List WorkflowNode) (gm : List (Str × Str)) (j : Str)
    (st st2 : CFState) (es : List WorkflowEdge)
    (hE : st2.edges = st.edges ++ es) (hes : ∀ e ∈ es, e.type = .dflt)
    (hP : st.processed.contains j = true → st2.processed.contains j = true) :
    cfB nodes gm j st → cfB nodes gm j st2 :=
  cfB_ext nodes gm j st st2 es hE (filter_dflt_es gm j es hes) hP

theorem other_group_filters (gm : List (Str × Str)) (j j2 : Str)
    (hne : j2 ≠ j) (hjnone : jsMapGet gm j = none) (hj2none : jsMapGet gm j2 = none)
    (ls : Str) (jnid : Str) (hjn2 : jnid = j2)
    (group2 : List WorkflowNode) (hg2 : ∀ p ∈ group2, jsMapGet gm p.id = some j2) :
    (group2.map (fun p => mkCtl ls p.id .parallel)).filter (foP gm j) = [] ∧
    (group2.map (fun p => mkCtl ls p.id .parallel)).filter (fiP j) = [] ∧
    (group2.map (fun p => mkCtl p.id jnid .parallel)).filter (foP gm j) = [] ∧
    (group2.map (fun p => mkCtl p.id jnid .parallel)).filter (fiP j) = [] := by
  subst hjn2
  refine ⟨?_, ?_, ?_, ?_⟩ <;>
    (rw [List.filter_eq_nil_iff]
     intro e he
     rw [List.mem_map] at he
     obtain ⟨p, hp, hpe⟩ := he
     subst hpe
     have hpk := hg2 p hp
     simp only [foP, fiP, mkCtl, Bool.and_eq_true, decide_eq_true_eq, not_and]
     intro _)
  · intro hcontra
    rw [hpk] at hcontra
    exact hne (Option.some.inj hcontra)
  · intro hcontra
    rw [hcontra] at hpk
    rw [hjnone] at hpk
    exact Option.noConfusion hpk
  · intro hcontra
    rw [hj2none] at hcontra
    exact Option.noConfusion hcontra
  · exact hne

theorem own_group_filters (gm : List (Str × Str)) (j : Str)
    (hjnone : jsMapGet gm j = none)
    (ls : Str) (jnid : Str) (hjn : jnid = j)
    (group : List WorkflowNode) (hg : ∀ p ∈ group, jsMapGet gm p.id = some j) :
    (group.map (fun p => mkCtl ls p.id .parallel)).filter (foP gm j) =
      group.map (fun p => mkCtl ls p.id .parallel) ∧
    (group.map (fun p => mkCtl ls p.id .parallel)).filter (fiP j) = [] ∧
    (group.map (fun p => mkCtl p.id jnid .parallel)).filter (foP gm j) = [] ∧
    (group.map (fun p => mkCtl p.id jnid .parallel)).filter (fiP j) =
      group.map (fun p => mkCtl p.id jnid .parallel) := by
  subst hjn
  refine ⟨?_, ?_, ?_, ?_⟩
  · rw [List.filter_eq_self]
    intro e he
    rw [List.mem_map] at he
    obtain ⟨p, hp, hpe⟩ := he
    subst hpe
    simp [foP, mkCtl, hg p hp]
  · rw [List.filter_eq_nil_iff]
    intro e he
    rw [List.mem_map] at he
    obtain ⟨p, hp, hpe⟩ := he
    subst hpe
    simp only [fiP, mkCtl, Bool.and_eq_true, decide_eq_true_eq, not_and]
    intro _ hcontra
    have hpk := hg p hp
    rw [hcontra] at hpk
    rw [hjnone] at hpk
    exact Option.noConfusion hpk
  · rw [List.filter_eq_nil_iff]
    intro e he
    rw [List.mem_map] at he
    obtain ⟨p, hp, hpe⟩ := he
    subst hpe
    simp only [foP, mkCtl, Bool.and_eq_true, decide_eq_true_eq, not_and]
    intro _ hcontra
    rw [hjnone] at hcontra
    exact Option.noConfusion hcontra
  · rw [List.filter_eq_self]
    intro e he
    rw [List.mem_map] at he
    obtain ⟨p, hp, hpe⟩ := he
    subst hpe
    simp [fiP, mkCtl]

theorem cfStep_filter (nodes : List WorkflowNode) (gm : List (Str × Str))
    (hinv : CFInv nodes gm) (j : Str)
    (hval : ∃ k0, jsMapGet gm k0 = some j)
    (st : CFState) (node : WorkflowNode)
    (hn : node ∈ sortByLine nodes)
    (hcur : st.lastSeq.isSome = true) :
    (cfStep (sortByLine nodes) gm (ptIdsOf nodes) (joinIdsOf nodes) st node).lastSeq.isSome =
      true ∧
    (cfA gm j st →
      cfA gm j (cfStep (sortByLine nodes) gm (ptIdsOf nodes) (joinIdsOf nodes) st node) ∨
      cfB nodes gm j (cfStep (sortByLine nodes) gm (ptIdsOf nodes) (joinIdsOf nodes) st node)) ∧
    (cfB nodes gm j st →
      cfB nodes gm j (cfStep (sortByLine nodes) gm (ptIdsOf nodes) (joinIdsOf nodes) st node)) ∧
    (jsMapGet gm node.id = some j → (cfA gm j st ∨ cfB nodes gm j st) →
      cfB nodes gm j (cfStep (sortByLine nodes) gm (ptIdsOf nodes) (joinIdsOf nodes) st node)) := by
  have hmem : node ∈ nodes := (sortByLine_perm nodes).subset hn
  obtain ⟨k0, hk0⟩ := hval
  have hjnone : jsMapGet gm j = none := cfinv_val_not_key nodes gm hinv k0 j hk0
  rcases hlsv : st.lastSeq with _ | ls
  · rw [hlsv] at hcur
    exact absurd hcur (by simp)
  by_cases h1 : node.type = .start
  · have hstep : cfStep (sortByLine nodes) gm (ptIdsOf nodes) (joinIdsOf nodes) st node =
        { st with lastSeq := some node } := by
      unfold cfStep
      rw [if_pos h1]
    rw [hstep]
    refine ⟨by simp, fun hA => Or.inl hA, fun hB => hB, fun hkey _ => ?_⟩
    have := start_not_key nodes gm hinv node hmem h1
    rw [this] at hkey
    exact Option.noConfusion hkey
  by_cases h2 : node.type = .stop
  · have hstep : cfStep (sortByLine nodes) gm (ptIdsOf nodes) (joinIdsOf nodes) st node = st := by
      unfold cfStep
      rw [if_neg h1, if_pos h2]
    rw [hstep]
    refine ⟨by rw [hlsv]; rfl, fun hA => Or.inl hA, fun hB => hB, fun hkey hAB => ?_⟩
    have := (cfinv_key_props nodes gm hinv node hmem j hkey).2
    rw [h2] at this
    exact absurd this (by simp)
  by_cases h3 : (ptIdsOf nodes).contains node.id = true
  · rcases hg : jsMapGet gm node.id with _ | j2
    · by_cases hne : ls.id ≠ node.id
      · have hstep : cfStep (sortByLine nodes) gm (ptIdsOf nodes) (joinIdsOf nodes) st node =
            { st with edges := st.edges ++ [mkCtl ls.id node.id .dflt],
                      lastSeq := some node } := by
          unfold cfStep
          rw [if_neg h1, if_neg h2, if_pos h3, hg]
          dsimp only
          rw [hlsv]
          dsimp only
          rw [if_pos hne]
        rw [hstep]
        have hes : ∀ e ∈ [mkCtl ls.id node.id EdgeType.dflt], e.type = .dflt := by
          intro e he
          simp at he
          subst he
          rfl
        refine ⟨by simp,
          fun hA => Or.inl (cfA_ext gm j st _ _ rfl hes rfl hA),
          fun hB => cfB_ext_dflt nodes gm j st _ _ rfl hes (fun h => h) hB,
          fun hkey _ => ?_⟩
        exact Option.noConfusion hkey
      · have hstep : cfStep (sortByLine nodes) gm (ptIdsOf nodes) (joinIdsOf nodes) st node =
            { st with edges := st.edges ++ [], lastSeq := some node } := by
          unfold cfStep
          rw [if_neg h1, if_neg h2, if_pos h3, hg]
          dsimp only
          rw [hlsv]
          dsimp only
          rw [if_neg hne]
        rw [hstep]
        refine ⟨by simp,
          fun hA => Or.inl (cfA_ext gm j st _ _ rfl (by simp) rfl hA),
          fun hB => cfB_ext_dflt nodes gm j st _ _ rfl (by simp) (fun h => h) hB,
          fun hkey _ => ?_⟩
        exact Option.noConfusion hkey
    · have hj2none : jsMapGet gm j2 = none :=
        cfinv_val_not_key nodes gm hinv node.id j2 hg
      by_cases hp : st.processed.contains j2 = true
      · have hstep : cfStep (sortByLine nodes) gm (ptIdsOf nodes) (joinIdsOf nodes) st node =
            st := by
          unfold cfStep
          rw [if_neg h1, if_neg h2, if_pos h3, hg]
          dsimp only
          rw [if_pos hp]
        rw [hstep]
        refine ⟨by rw [hlsv]; rfl, fun hA => Or.inl hA, fun hB => hB, fun hkey hAB => ?_⟩
        have hjj := Option.some.inj hkey
        rcases hAB with hA | hB
        · rw [← hjj] at hA
          rw [hA.1] at hp
          exact absurd hp (by simp)
        · exact hB
      · obtain ⟨jn, hfind, hjnid⟩ := find_join nodes gm hinv node.id j2 hg
        have hstep : cfStep (sortByLine nodes) gm (ptIdsOf nodes) (joinIdsOf nodes) st node =
            { edges := st.edges ++
                ((sortByLine nodes).filter (fun p => jsMapGet gm p.id = some j2)).map
                  (fun p => mkCtl ls.id p.id .parallel) ++
                ((sortByLine nodes).filter (fun p => jsMapGet gm p.id = some j2)).map
                  (fun p => mkCtl p.id jn.id .parallel),
              lastSeq := some jn,
              processed := st.processed ++ [j2] } := by
          unfold cfStep
          rw [if_neg h1, if_neg h2, if_pos h3, hg]
          dsimp only
          rw [if_neg hp]
          try dsimp only
          rw [hlsv, hfind]
        rw [hstep]
        have hg2 : ∀ p ∈ (sortByLine nodes).filter
            (fun p => jsMapGet gm p.id = some j2), jsMapGet gm p.id = some j2 := by
          intro p hpmem
          exact of_decide_eq_true (List.mem_filter.mp hpmem).2
        by_cases hjj : j2 = j
        · subst hjj
          refine ⟨by simp, ?_, ?_, ?_⟩
          · intro hA
            refine Or.inr ⟨?_, ls.id, ?_, ?_⟩
            · show (st.processed ++ [j2]).contains j2 = true
              rw [contains_append_one]
              simp
            · show (st.edges ++ _ ++ _).filter (foP gm j2) = _
              obtain ⟨o1, o2, o3, o4⟩ := own_group_filters gm j2 hjnone ls.id jn.id hjnid
                ((sortByLine nodes).filter (fun p => jsMapGet gm p.id = some j2)) hg2
              rw [List.filter_append, List.filter_append, hA.2.1, o1, o3]
              simp [groupOf]
            · show (st.edges ++ _ ++ _).filter (fiP j2) = _
              obtain ⟨o1, o2, o3, o4⟩ := own_group_filters gm j2 hjnone ls.id jn.id hjnid
                ((sortByLine nodes).filter (fun p => jsMapGet gm p.id = some j2)) hg2
              rw [List.filter_append, List.filter_append, hA.2.2, o2, o4]
              simp [groupOf, hjnid]
          · intro hB
            exact absurd hB.1 hp
          · intro hkey hAB
            rcases hAB with hA | hB
            · refine ⟨?_, ls.id, ?_, ?_⟩
              · show (st.processed ++ [j2]).contains j2 = true
                rw [contains_append_one]
                simp
              · show (st.edges ++ _ ++ _).filter (foP gm j2) = _
                obtain ⟨o1, o2, o3, o4⟩ := own_group_filters gm j2 hjnone ls.id jn.id hjnid
                  ((sortByLine nodes).filter (fun p => jsMapGet gm p.id = some j2)) hg2
                rw [List.filter_append, List.filter_append, hA.2.1, o1, o3]
                simp [groupOf]
              · show (st.edges ++ _ ++ _).filter (fiP j2) = _
                obtain ⟨o1, o2, o3, o4⟩ := own_group_filters gm j2 hjnone ls.id jn.id hjnid
                  ((sortByLine nodes).filter (fun p => jsMapGet gm p.id = some j2)) hg2
                rw [List.filter_append, List.filter_append, hA.2.2, o2, o4]
                simp [groupOf, hjnid]
            · exact absurd hB.1 hp
        · obtain ⟨p1, p2, p3, p4⟩ := other_group_filters gm j j2 hjj hjnone hj2none
            ls.id jn.id hjnid
            ((sortByLine nodes).filter (fun p => jsMapGet gm p.id = some j2)) hg2
          refine ⟨by simp, ?_, ?_, ?_⟩
          · intro hA
            refine Or.inl ⟨?_, ?_, ?_⟩
            · show (st.processed ++ [j2]).contains j = false
              rw [contains_append_one, hA.1]
              simp
              exact fun h => hjj h.symm
            · show (st.edges ++ _ ++ _).filter (foP gm j) = []
              rw [List.filter_append, List.filter_append, hA.2.1, p1, p3]
              rfl
            · show (st.edges ++ _ ++ _).filter (fiP j) = []
              rw [List.filter_append, List.filter_append, hA.2.2, p2, p4]
              rfl
          · intro hB
            obtain ⟨hB1, src, hB2, hB3⟩ := hB
            refine ⟨?_, src, ?_, ?_⟩
            · show (st.processed ++ [j2]).contains j = true
              rw [contains_append_one, hB1]
              rfl
            · show (st.edges ++ _ ++ _).filter (foP gm j) = _
              rw [List.filter_append, List.filter_append, hB2, p1, p3]
              simp
            · show (st.edges ++ _ ++ _).filter (fiP j) = _
              rw [List.filter_append, List.filter_append, hB3, p2, p4]
              simp
          · intro hkey _
            exact absurd (Option.some.inj hkey) hjj
  by_cases h4 : (joinIdsOf nodes).contains node.id = true
  · have hnone : jsMapGet gm node.id = none :=
      joinIds_not_key nodes gm hinv node hmem h4
    by_cases hne : ls.id ≠ node.id
    · have hstep : cfStep (sortByLine nodes) gm (ptIdsOf nodes) (joinIdsOf nodes) st node =
          { st with lastSeq := some node } := by
        unfold cfStep
        rw [if_neg h1, if_neg h2, if_neg h3, if_pos h4, hlsv]
        dsimp only
        rw [if_pos hne]
      rw [hstep]
      refine ⟨by simp, fun hA => Or.inl hA, fun hB => hB, fun hkey _ => ?_⟩
      rw [hnone] at hkey
      exact Option.noConfusion hkey
    · have hstep : cfStep (sortByLine nodes) gm (ptIdsOf nodes) (joinIdsOf nodes) st node =
          st := by
        unfold cfStep
        rw [if_neg h1, if_neg h2, if_neg h3, if_pos h4, hlsv]
        dsimp only
        rw [if_neg hne]
      rw [hstep]
      refine ⟨by rw [hlsv]; rfl, fun hA => Or.inl hA, fun hB => hB, fun hkey _ => ?_⟩
      rw [hnone] at hkey
      exact Option.noConfusion hkey
  · have hnone : jsMapGet gm node.id = none := by
      rcases hx : jsMapGet gm node.id with _ | jx
      · rfl
      · exact absurd (pt_contains_of_key nodes gm hinv node hn jx hx) h3
    by_cases hne : ls.id ≠ node.id
    · have hstep : cfStep (sortByLine nodes) gm (ptIdsOf nodes) (joinIdsOf nodes) st node =
          { st with edges := st.edges ++ [mkCtl ls.id node.id .dflt],
                    lastSeq := some node } := by
        unfold cfStep
        rw [if_neg h1, if_neg h2, if_neg h3, if_neg h4]
        dsimp only
        rw [hlsv]
        dsimp only
        rw [if_pos hne]
      rw [hstep]
      have hes : ∀ e ∈ [mkCtl ls.id node.id EdgeType.dflt], e.type = .dflt := by
        intro e he
        simp at he
        subst he
        rfl
      refine ⟨by simp,
        fun hA => Or.inl (cfA_ext gm j st _ _ rfl hes rfl hA),
        fun hB => cfB_ext_dflt nodes gm j st _ _ rfl hes (fun h => h) hB,
        fun hkey _ => ?_⟩
      rw [hnone] at hkey
      exact Option.noConfusion hkey
    · have hstep : cfStep (sortByLine nodes) gm (ptIdsOf nodes) (joinIdsOf nodes) st node =
          { st with edges := st.edges ++ [], lastSeq := some node } := by
        unfold cfStep
        rw [if_neg h1, if_neg h2, if_neg h3, if_neg h4]
        dsimp only
        rw [hlsv]
        dsimp only
        rw [if_neg hne]
      rw [hstep]
      refine ⟨by simp,
        fun hA => Or.inl (cfA_ext gm j st _ _ rfl (by simp) rfl hA),
        fun hB => cfB_ext_dflt nodes gm j st _ _ rfl (by simp) (fun h => h) hB,
        fun hkey _ => ?_⟩
      rw [hnone] at hkey
      exact Option.noConfusion hkey

theorem cf_fold_filter (nodes : List WorkflowNode) (gm : List (Str × Str))
    (hinv : CFInv nodes gm) (j : Str) (hval : ∃ k0, jsMapGet gm k0 = some j) :
    ∀ (l : List WorkflowNode) (st : CFState),
      (∀ n ∈ l, n ∈ sortByLine nodes) →
      st.lastSeq.isSome = true →
      (cfA gm j st ∨ cfB nodes gm j st) →
      ((l.foldl (cfStep (sortByLine nodes) gm (ptIdsOf nodes) (joinIdsOf nodes))
          st).lastSeq.isSome = true ∧
       (cfA gm j (l.foldl (cfStep (sortByLine nodes) gm (ptIdsOf nodes) (joinIdsOf nodes)) st) ∨
        cfB nodes gm j
          (l.foldl (cfStep (sortByLine nodes) gm (ptIdsOf nodes) (joinIdsOf nodes)) st)) ∧
       (cfB nodes gm j st →
        cfB nodes gm j
          (l.foldl (cfStep (sortByLine nodes) gm (ptIdsOf nodes) (joinIdsOf nodes)) st)) ∧
       ((∃ m ∈ l, jsMapGet gm m.id = some j) →
        cfB nodes gm j
          (l.foldl (cfStep (sortByLine nodes) gm (ptIdsOf nodes) (joinIdsOf nodes)) st))) := by
  intro l
  induction l with
  | nil =>
    intro st hsub hsome hAB
    refine ⟨hsome, hAB, fun hB => hB, fun hm => ?_⟩
    obtain ⟨m, hm, _⟩ := hm
    exact absurd hm (by simp)
  | cons n t ih =>
    intro st hsub hsome hAB
    simp only [List.foldl_cons]
    obtain ⟨hS1, hA1, hB1, hM1⟩ := cfStep_filter nodes gm hinv j hval st n
      (hsub n (by simp)) hsome
    have hAB1 : cfA gm j (cfStep (sortByLine nodes) gm (ptIdsOf nodes) (joinIdsOf nodes) st n) ∨
        cfB nodes gm j (cfStep (sortByLine nodes) gm (ptIdsOf nodes) (joinIdsOf nodes) st n) := by
      rcases hAB with hA | hB
      · exact hA1 hA
      · exact Or.inr (hB1 hB)
    obtain ⟨iS, iAB, iB, iM⟩ := ih _ (fun m hm => hsub m (by simp [hm])) hS1 hAB1
    refine ⟨iS, iAB, fun hB => iB (hB1 hB), fun hm => ?_⟩
    obtain ⟨m, hm, hkey⟩ := hm
    rcases List.mem_cons.mp hm with rfl | hmt
    · exact iB (hM1 hkey hAB)
    · exact iM ⟨m, hmt, hkey⟩

theorem jsMapGet_of_mem (m : List (Str × Str)) (k v : Str)
    (hmk : (m.map Prod.fst).Nodup) (hm : (k, v) ∈ m) : jsMapGet m k = some v := by
  induction m with
  | nil => exact absurd hm (by simp)
  | cons p t ih =>
    rcases p with ⟨k0, v0⟩
    rcases List.mem_cons.mp hm with heq | hmt
    · injection heq with h1 h2
      subst h1
      subst h2
      simp [jsMapGet, List.find?]
    · have hk0 : k0 ≠ k := by
        intro hcontra
        subst hcontra
        have hmem : k0 ∈ t.map Prod.fst := List.mem_map_of_mem Prod.fst hmt
        rw [List.map_cons, List.nodup_cons] at hmk
        exact hmk.1 hmem
      simp only [jsMapGet, List.find?, hk0, decide_False]
      have hmk2 : (t.map Prod.fst).Nodup := by
        rw [List.map_cons, List.nodup_cons] at hmk
        exact hmk.2
      have := ih hmk2 hmt
      simpa [jsMapGet] using this

theorem group_perm_tasks (nodes : List WorkflowNode) (gm : List (Str × Str))
    (hinv : CFInv nodes gm) (j : Str) :
    ((groupOf nodes gm j).map (fun n => n.id)).Perm (tasksOf gm j) := by
  have hsortnd : ((sortByLine nodes).map (fun n => n.id)).Nodup :=
    (List.Perm.nodup_iff ((sortByLine_perm nodes).map (fun n => n.id))).mpr hinv.1
  have hgnd : ((groupOf nodes gm j).map (fun n => n.id)).Nodup := by
    refine List.Nodup.sublist ?_ hsortnd
    exact List.Sublist.map _ (List.filter_sublist _)
  have htnd : (tasksOf gm j).Nodup := by
    refine List.Nodup.sublist ?_ hinv.2.1
    exact List.Sublist.map _ (List.filter_sublist _)
  rw [List.perm_ext_iff_of_nodup hgnd htnd]
  intro x
  constructor
  · intro hx
    rw [List.mem_map] at hx
    obtain ⟨n, hn, hnid⟩ := hx
    obtain ⟨hns, hnk⟩ := List.mem_filter.mp hn
    have hnk2 : jsMapGet gm n.id = some j := of_decide_eq_true hnk
    rw [hnid] at hnk2
    have hentry : (x, j) ∈ gm := jsMapGet_entry gm x j hnk2
    unfold tasksOf
    rw [List.mem_map]
    exact ⟨(x, j), List.mem_filter.mpr ⟨hentry, by simp⟩, rfl⟩
  · intro hx
    unfold tasksOf at hx
    rw [List.mem_map] at hx
    obtain ⟨p, hp, hpx⟩ := hx
    obtain ⟨hpg, hpj⟩ := List.mem_filter.mp hp
    have hpj2 : p.2 = j := of_decide_eq_true hpj
    have hentry : (x, j) ∈ gm := by
      have : p = (x, j) := by
        rcases p with ⟨a, b⟩
        simp only at hpx hpj2
        rw [hpx, hpj2]
      rw [← this]
      exact hpg
    have hget : jsMapGet gm x = some j := jsMapGet_of_mem gm x j hinv.2.1 hentry
    obtain ⟨n, hn, hnid, _, _⟩ := hinv.2.2.1 (x, j) hentry
    have hns : n ∈ sortByLine nodes := (sortByLine_perm nodes).symm.subset hn
    rw [List.mem_map]
    refine ⟨n, List.mem_filter.mpr ⟨hns, ?_⟩, hnid⟩
    rw [hnid]
    simp [hget]

theorem buildCF_eq (nodes : List WorkflowNode) (gm : List (Str × Str)) :
    buildControlFlowEdges nodes gm =
      (List.foldl (cfStep (sortByLine nodes) gm (ptIdsOf nodes) (joinIdsOf nodes))
        { edges := [], lastSeq := none, processed := [] } (sortByLine nodes)).edges ++
      (match (sortByLine nodes).find? (fun n => n.type = .stop),
             (List.foldl (cfStep (sortByLine nodes) gm (ptIdsOf nodes) (joinIdsOf nodes))
               { edges := [], lastSeq := none, processed := [] }
               (sortByLine nodes)).lastSeq with
       | some en, some ls => if ls.id ≠ en.id then [mkCtl ls.id en.id .dflt] else []
       | _, _ => []) := rfl

theorem endEdge_dflt (o1 : Option WorkflowNode) (o2 : Option WorkflowNode) :
    ∀ e ∈ ((match o1, o2 with
            | some en, some ls => if ls.id ≠ en.id then [mkCtl ls.id en.id .dflt] else []
            | _, _ => []) : List WorkflowEdge), e.type = .dflt := by
  rcases o1 with _ | en <;> rcases o2 with _ | ls
  · intro e he
    exact absurd he (by simp)
  · intro e he
    exact absurd he (by simp)
  · intro e he
    exact absurd he (by simp)
  · intro e he
    dsimp only at he
    by_cases h : ls.id ≠ en.id
    · rw [if_pos h] at he
      simp at he
      subst he
      rfl
    · rw [if_neg h] at he
      exact absurd he (by simp)

/-- Claim C1 (amended): under the assembler invariant, for every
parallel join `j` with `k ≥ 1` mapped tasks and a start-headed sorted
node list, the produced graph holds exactly `k` fan-out parallel edges
whose targets are exactly the group members, exactly `k` fan-in
parallel edges from the group members into `j`, and all fan-out edges
share one common source. The original claim's identification of that
source with the node immediately preceding the group in line-sorted
order is refuted separately: it is the walk's last sequential cursor,
which differs when groups interleave. -/
theorem claim_C1_amended (nodes : List WorkflowNode) (gm : List (Str × Str)) (j : Str) (k : Nat)
    (hinv : CFInv nodes gm)
    (hk : (tasksOf gm j).length = k) (hk1 : 1 ≤ k)
    (hhead : ((sortByLine nodes).head?.map (fun n => n.type)) = some .start) :
    ∃ src,
      (buildControlFlowEdges nodes gm).filter (foP gm j) =
        (groupOf nodes gm j).map (fun p => mkCtl src p.id .parallel) ∧
      (buildControlFlowEdges nodes gm).filter (fiP j) =
        (groupOf nodes gm j).map (fun p => mkCtl p.id j .parallel) ∧
      ((groupOf nodes gm j).map (fun n => n.id)).Perm (tasksOf gm j) ∧
      ((buildControlFlowEdges nodes gm).filter (foP gm j)).length = k ∧
      ((buildControlFlowEdges nodes gm).filter (fiP j)).length = k := by
  -- j is a value of the map, with a witness key
  have htne : tasksOf gm j ≠ [] := by
    intro hcontra
    rw [hcontra] at hk
    simp at hk
    omega
  obtain ⟨x, hx⟩ := List.exists_mem_of_ne_nil _ htne
  have hentry : (x, j) ∈ gm := by
    unfold tasksOf at hx
    rw [List.mem_map] at hx
    obtain ⟨p, hp, hpx⟩ := hx
    obtain ⟨hpg, hpj⟩ := List.mem_filter.mp hp
    have hpj2 : p.2 = j := of_decide_eq_true hpj
    have : p = (x, j) := by
      rcases p with ⟨a, b⟩
      simp only at hpx hpj2
      rw [hpx, hpj2]
    rw [← this]
    exact hpg
  have hval : ∃ k0, jsMapGet gm k0 = some j :=
    ⟨x, jsMapGet_of_mem gm x j hinv.2.1 hentry⟩
  -- a group member in the sorted list
  obtain ⟨m, hmn, hmid, hmpt, hmty⟩ := hinv.2.2.1 (x, j) hentry
  have hmkey : jsMapGet gm m.id = some j := by
    rw [hmid]
    exact hval.choose_spec.symm ▸ jsMapGet_of_mem gm x j hinv.2.1 hentry
  have hms : m ∈ sortByLine nodes := (sortByLine_perm nodes).symm.subset hmn
  -- the sorted list starts with the start node
  rcases hs : sortByLine nodes with _ | ⟨n0, t⟩
  · rw [hs] at hhead
    simp at hhead
  have hn0ty : n0.type = .start := by
    rw [hs] at hhead
    simp at hhead
    exact hhead
  -- split the fold at the first step
  have hsp1 := congrArg (fun l : List WorkflowNode =>
    List.foldl (cfStep (sortByLine nodes) gm (ptIdsOf nodes) (joinIdsOf nodes))
      { edges := [], lastSeq := none, processed := [] } l) hs
  dsimp only at hsp1
  rw [List.foldl_cons] at hsp1
  have hstart : cfStep (sortByLine nodes) gm (ptIdsOf nodes) (joinIdsOf nodes)
      { edges := [], lastSeq := none, processed := [] } n0 =
      { edges := [], lastSeq := some n0, processed := [] } := by
    unfold cfStep
    rw [if_pos hn0ty]
  rw [hstart] at hsp1
  -- the group member is in the tail
  have hmt : m ∈ t := by
    rw [hs] at hms
    rcases List.mem_cons.mp hms with rfl | hmt
    · have := (cfinv_key_props nodes gm hinv m hmn j hmkey).2
      rw [hn0ty] at this
      exact absurd this (by simp)
    · exact hmt
  -- run the fold invariant over the tail
  obtain ⟨fS, fAB, fB, fM⟩ := cf_fold_filter nodes gm hinv j hval t
    { edges := [], lastSeq := some n0, processed := [] }
    (fun q hq => by rw [hs]; exact List.mem_cons.mpr (Or.inr hq))
    (by simp)
    (Or.inl ⟨rfl, rfl, rfl⟩)
  have hBfin := fM ⟨m, hmt, hmkey⟩
  obtain ⟨hBproc, src, hfo, hfi⟩ := hBfin
  refine ⟨src, ?_, ?_, group_perm_tasks nodes gm hinv j, ?_, ?_⟩
  all_goals
    rw [buildCF_eq, ← hsp1] at *
  · rw [List.filter_append, hfo]
    obtain ⟨d1, d2⟩ := filter_dflt_es gm j _ (endEdge_dflt _ _)
    rw [d1, List.append_nil]
  · rw [List.filter_append, hfi]
    obtain ⟨d1, d2⟩ := filter_dflt_es gm j _ (endEdge_dflt _ _)
    rw [d2, List.append_nil]
  · rw [List.filter_append, hfo]
    obtain ⟨d1, d2⟩ := filter_dflt_es gm j _ (endEdge_dflt _ _)
    rw [d1, List.append_nil, List.length_map]
    have hperm := group_perm_tasks nodes gm hinv j
    have := hperm.length_eq
    rw [List.length_map] at this
    omega
  · rw [List.filter_append, hfi]
    obtain ⟨d1, d2⟩ := filter_dflt_es gm j _ (endEdge_dflt _ _)
    rw [d2, List.append_nil, List.length_map]
    have hperm := group_perm_tasks nodes gm hinv j
    have := hperm.length_eq
    rw [List.length_map] at this
    omega


theorem claim_C1_amended_witness :
    (CFInv cfWitNodes cfWitGm ∧
     (tasksOf cfWitGm "parallel-join-0".toList).length = 2 ∧
     1 ≤ 2 ∧
     ((sortByLine cfWitNodes).head?.map (fun n => n.type)) = some .start) ∧
    (∃ src,
      (buildControlFlowEdges cfWitNodes cfWitGm).filter
          (foP cfWitGm "parallel-join-0".toList) =
        (groupOf cfWitNodes cfWitGm "parallel-join-0".toList).map
          (fun p => mkCtl src p.id .parallel) ∧
      (buildControlFlowEdges cfWitNodes cfWitGm).filter (fiP "parallel-join-0".toList) =
        (groupOf cfWitNodes cfWitGm "parallel-join-0".toList).map
          (fun p => mkCtl p.id "parallel-join-0".toList .parallel) ∧
      ((groupOf cfWitNodes cfWitGm "parallel-join-0".toList).map (fun n => n.id)).Perm
        (tasksOf cfWitGm "parallel-join-0".toList) ∧
      ((buildControlFlowEdges cfWitNodes cfWitGm).filter
          (foP cfWitGm "parallel-join-0".toList)).length = 2 ∧
      ((buildControlFlowEdges cfWitNodes cfWitGm).filter
          (fiP "parallel-join-0".toList)).length = 2) :=
  ⟨⟨by decide, by decide, by decide, by decide⟩,
   claim_C1_amended cfWitNodes cfWitGm "parallel-join-0".toList 2
     (by decide) (by decide) (by decide) (by decide)⟩

theorem claim_C10_amended_witness :
    CFInv cfWitNodes cfWitGm ∧
    (∀ e ∈ buildControlFlowEdges cfWitNodes cfWitGm, e.source ≠ e.target) :=
  ⟨by decide, claim_C10_amended cfWitNodes cfWitGm (by decide)⟩

end DaprViz
